import Mathlib

/-!
Verification development for the aptitude search-pattern engine
(`src/generic/apt/matchers.cc`).

The development shallowly embeds the matcher data model, the two evaluation
operations (`matches` and `get_match`, each in version mode and package mode)
and the recursive-descent parser (`parse_pattern` and its helpers) as
executable Lean functions, and proves the claimed properties about them.

Modelling conventions:
* Packages and versions are opaque identifiers (`Nat`); the package catalog
  (apt's `pkgCache`/`aptitudeDepCache`/`pkgRecords` plus the external helpers
  `find_pkg_state`, `pkg_obsolete`, `get_tasks`, `get_tags`,
  `_system->VS->CheckDep` and the POSIX regex engine, none of which are part
  of this translation unit) is a structure of uninterpreted accessor
  functions.
* A `pkgCache::VerIterator` that may be an end iterator is `Option VerId`
  (`none` is the "no version" sentinel).
* The POSIX regex engine is modelled by a single abstract capture-run
  function `regexec : String → String → Option (List String)`; the source
  compiles every pattern twice (with and without `REG_NOSUB`), but the two
  compiled forms accept exactly the same strings, so `string_matches` is
  modelled as `isSome` of the capture run.
* The `eassert` bound checks in `pkg_bind_matcher` and `pkg_equal_matcher`
  abort the process on failure; evaluation is therefore `Option`-valued,
  with `none` modelling the aborted run.
* The memo table of `pkg_user_tag_matcher` only caches results of the pure
  function `get_string_match ∘ deref_user_tag`, so it is dropped.
-/

namespace Aptitude

/-- Opaque package handle (`pkgCache::PkgIterator`). -/
abbrev PkgId := Nat

/-- Opaque version handle (a non-end `pkgCache::VerIterator`). -/
abbrev VerId := Nat

/-- Dependency types (`pkgCache::Dep::DepType`). -/
inductive DepType where
  | depends | predepends | recommends | suggests | conflicts | dpkgBreaks | replaces
deriving DecidableEq, Repr

/-- Version priorities (`pkgCache::State::VerPriority`). -/
inductive VerPriority where
  | important | required | standard | optionalP | extra
deriving DecidableEq, Repr

/-- Package action states (`pkg_action_state`, defined outside this file). -/
inductive ActionState where
  | unchanged | brokenA | unusedRemove | autoHold | autoInstall | autoRemove
  | downgrade | hold | reinstall | install | remove | upgrade
deriving DecidableEq, Repr

/-- One record of a version file list entry together with the fields the
matchers read from `pkgRecords::Parser` (`SourcePkg`, `SourceVer`) and from
`pkgCache::PkgFileIterator` (`Archive`, `Origin`; `none` models a null
pointer or an end file iterator). -/
structure FileRec where
  archive : Option String
  origin : Option String
  sourcePkg : String
  sourceVer : String
deriving DecidableEq, Repr

/-- One dependency record (`pkgCache::DepIterator`), with the per-dependency
cache bit `DepGInstall` and the or-group continuation flag
(`CompareOp & pkgCache::Dep::Or`). -/
structure DepRec where
  dtype : DepType
  orFlag : Bool
  compareOp : Nat
  targetPkg : PkgId
  targetVer : Option String
  ginstall : Bool
  parentPkg : PkgId
  parentVer : VerId
deriving DecidableEq, Repr

/-- The catalog interface: everything the matchers read from the apt cache,
the records store and the external helper functions. -/
structure Env where
  versions : PkgId → List VerId
  currentVer : PkgId → Option VerId
  candVer : PkgId → Option VerId
  instVer : PkgId → Option VerId
  pkgName : PkgId → String
  verStr : VerId → String
  sectionOf : VerId → Option String
  priorityOf : VerId → VerPriority
  priorityTypeName : VerId → String
  longDesc : VerId → String
  maintainerOf : VerId → String
  files : VerId → List FileRec
  deps : VerId → List DepRec
  revDeps : PkgId → List DepRec
  providesOf : VerId → List PkgId
  providersOf : PkgId → List (PkgId × VerId)
  tasksOf : PkgId → Option (List String)
  tagsOf : PkgId → Option (List String)
  userTagsOf : PkgId → List Nat
  derefUserTag : Nat → String
  autoFlag : PkgId → Bool
  installB : PkgId → Bool
  nowBroken : PkgId → Bool
  instBroken : PkgId → Bool
  keepB : PkgId → Bool
  purgeFlag : PkgId → Bool
  holdSel : PkgId → Bool
  actionState : PkgId → ActionState
  essentialFlag : PkgId → Bool
  importantFlag : PkgId → Bool
  configFilesState : PkgId → Bool
  newFlag : PkgId → Bool
  upgradableB : PkgId → Bool
  obsoleteB : PkgId → Bool
  garbageFlag : PkgId → Bool
  checkDep : String → Nat → Option String → Bool
  depRender : DepRec → String
  regexec : String → String → Option (List String)

/-- Values stored on the match stack (`pkg_matcher_real::stack_value`); a
version value may carry the end iterator. -/
inductive StackValue where
  | package (pkg : PkgId)
  | version (pkg : PkgId) (ver : Option VerId)
deriving DecidableEq, Repr

/-- A match result (`pkg_match_result` and its concrete subclasses). -/
inductive MatchResult where
  | empty
  | unitary (s : String)
  | pair (a b : MatchResult)
  | regexGroups (gs : List String)
deriving DecidableEq, Repr

/-- Number of capture groups of a result (`num_groups`). -/
def MatchResult.numGroups : MatchResult → Nat
  | .empty => 0
  | .unitary _ => 1
  | .pair a b => a.numGroups + b.numGroups
  | .regexGroups gs => gs.length

/-- The value-matching relation `stack_value::is_match_for`: packages match
any of their versions or themselves, versions match themselves and their
package. -/
def StackValue.is_match_for : StackValue → StackValue → Bool
  | .package p, .package q => p == q
  | .package p, .version q _ => p == q
  | .version p _, .package q => p == q
  | .version p v, .version q w => p == q && v == w

set_option maxHeartbeats 1600000 in
/-- The matcher tree.  Constructors correspond one to one to the
`pkg_*_matcher` classes that `parse_pattern` can produce. -/
inductive Matcher where
  | name (pat : String)
  | description (pat : String)
  | maintainer (pat : String)
  | sect (pat : String)
  | version (pat : String)
  | currVersion
  | candVersion
  | instVersion
  | archive (pat : String)
  | origin (pat : String)
  | sourcePackage (pat : String)
  | sourceVersion (pat : String)
  | task (pat : String)
  | tag (pat : String)
  | userTag (pat : String)
  | priority (level : VerPriority)
  | auto
  | broken
  | brokenType (t : DepType)
  | action (st : ActionState) (requirePurge : Bool)
  | keep
  | installed
  | virtualPkg
  | essential
  | configFiles
  | newPkg
  | upgradable
  | obsolete
  | garbage
  | mtrue
  | mfalse
  | and (l r : Matcher)
  | or (l r : Matcher)
  | not (c : Matcher)
  | dep (t : DepType) (brokenOnly : Bool) (pat : Matcher)
  | revdep (t : DepType) (brokenOnly : Bool) (pat : Matcher)
  | provides (pat : Matcher)
  | revprv (pat : Matcher)
  | widen (pat : Matcher)
  | select (filter pat : Matcher)
  | allVersions (sub : Matcher)
  | anyVersion (sub : Matcher)
  | explicitM (sub : Matcher)
  | bindM (sub : Matcher) (idx : Nat)
  | equal (idx : Nat)
deriving DecidableEq, Repr

/-- The pattern actually handed to `regcomp`:
`pkg_string_matcher::pkg_string_matcher` rewrites an empty pattern to
`".*"`. -/
def compiledPattern (p : String) : String :=
  if p = "" then ".*" else p

/-- Boolean regex test (`pkg_string_matcher::string_matches`). -/
def string_matches (env : Env) (pat s : String) : Bool :=
  (env.regexec (compiledPattern pat) s).isSome

/-- Capture-collecting regex run (`pkg_string_matcher::get_string_match`). -/
def get_string_match (env : Env) (pat s : String) : Option MatchResult :=
  (env.regexec (compiledPattern pat) s).map MatchResult.regexGroups

/-- Rendering of a dependency for `dep_match` (the `DepType` name paired
with the textual rendering of the surrounding or group, which reads catalog
strings and is modelled by the uninterpreted `Env.depRender`). -/
def dep_match (env : Env) (d : DepRec) : MatchResult :=
  .pair (.unitary (reprStr d.dtype)) (.unitary (env.depRender d))

/-- Walk to the end of the or group starting at `d` (with `rest` the
remaining dependency list) and report its `DepGInstall` bit, as in
`while(d2->CompareOp & pkgCache::Dep::Or) ++d2; cache[d2] & DepGInstall`.
Running off the list (ill-formed catalog) keeps the last flag. -/
def orGroupGInstall : DepRec → List DepRec → Bool
  | d, rest =>
    if d.orFlag then
      match rest with
      | [] => d.ginstall
      | e :: es => orGroupGInstall e es
    else d.ginstall

/-! Evaluation.  `Option`-valued: `none` models a run aborted by a failed
`eassert` bound check in `pkg_bind_matcher`/`pkg_equal_matcher`. -/

abbrev Stack := List StackValue

/-- Loop returning true at the first element that matches, propagating
aborts. -/
def firstTrue (f : α → Option Bool) : List α → Option Bool
  | [] => some false
  | x :: xs =>
    match f x with
    | none => none
    | some true => some true
    | some false => firstTrue f xs

/-- Loop returning false at the first element that fails, propagating
aborts (`pkg_all_matcher`'s package-mode loop). -/
def allTrue (f : α → Option Bool) : List α → Option Bool
  | [] => some true
  | x :: xs =>
    match f x with
    | none => none
    | some false => some false
    | some true => allTrue f xs

/-- Loop returning the first non-null result, propagating aborts. -/
def firstSome (f : α → Option (Option MatchResult)) :
    List α → Option (Option MatchResult)
  | [] => some none
  | x :: xs =>
    match f x with
    | none => none
    | some (some r) => some (some r)
    | some none => firstSome f xs

/-- The loop of `pkg_all_matcher::get_match` (package mode): null as soon
as one version yields null, otherwise the last version's result; null on an
empty version list. -/
def allGet (f : α → Option (Option MatchResult)) :
    List α → Option (Option MatchResult)
  | [] => some none
  | x :: xs =>
    match f x with
    | none => none
    | some none => some none
    | some (some r) =>
      match xs with
      | [] => some (some r)
      | _ :: _ => allGet f xs

/-- First string in the list whose regex run succeeds (the loops of the
task/tag/user-tag `get_match` methods). -/
def firstStringMatch (env : Env) (pat : String) : List String → Option MatchResult
  | [] => none
  | s :: ss =>
    match get_string_match env pat s with
    | some r => some r
    | none => firstStringMatch env pat ss

/-- The loop of `pkg_source_package_matcher::matches` (and, with the other
field selector, `pkg_source_version_matcher::matches`).  `checked` embeds
the `checked_real_package` flag exactly as in the source, where it is
initialised to false and never updated. -/
def sourceFieldLoop (env : Env) (pat : String) (field : FileRec → String)
    (defaultStr : String) (checked : Bool) : List FileRec → Bool
  | [] => false
  | f :: fs =>
    if field f = "" then
      if !checked then
        if string_matches env pat defaultStr then true
        else sourceFieldLoop env pat field defaultStr checked fs
      else sourceFieldLoop env pat field defaultStr checked fs
    else if string_matches env pat (field f) then true
    else sourceFieldLoop env pat field defaultStr checked fs

/-- The loop of `pkg_source_package_matcher::get_match` (and of
`pkg_source_version_matcher::get_match`). -/
def sourceFieldGetLoop (env : Env) (pat : String) (field : FileRec → String)
    (defaultStr : String) (checked : Bool) : List FileRec → Option MatchResult
  | [] => none
  | f :: fs =>
    if field f = "" then
      if !checked then
        match get_string_match env pat defaultStr with
        | some r => some r
        | none => sourceFieldGetLoop env pat field defaultStr checked fs
      else sourceFieldGetLoop env pat field defaultStr checked fs
    else
      match get_string_match env pat (field f) with
      | some r => some r
      | none => sourceFieldGetLoop env pat field defaultStr checked fs

/-- The loop of `pkg_broken_type_matcher`: skip or-continuations, then test
the or group's final dependency. -/
def brokenTypeLoop (t : DepType) : List DepRec → Option DepRec
  | [] => none
  | d :: ds =>
    if d.orFlag then brokenTypeLoop t ds
    else if d.dtype == t && !d.ginstall then some d
    else brokenTypeLoop t ds

/-- Dependency type test of `pkg_dep_matcher` and of the direct loop of
`pkg_revdep_matcher`: `PreDepends` is folded into `Depends`. -/
def depTypeHit (t : DepType) (dt : DepType) : Bool :=
  t == dt || (t == DepType.depends && dt == DepType.predepends)

/-- Inner loop of `pkg_dep_matcher::matches` over the target package's
versions satisfying the version constraint. -/
def depVerLoop (env : Env) (d : DepRec)
    (vf : PkgId → Option VerId → Option Bool) : List VerId → Option Bool
  | [] => some false
  | v :: vs =>
    if env.checkDep (env.verStr v) d.compareOp d.targetVer then
      match vf d.targetPkg (some v) with
      | none => none
      | some true => some true
      | some false => depVerLoop env d vf vs
    else depVerLoop env d vf vs

/-- Main loop of `pkg_dep_matcher::matches` over the version's
dependencies. -/
def depLoop (env : Env) (t : DepType) (brokenOnly : Bool)
    (vf : PkgId → Option VerId → Option Bool) : List DepRec → Option Bool
  | [] => some false
  | d :: ds =>
    if depTypeHit t d.dtype then
      if brokenOnly && orGroupGInstall d ds then depLoop env t brokenOnly vf ds
      else
        match (if (env.versions d.targetPkg).isEmpty then vf d.targetPkg none
               else some false) with
        | none => none
        | some true => some true
        | some false =>
          match depVerLoop env d vf (env.versions d.targetPkg) with
          | none => none
          | some true => some true
          | some false => depLoop env t brokenOnly vf ds
    else depLoop env t brokenOnly vf ds

/-- Inner loop of `pkg_dep_matcher::get_match` over constrained target
versions. -/
def depVerGetLoop (env : Env) (d : DepRec)
    (gf : PkgId → Option VerId → Option (Option MatchResult)) :
    List VerId → Option (Option MatchResult)
  | [] => some none
  | v :: vs =>
    if env.checkDep (env.verStr v) d.compareOp d.targetVer then
      match gf d.targetPkg (some v) with
      | none => none
      | some (some r) => some (some (.pair r (dep_match env d)))
      | some none => depVerGetLoop env d gf vs
    else depVerGetLoop env d gf vs

/-- Main loop of `pkg_dep_matcher::get_match`. -/
def depGetLoop (env : Env) (t : DepType) (brokenOnly : Bool)
    (gf : PkgId → Option VerId → Option (Option MatchResult)) :
    List DepRec → Option (Option MatchResult)
  | [] => some none
  | d :: ds =>
    if depTypeHit t d.dtype then
      if brokenOnly && orGroupGInstall d ds then depGetLoop env t brokenOnly gf ds
      else
        match (if (env.versions d.targetPkg).isEmpty then gf d.targetPkg none
               else some none) with
        | none => none
        | some (some r) => some (some (.pair r (dep_match env d)))
        | some none =>
          match depVerGetLoop env d gf (env.versions d.targetPkg) with
          | none => none
          | some (some r) => some (some r)
          | some none => depGetLoop env t brokenOnly gf ds
    else depGetLoop env t brokenOnly gf ds

/-- Version-constraint test of the direct loop of `pkg_revdep_matcher`:
`!d.TargetVer() || (!ver.end() && CheckDep(ver.VerStr(), op, d.TargetVer()))`. -/
def revdepVerHit (env : Env) (d : DepRec) (ver : Option VerId) : Bool :=
  match d.targetVer with
  | none => true
  | some _ =>
    match ver with
    | none => false
    | some v => env.checkDep (env.verStr v) d.compareOp d.targetVer

/-- Direct reverse-dependency loop of `pkg_revdep_matcher::matches`. -/
def revdepLoop (env : Env) (t : DepType) (brokenOnly : Bool) (ver : Option VerId)
    (vf : PkgId → Option VerId → Option Bool) : List DepRec → Option Bool
  | [] => some false
  | d :: ds =>
    if brokenOnly && orGroupGInstall d ds then revdepLoop env t brokenOnly ver vf ds
    else if depTypeHit t d.dtype && revdepVerHit env d ver then
      match vf d.parentPkg (some d.parentVer) with
      | none => none
      | some true => some true
      | some false => revdepLoop env t brokenOnly ver vf ds
    else revdepLoop env t brokenOnly ver vf ds

/-- Reverse-dependency-through-provides loop of
`pkg_revdep_matcher::matches` (only unversioned dependencies of exactly the
requested type can match here). -/
def revdepPrvLoop (env : Env) (t : DepType) (brokenOnly : Bool)
    (vf : PkgId → Option VerId → Option Bool) : List DepRec → Option Bool
  | [] => some false
  | d :: ds =>
    if brokenOnly && orGroupGInstall d ds then revdepPrvLoop env t brokenOnly vf ds
    else if d.dtype == t && d.targetVer == none then
      match vf d.parentPkg (some d.parentVer) with
      | none => none
      | some true => some true
      | some false => revdepPrvLoop env t brokenOnly vf ds
    else revdepPrvLoop env t brokenOnly vf ds

/-- Outer loop over the version's provides list in
`pkg_revdep_matcher::matches`. -/
def revdepPrvOuter (env : Env) (t : DepType) (brokenOnly : Bool)
    (vf : PkgId → Option VerId → Option Bool) : List PkgId → Option Bool
  | [] => some false
  | p :: ps =>
    match revdepPrvLoop env t brokenOnly vf (env.revDeps p) with
    | none => none
    | some true => some true
    | some false => revdepPrvOuter env t brokenOnly vf ps

/-- Direct reverse-dependency loop of `pkg_revdep_matcher::get_match`. -/
def revdepGetLoop (env : Env) (t : DepType) (brokenOnly : Bool) (ver : Option VerId)
    (gf : PkgId → Option VerId → Option (Option MatchResult)) :
    List DepRec → Option (Option MatchResult)
  | [] => some none
  | d :: ds =>
    if brokenOnly && orGroupGInstall d ds then revdepGetLoop env t brokenOnly ver gf ds
    else if depTypeHit t d.dtype && revdepVerHit env d ver then
      match gf d.parentPkg (some d.parentVer) with
      | none => none
      | some (some r) => some (some (.pair r (dep_match env d)))
      | some none => revdepGetLoop env t brokenOnly ver gf ds
    else revdepGetLoop env t brokenOnly ver gf ds

/-- Provides loop of `pkg_revdep_matcher::get_match` (the broken-dependency
filter sits inside the type test here, an orderings difference with no
observable effect). -/
def revdepPrvGetLoop (env : Env) (t : DepType) (brokenOnly : Bool)
    (gf : PkgId → Option VerId → Option (Option MatchResult)) :
    List DepRec → Option (Option MatchResult)
  | [] => some none
  | d :: ds =>
    if d.dtype == t && d.targetVer == none then
      if brokenOnly && orGroupGInstall d ds then revdepPrvGetLoop env t brokenOnly gf ds
      else
        match gf d.parentPkg (some d.parentVer) with
        | none => none
        | some (some r) => some (some (.pair r (dep_match env d)))
        | some none => revdepPrvGetLoop env t brokenOnly gf ds
    else revdepPrvGetLoop env t brokenOnly gf ds

/-- Outer provides loop of `pkg_revdep_matcher::get_match`. -/
def revdepPrvGetOuter (env : Env) (t : DepType) (brokenOnly : Bool)
    (gf : PkgId → Option VerId → Option (Option MatchResult)) :
    List PkgId → Option (Option MatchResult)
  | [] => some none
  | p :: ps =>
    match revdepPrvGetLoop env t brokenOnly gf (env.revDeps p) with
    | none => none
    | some (some r) => some (some r)
    | some none => revdepPrvGetOuter env t brokenOnly gf ps

/-- First file record whose selected field is present and matches (the
`get_match` loops of `pkg_archive_matcher` and `pkg_origin_matcher`). -/
def fileFieldGetLoop (env : Env) (pat : String) (field : FileRec → Option String) :
    List FileRec → Option MatchResult
  | [] => none
  | f :: fs =>
    match field f with
    | none => fileFieldGetLoop env pat field fs
    | some s =>
      match get_string_match env pat s with
      | some r => some r
      | none => fileFieldGetLoop env pat field fs

/-- Boolean counterpart of `fileFieldGetLoop` (the `matches` loops of
`pkg_archive_matcher` and `pkg_origin_matcher`). -/
def fileFieldAny (env : Env) (pat : String) (field : FileRec → Option String)
    (fs : List FileRec) : Bool :=
  fs.any (fun f =>
    match field f with
    | some s => string_matches env pat s
    | none => false)

/-- Loop of `pkg_provides_matcher::get_match`: the sub-pattern is evaluated
on the provided (virtual) package with an end version iterator, and a
successful result is paired with the literal group `"Provides"`. -/
def providesGetLoop (gf : PkgId → Option (Option MatchResult)) :
    List PkgId → Option (Option MatchResult)
  | [] => some none
  | p :: ps =>
    match gf p with
    | none => none
    | some (some r) => some (some (.pair r (.unitary "Provides")))
    | some none => providesGetLoop gf ps

/-- Loop of `pkg_revprv_matcher::get_match`. -/
def revprvGetLoop (gf : PkgId → VerId → Option (Option MatchResult)) :
    List (PkgId × VerId) → Option (Option MatchResult)
  | [] => some none
  | p :: ps =>
    match gf p.1 p.2 with
    | none => none
    | some (some r) => some (some (.pair r (.unitary "Provided by")))
    | some none => revprvGetLoop gf ps

/-- Result string of `pkg_action_matcher::get_match`. -/
def actionResultString : ActionState → String
  | .unchanged => "Unchanged"
  | .brokenA => "Broken"
  | .unusedRemove => "Remove [unused]"
  | .autoHold => "Hold [auto]"
  | .autoInstall => "Install [auto]"
  | .autoRemove => "Remove [auto]"
  | .downgrade => "Downgrade"
  | .hold => "Hold"
  | .reinstall => "Reinstall"
  | .install => "Install"
  | .remove => "Remove"
  | .upgrade => "Upgrade"

/-- The boolean test of `pkg_action_matcher::matches`. -/
def actionMatches (env : Env) (st : ActionState) (requirePurge : Bool)
    (pkg : PkgId) : Bool :=
  if requirePurge && !env.purgeFlag pkg then false
  else
    match st with
    | .install =>
      env.actionState pkg == ActionState.install ||
        env.actionState pkg == ActionState.autoInstall
    | .hold => (env.currentVer pkg).isSome && env.holdSel pkg
    | .remove =>
      env.actionState pkg == ActionState.remove ||
        env.actionState pkg == ActionState.autoRemove ||
        env.actionState pkg == ActionState.unusedRemove
    | other => env.actionState pkg == other

/-- Version-mode `matches` function type. -/
abbrev MVerFn := PkgId → Option VerId → Stack → Option Bool

/-- Package-mode `matches` function type. -/
abbrev MPkgFn := PkgId → Stack → Option Bool

/-- Version-mode `get_match` function type. -/
abbrev GVerFn := PkgId → Option VerId → Stack → Option (Option MatchResult)

/-- Package-mode `get_match` function type. -/
abbrev GPkgFn := PkgId → Stack → Option (Option MatchResult)

/-- The inherited package-mode `pkg_matcher_real::matches`: true if any
version matches, falling back to the no-version sentinel when the package
has no versions. -/
def defaultPkgMatches (env : Env) (vf : MVerFn) : MPkgFn := fun pkg stack =>
  if (env.versions pkg).isEmpty then vf pkg none stack
  else firstTrue (fun v => vf pkg (some v) stack) (env.versions pkg)

/-- The inherited package-mode `pkg_matcher_real::get_match`: first
non-null result over the versions, falling back to the no-version sentinel
when the package has no versions. -/
def defaultPkgGet (env : Env) (gf : GVerFn) : GPkgFn := fun pkg stack =>
  if (env.versions pkg).isEmpty then gf pkg none stack
  else firstSome (fun v => gf pkg (some v) stack) (env.versions pkg)

/-- Pair a version-mode `matches` with the inherited package mode. -/
def mkMatchPair (env : Env) (vf : MVerFn) : MVerFn × MPkgFn :=
  (vf, defaultPkgMatches env vf)

/-- Pair a version-mode `get_match` with the inherited package mode. -/
def mkGetPair (env : Env) (gf : GVerFn) : GVerFn × GPkgFn :=
  (gf, defaultPkgGet env gf)

/-- Dispatch of `stack_value::visit_matches` used by `pkg_bind_matcher`,
guarded by the `eassert` bound check (out of range aborts). -/
def bindVisit (sw : MVerFn × MPkgFn) (st : Stack) (idx : Nat) : Option Bool :=
  match st.get? idx with
  | none => none
  | some (.package p) => sw.2 p st
  | some (.version p w) => sw.1 p w st

/-- Dispatch of `stack_value::visit_get_match` used by `pkg_bind_matcher`. -/
def bindVisitGet (sw : GVerFn × GPkgFn) (st : Stack) (idx : Nat) :
    Option (Option MatchResult) :=
  match st.get? idx with
  | none => none
  | some (.package p) => sw.2 p st
  | some (.version p w) => sw.1 p w st

/-- The `matches` evaluator: for each matcher node, the pair of its
version-mode and package-mode boolean evaluation functions, translated
method by method from the `pkg_*_matcher` classes. -/
def evalMatches (env : Env) : Matcher → MVerFn × MPkgFn
  | .name pat =>
    mkMatchPair env (fun pkg _ver _st =>
      some (string_matches env pat (env.pkgName pkg)))
  | .description pat =>
    mkMatchPair env (fun _pkg ver _st =>
      some (match ver with
        | none => false
        | some v => string_matches env pat (env.longDesc v)))
  | .maintainer pat =>
    mkMatchPair env (fun _pkg ver _st =>
      some (match ver with
        | none => false
        | some v => string_matches env pat (env.maintainerOf v)))
  | .sect pat =>
    mkMatchPair env (fun _pkg ver _st =>
      some (match ver with
        | none => false
        | some v =>
          match env.sectionOf v with
          | none => false
          | some s => string_matches env pat s))
  | .version pat =>
    mkMatchPair env (fun _pkg ver _st =>
      some (match ver with
        | none => false
        | some v => string_matches env pat (env.verStr v)))
  | .currVersion =>
    mkMatchPair env (fun pkg ver _st =>
      some (ver.isSome && ver == env.currentVer pkg))
  | .candVersion =>
    mkMatchPair env (fun pkg ver _st =>
      some (ver.isSome && ver == env.candVer pkg))
  | .instVersion =>
    mkMatchPair env (fun pkg ver _st =>
      some (ver.isSome && ver == env.instVer pkg))
  | .archive pat =>
    mkMatchPair env (fun _pkg ver _st =>
      some (match ver with
        | none => false
        | some v =>
          if (env.files v).isEmpty then false
          else fileFieldAny env pat (fun f => f.archive) (env.files v)))
  | .origin pat =>
    mkMatchPair env (fun _pkg ver _st =>
      some (match ver with
        | none => false
        | some v => fileFieldAny env pat (fun f => f.origin) (env.files v)))
  | .sourcePackage pat =>
    mkMatchPair env (fun pkg ver _st =>
      some (match ver with
        | none => false
        | some v =>
          if (env.files v).isEmpty then false
          else
            sourceFieldLoop env pat (fun f => f.sourcePkg) (env.pkgName pkg)
              false (env.files v)))
  | .sourceVersion pat =>
    mkMatchPair env (fun _pkg ver _st =>
      some (match ver with
        | none => false
        | some v =>
          if (env.files v).isEmpty then false
          else
            sourceFieldLoop env pat (fun f => f.sourceVer) (env.verStr v)
              false (env.files v)))
  | .task pat =>
    mkMatchPair env (fun pkg _ver _st =>
      some (match env.tasksOf pkg with
        | none => false
        | some l => l.any (fun s => string_matches env pat s)))
  | .tag pat =>
    mkMatchPair env (fun pkg _ver _st =>
      some (match env.tagsOf pkg with
        | none => false
        | some l => l.any (fun s => string_matches env pat s)))
  | .userTag pat =>
    mkMatchPair env (fun pkg _ver _st =>
      some ((env.userTagsOf pkg).any (fun tg =>
        string_matches env pat (env.derefUserTag tg))))
  | .priority level =>
    mkMatchPair env (fun _pkg ver _st =>
      some (match ver with
        | none => false
        | some v => env.priorityOf v == level))
  | .auto =>
    mkMatchPair env (fun pkg _ver _st =>
      some (((env.currentVer pkg).isSome || env.installB pkg) && env.autoFlag pkg))
  | .broken =>
    mkMatchPair env (fun pkg ver _st =>
      some (match ver with
        | none => false
        | some _ => env.nowBroken pkg || env.instBroken pkg))
  | .brokenType t =>
    mkMatchPair env (fun _pkg ver _st =>
      some (match ver with
        | none => false
        | some v => (brokenTypeLoop t (env.deps v)).isSome))
  | .action st requirePurge =>
    mkMatchPair env (fun pkg _ver _st =>
      some (actionMatches env st requirePurge pkg))
  | .keep =>
    mkMatchPair env (fun pkg _ver _st => some (env.keepB pkg))
  | .installed =>
    mkMatchPair env (fun pkg ver _st =>
      some ((env.currentVer pkg).isSome && ver == env.currentVer pkg))
  | .virtualPkg =>
    mkMatchPair env (fun _pkg ver _st => some ver.isNone)
  | .essential =>
    mkMatchPair env (fun pkg _ver _st =>
      some (env.essentialFlag pkg || env.importantFlag pkg))
  | .configFiles =>
    mkMatchPair env (fun pkg _ver _st => some (env.configFilesState pkg))
  | .newPkg =>
    mkMatchPair env (fun pkg _ver _st =>
      some (if (env.versions pkg).isEmpty then false else env.newFlag pkg))
  | .upgradable =>
    mkMatchPair env (fun pkg _ver _st =>
      some ((env.currentVer pkg).isSome && env.upgradableB pkg))
  | .obsolete =>
    mkMatchPair env (fun pkg _ver _st => some (env.obsoleteB pkg))
  | .garbage =>
    mkMatchPair env (fun pkg ver _st =>
      some (match ver with
        | none => false
        | some _ => env.garbageFlag pkg))
  | .mtrue => mkMatchPair env (fun _pkg _ver _st => some true)
  | .mfalse => mkMatchPair env (fun _pkg _ver _st => some false)
  | .and l r =>
    let lw := evalMatches env l
    let rw := evalMatches env r
    ((fun pkg ver st =>
        match lw.1 pkg ver st with
        | none => none
        | some false => some false
        | some true => rw.1 pkg ver st),
     (fun pkg st =>
        match lw.2 pkg st with
        | none => none
        | some false => some false
        | some true => rw.2 pkg st))
  | .or l r =>
    let lw := evalMatches env l
    let rw := evalMatches env r
    ((fun pkg ver st =>
        match lw.1 pkg ver st with
        | none => none
        | some true => some true
        | some false => rw.1 pkg ver st),
     (fun pkg st =>
        match lw.2 pkg st with
        | none => none
        | some true => some true
        | some false => rw.2 pkg st))
  | .not c =>
    let cw := evalMatches env c
    ((fun pkg ver st => (cw.1 pkg ver st).map (fun b => !b)),
     (fun pkg st => (cw.2 pkg st).map (fun b => !b)))
  | .dep t brokenOnly pat =>
    let pw := evalMatches env pat
    mkMatchPair env (fun _pkg ver st =>
      match ver with
      | none => some false
      | some v => depLoop env t brokenOnly (fun p w => pw.1 p w st) (env.deps v))
  | .revdep t brokenOnly pat =>
    let pw := evalMatches env pat
    mkMatchPair env (fun pkg ver st =>
      match revdepLoop env t brokenOnly ver (fun p w => pw.1 p w st)
          (env.revDeps pkg) with
      | none => none
      | some true => some true
      | some false =>
        match ver with
        | none => some false
        | some v =>
          revdepPrvOuter env t brokenOnly (fun p w => pw.1 p w st)
            (env.providesOf v))
  | .provides pat =>
    let pw := evalMatches env pat
    mkMatchPair env (fun _pkg ver st =>
      match ver with
      | none => some false
      | some v => firstTrue (fun p => pw.2 p st) (env.providesOf v))
  | .revprv pat =>
    let pw := evalMatches env pat
    mkMatchPair env (fun pkg _ver st =>
      firstTrue (fun pr => pw.1 pr.1 (some pr.2) st) (env.providersOf pkg))
  | .widen pat =>
    let pw := evalMatches env pat
    ((fun pkg _ver st => pw.2 pkg st), (fun pkg st => pw.2 pkg st))
  | .select f x =>
    let fw := evalMatches env f
    let xw := evalMatches env x
    mkMatchPair env (fun pkg ver st =>
      match fw.1 pkg ver st with
      | none => none
      | some false => some false
      | some true => xw.1 pkg ver st)
  | .allVersions sub =>
    let sw := evalMatches env sub
    ((fun pkg ver st => sw.1 pkg ver st),
     (fun pkg st => allTrue (fun v => sw.1 pkg (some v) st) (env.versions pkg)))
  | .anyVersion sub =>
    let sw := evalMatches env sub
    ((fun pkg ver st => sw.1 pkg ver st),
     (fun pkg st => firstTrue (fun v => sw.1 pkg (some v) st) (env.versions pkg)))
  | .explicitM sub =>
    let sw := evalMatches env sub
    ((fun pkg ver st => sw.1 pkg ver (st ++ [.version pkg ver])),
     (fun pkg st => sw.2 pkg (st ++ [.package pkg])))
  | .bindM sub idx =>
    let sw := evalMatches env sub
    ((fun _pkg _ver st => bindVisit sw st idx),
     (fun _pkg st => bindVisit sw st idx))
  | .equal idx =>
    mkMatchPair env (fun pkg ver st =>
      match st.get? idx with
      | none => none
      | some v => some (v.is_match_for (.version pkg ver)))

/-- The `get_match` evaluator, translated method by method from the
`pkg_*_matcher` classes.  `pkg_explicit_matcher::get_match` in version mode
invokes the sub-matcher's package-mode `get_match`, exactly as the source
does. -/
def evalGetMatch (env : Env) : Matcher → GVerFn × GPkgFn
  | .name pat =>
    mkGetPair env (fun pkg _ver _st =>
      some (get_string_match env pat (env.pkgName pkg)))
  | .description pat =>
    mkGetPair env (fun _pkg ver _st =>
      some (match ver with
        | none => none
        | some v => get_string_match env pat (env.longDesc v)))
  | .maintainer pat =>
    mkGetPair env (fun _pkg ver _st =>
      some (match ver with
        | none => none
        | some v => get_string_match env pat (env.maintainerOf v)))
  | .sect pat =>
    mkGetPair env (fun _pkg ver _st =>
      some (match ver with
        | none => none
        | some v =>
          match env.sectionOf v with
          | none => none
          | some s => get_string_match env pat s))
  | .version pat =>
    mkGetPair env (fun _pkg ver _st =>
      some (match ver with
        | none => none
        | some v => get_string_match env pat (env.verStr v)))
  | .currVersion =>
    mkGetPair env (fun pkg ver _st =>
      some (match ver with
        | none => none
        | some v =>
          if some v == env.currentVer pkg then some (.unitary (env.verStr v))
          else none))
  | .candVersion =>
    mkGetPair env (fun pkg ver _st =>
      some (match ver with
        | none => none
        | some v =>
          if some v == env.candVer pkg then some (.unitary (env.verStr v))
          else none))
  | .instVersion =>
    mkGetPair env (fun pkg ver _st =>
      some (match ver with
        | none => none
        | some v =>
          if some v == env.instVer pkg then some (.unitary (env.verStr v))
          else none))
  | .archive pat =>
    mkGetPair env (fun _pkg ver _st =>
      some (match ver with
        | none => none
        | some v =>
          if (env.files v).isEmpty then none
          else fileFieldGetLoop env pat (fun f => f.archive) (env.files v)))
  | .origin pat =>
    mkGetPair env (fun _pkg ver _st =>
      some (match ver with
        | none => none
        | some v => fileFieldGetLoop env pat (fun f => f.origin) (env.files v)))
  | .sourcePackage pat =>
    mkGetPair env (fun pkg ver _st =>
      some (match ver with
        | none => none
        | some v =>
          if (env.files v).isEmpty then none
          else
            sourceFieldGetLoop env pat (fun f => f.sourcePkg) (env.pkgName pkg)
              false (env.files v)))
  | .sourceVersion pat =>
    mkGetPair env (fun _pkg ver _st =>
      some (match ver with
        | none => none
        | some v =>
          if (env.files v).isEmpty then none
          else
            sourceFieldGetLoop env pat (fun f => f.sourceVer) (env.verStr v)
              false (env.files v)))
  | .task pat =>
    mkGetPair env (fun pkg _ver _st =>
      some (match env.tasksOf pkg with
        | none => none
        | some l => firstStringMatch env pat l))
  | .tag pat =>
    mkGetPair env (fun pkg _ver _st =>
      some (match env.tagsOf pkg with
        | none => none
        | some l => firstStringMatch env pat l))
  | .userTag pat =>
    mkGetPair env (fun pkg _ver _st =>
      some (firstStringMatch env pat ((env.userTagsOf pkg).map env.derefUserTag)))
  | .priority level =>
    mkGetPair env (fun _pkg ver _st =>
      some (match ver with
        | none => none
        | some v =>
          if env.priorityOf v == level then
            some (.unitary (env.priorityTypeName v))
          else none))
  | .auto =>
    mkGetPair env (fun pkg _ver _st =>
      some (if ((env.currentVer pkg).isSome || env.installB pkg) && env.autoFlag pkg
        then some (.unitary "Automatically Installed") else none))
  | .broken =>
    mkGetPair env (fun pkg ver _st =>
      some (match ver with
        | none => none
        | some _ =>
          if env.nowBroken pkg || env.instBroken pkg then
            some (.unitary "Broken")
          else none))
  | .brokenType t =>
    mkGetPair env (fun _pkg ver _st =>
      some (match ver with
        | none => none
        | some v =>
          match brokenTypeLoop t (env.deps v) with
          | some d => some (dep_match env d)
          | none => none))
  | .action st requirePurge =>
    mkGetPair env (fun pkg _ver _st =>
      some (if actionMatches env st requirePurge pkg then
          some (.unitary (actionResultString st))
        else none))
  | .keep =>
    mkGetPair env (fun pkg _ver _st =>
      some (if env.keepB pkg then some (.unitary "Keep") else none))
  | .installed =>
    mkGetPair env (fun pkg ver _st =>
      some (if (env.currentVer pkg).isSome && ver == env.currentVer pkg then
          some (.unitary "Installed")
        else none))
  | .virtualPkg =>
    mkGetPair env (fun _pkg ver _st =>
      some (if ver.isNone then some (.unitary "Virtual") else none))
  | .essential =>
    mkGetPair env (fun pkg _ver _st =>
      some (if env.essentialFlag pkg || env.importantFlag pkg then
          some (.unitary "Essential")
        else none))
  | .configFiles =>
    mkGetPair env (fun pkg _ver _st =>
      some (if env.configFilesState pkg then
          some (.unitary "Config Files Remain")
        else none))
  | .newPkg =>
    mkGetPair env (fun pkg _ver _st =>
      some (if (if (env.versions pkg).isEmpty then false else env.newFlag pkg) then
          some (.unitary "New Package")
        else none))
  | .upgradable =>
    mkGetPair env (fun pkg _ver _st =>
      some (if (env.currentVer pkg).isSome && env.upgradableB pkg then
          some (.unitary "Upgradable")
        else none))
  | .obsolete =>
    mkGetPair env (fun pkg _ver _st =>
      some (if env.obsoleteB pkg then some (.unitary "Obsolete") else none))
  | .garbage =>
    mkGetPair env (fun pkg ver _st =>
      some (match ver with
        | none => none
        | some _ =>
          if env.garbageFlag pkg then some (.unitary "Garbage") else none))
  | .mtrue => mkGetPair env (fun _pkg _ver _st => some (some .empty))
  | .mfalse => mkGetPair env (fun _pkg _ver _st => some none)
  | .and l r =>
    let lw := evalGetMatch env l
    let rw := evalGetMatch env r
    ((fun pkg ver st =>
        match lw.1 pkg ver st with
        | none => none
        | some none => some none
        | some (some r1) =>
          match rw.1 pkg ver st with
          | none => none
          | some none => some none
          | some (some r2) => some (some (.pair r1 r2))),
     (fun pkg st =>
        match lw.2 pkg st with
        | none => none
        | some none => some none
        | some (some r1) =>
          match rw.2 pkg st with
          | none => none
          | some none => some none
          | some (some r2) => some (some (.pair r1 r2))))
  | .or l r =>
    let lw := evalGetMatch env l
    let rw := evalGetMatch env r
    ((fun pkg ver st =>
        match lw.1 pkg ver st with
        | none => none
        | some (some r1) => some (some r1)
        | some none => rw.1 pkg ver st),
     (fun pkg st =>
        match lw.2 pkg st with
        | none => none
        | some (some r1) => some (some r1)
        | some none => rw.2 pkg st))
  | .not c =>
    let cw := evalGetMatch env c
    ((fun pkg ver st =>
        match cw.1 pkg ver st with
        | none => none
        | some none => some (some .empty)
        | some (some _) => some none),
     (fun pkg st =>
        match cw.2 pkg st with
        | none => none
        | some none => some (some .empty)
        | some (some _) => some none))
  | .dep t brokenOnly pat =>
    let pw := evalGetMatch env pat
    mkGetPair env (fun _pkg ver st =>
      match ver with
      | none => some none
      | some v =>
        depGetLoop env t brokenOnly (fun p w => pw.1 p w st) (env.deps v))
  | .revdep t brokenOnly pat =>
    let pw := evalGetMatch env pat
    mkGetPair env (fun pkg ver st =>
      match revdepGetLoop env t brokenOnly ver (fun p w => pw.1 p w st)
          (env.revDeps pkg) with
      | none => none
      | some (some r) => some (some r)
      | some none =>
        match ver with
        | none => some none
        | some v =>
          revdepPrvGetOuter env t brokenOnly (fun p w => pw.1 p w st)
            (env.providesOf v))
  | .provides pat =>
    let pw := evalGetMatch env pat
    mkGetPair env (fun _pkg ver st =>
      match ver with
      | none => some none
      | some v => providesGetLoop (fun p => pw.1 p none st) (env.providesOf v))
  | .revprv pat =>
    let pw := evalGetMatch env pat
    mkGetPair env (fun pkg _ver st =>
      revprvGetLoop (fun p w => pw.1 p (some w) st) (env.providersOf pkg))
  | .widen pat =>
    let pw := evalGetMatch env pat
    ((fun pkg _ver st => pw.2 pkg st), (fun pkg st => pw.2 pkg st))
  | .select f x =>
    let fw := evalMatches env f
    let xw := evalGetMatch env x
    mkGetPair env (fun pkg ver st =>
      match fw.1 pkg ver st with
      | none => none
      | some false => some none
      | some true => xw.1 pkg ver st)
  | .allVersions sub =>
    let sw := evalGetMatch env sub
    ((fun pkg ver st => sw.1 pkg ver st),
     (fun pkg st => allGet (fun v => sw.1 pkg (some v) st) (env.versions pkg)))
  | .anyVersion sub =>
    let sw := evalGetMatch env sub
    ((fun pkg ver st => sw.1 pkg ver st),
     (fun pkg st => firstSome (fun v => sw.1 pkg (some v) st) (env.versions pkg)))
  | .explicitM sub =>
    let sw := evalGetMatch env sub
    ((fun pkg ver st => sw.2 pkg (st ++ [.version pkg ver])),
     (fun pkg st => sw.2 pkg (st ++ [.package pkg])))
  | .bindM sub idx =>
    let sw := evalGetMatch env sub
    ((fun _pkg _ver st => bindVisitGet sw st idx),
     (fun _pkg st => bindVisitGet sw st idx))
  | .equal idx =>
    mkGetPair env (fun pkg ver st =>
      match st.get? idx with
      | none => none
      | some v =>
        some (if v.is_match_for (.version pkg ver) then some .empty else none))

/-- Version-mode boolean evaluation. -/
def matches_ver (env : Env) (m : Matcher) (pkg : PkgId) (ver : Option VerId)
    (st : Stack) : Option Bool :=
  (evalMatches env m).1 pkg ver st

/-- Package-mode boolean evaluation. -/
def matches_pkg (env : Env) (m : Matcher) (pkg : PkgId) (st : Stack) :
    Option Bool :=
  (evalMatches env m).2 pkg st

/-- Version-mode `get_match` evaluation. -/
def get_match_ver (env : Env) (m : Matcher) (pkg : PkgId) (ver : Option VerId)
    (st : Stack) : Option (Option MatchResult) :=
  (evalGetMatch env m).1 pkg ver st

/-- Package-mode `get_match` evaluation. -/
def get_match_pkg (env : Env) (m : Matcher) (pkg : PkgId) (st : Stack) :
    Option (Option MatchResult) :=
  (evalGetMatch env m).2 pkg st

/-- Facade `apply_matcher(matcher, pkg, ver, cache, records)`: version-mode
evaluation on a fresh empty stack. -/
def apply_matcher (env : Env) (m : Matcher) (pkg : PkgId) (ver : Option VerId) :
    Option Bool :=
  matches_ver env m pkg ver []

/-- Facade `get_match(matcher, pkg, ver, cache, records)`: version-mode
`get_match` on a fresh empty stack. -/
def get_match (env : Env) (m : Matcher) (pkg : PkgId) (ver : Option VerId) :
    Option (Option MatchResult) :=
  get_match_ver env m pkg ver []

/-- Facade `apply_matcher(matcher, pkg, cache, records)` (package mode). -/
def apply_matcher_wide (env : Env) (m : Matcher) (pkg : PkgId) : Option Bool :=
  matches_pkg env m pkg []

/-- Facade `get_match(matcher, pkg, cache, records)` (package mode). -/
def get_match_wide (env : Env) (m : Matcher) (pkg : PkgId) :
    Option (Option MatchResult) :=
  get_match_pkg env m pkg []

/-! The recursive-descent parser of `matchers.cc`.

The C++ parser advances a `string::const_iterator` by reference and throws
`CompilationException` on failure; the embedding passes the remaining input
(`List Char`) explicitly and returns `Except CompileError`.  The mutually
recursive functions additionally take a fuel counter (decremented at every
entry) so that they are structurally recursive and reduce by `rfl`; the
fuel chosen by `parse_pattern` is generous and the artificial out-of-fuel
error plays no role in any claim.  Error message texts are paraphrased
where the original message contains characters that are awkward here
(apostrophes, escaped quotes, printf placeholders); only the presence and
identity of an error matters below, never its exact wording.  The
localized-priority branch of `parse_priority` consults the global
`apt_cache_file`, which is modelled as absent (null), short-circuiting that
branch exactly as in a program with no open cache. -/

/-- A structured parse error (`CompilationException`). -/
structure CompileError where
  msg : String
deriving DecidableEq, Repr

/-- ASCII lowercasing of a string (the per-character `tolower` loops of the
source; defined over the character list so that it reduces
definitionally). -/
def lowerStr (s : String) : String :=
  String.mk (s.data.map Char.toLower)

/-- Character-count take on strings (`std::string(s, 0, n)`), defined over
the character list. -/
def strTake (s : String) (n : Nat) : String :=
  String.mk (s.data.take n)

/-- Character-count drop on strings (`std::string(s, n)`), defined over the
character list. -/
def strDrop (s : String) (n : Nat) : String :=
  String.mk (s.data.drop n)

/-- C `isspace` on the default locale. -/
def cIsSpace (c : Char) : Bool :=
  c = ' ' || c = '\t' || c = '\n' || c = '\x0b' || c = '\x0c' || c = '\r'

/-- One terminator comparison step of `terminate`: the loop stops at the
end of either string and reports a match unless a character mismatched, so
a terminator matches as soon as its overlap with the remaining input
agrees. -/
def termMatch : List Char → List Char → Bool
  | _, [] => true
  | [], _ :: _ => true
  | c :: cs, t :: ts => if c = t then termMatch cs ts else false

/-- The `terminate` helper: does any caller-supplied terminator start
here? -/
def terminate (s : List Char) (terms : List String) : Bool :=
  terms.any (fun t => termMatch s t.data)

/-- Whitespace skipping (`parse_whitespace` and the bare `while isspace`
loops). -/
def parse_whitespace : List Char → List Char
  | [] => []
  | c :: cs => if cIsSpace c then parse_whitespace cs else c :: cs

/-- Whitespace skipping that stops at a terminator (used at the entry of
`parse_pattern` and before matcher arguments in `parse_matcher_args`). -/
def skipBlankTerm (terms : List String) : List Char → List Char
  | [] => []
  | c :: cs =>
    if cIsSpace c && !terminate (c :: cs) terms then skipBlankTerm terms cs
    else c :: cs

/-- The helper `parse_required_character`. -/
def parse_required_character (c : Char) (s : List Char) :
    Except CompileError (List Char) :=
  match parse_whitespace s with
  | [] => .error ⟨"Match pattern ends unexpectedly, expected " ++ c.toString⟩
  | d :: rest =>
    if d = c then .ok rest
    else .error ⟨"Expected " ++ c.toString ++ ", got " ++ d.toString⟩

/-- The helper `parse_open_paren`. -/
def parse_open_paren (s : List Char) : Except CompileError (List Char) :=
  parse_required_character '(' s

/-- The helper `parse_close_paren`. -/
def parse_close_paren (s : List Char) : Except CompileError (List Char) :=
  parse_required_character ')' s

/-- The helper `parse_comma`. -/
def parse_comma (s : List Char) : Except CompileError (List Char) :=
  parse_required_character ',' s

/-- The helper `parse_literal_string_tail`, entered after the opening
double quote; handles backslash escapes, with a backslash as the final
character reaching the end of input and reporting an unterminated
string. -/
def parse_literal_string_tail (acc : String) :
    List Char → Except CompileError (String × List Char)
  | [] => .error ⟨"Unterminated literal string after " ++ acc⟩
  | '"' :: rest => .ok (acc, rest)
  | '\\' :: 'n' :: rest => parse_literal_string_tail (acc.push '\n') rest
  | '\\' :: 't' :: rest => parse_literal_string_tail (acc.push '\t') rest
  | '\\' :: c :: rest => parse_literal_string_tail (acc.push c) rest
  | ['\\'] => .error ⟨"Unterminated literal string after " ++ acc⟩
  | c :: rest => parse_literal_string_tail (acc.push c) rest

/-- The inner bare-character scan of `parse_substr`: stop at a
metacharacter, at whitespace when whitespace breaks, or at a
terminator. -/
def parse_substr_bare (terms : List String) (wb : Bool) (acc : String) :
    List Char → String × List Char
  | [] => (acc, [])
  | c :: cs =>
    if c = '(' || c = ')' || c = '!' || c = '~' || c = '|' || c = '"' ||
        (wb && cIsSpace c) || terminate (c :: cs) terms then (acc, c :: cs)
    else parse_substr_bare terms wb (acc.push c) cs

mutual

/-- Outer do-while loop of `parse_substr`: bare scan, optional quoted
segment, then the tilde-escape check. -/
def parse_substr_go (terms : List String) (wb : Bool) :
    Nat → String → List Char → Except CompileError (String × List Char)
  | 0, acc, s => .ok (acc, s)
  | fuel + 1, acc, s =>
    let p := parse_substr_bare terms wb acc s
    match p.2 with
    | '"' :: rest =>
      match parse_literal_string_tail "" rest with
      | .error e => .error e
      | .ok (lit, rest2) => parse_substr_tilde terms wb fuel (p.1 ++ lit) rest2
    | other => parse_substr_tilde terms wb fuel p.1 other

/-- Tilde-escape step of `parse_substr`: a tilde followed by a
metacharacter (or by whitespace when whitespace breaks) appends the escaped
character and continues the scan; anything else ends the substring. -/
def parse_substr_tilde (terms : List String) (wb : Bool) :
    Nat → String → List Char → Except CompileError (String × List Char)
  | _, acc, [] => .ok (acc, [])
  | fuel, acc, '~' :: c :: rest =>
    if c = '(' || c = ')' || c = '!' || c = '~' || c = '|' || c = '"' ||
        (wb && cIsSpace c) then
      parse_substr_go terms wb fuel (acc.push c) rest
    else .ok (acc, '~' :: c :: rest)
  | _, acc, s => .ok (acc, s)

end

/-- The helper `parse_substr`: strip leading whitespace, then run the scan
loop.  Every loop iteration consumes input, so the internal fuel of
`length + 1` never runs out. -/
def parse_substr (s : List Char) (terms : List String) (wb : Bool) :
    Except CompileError (String × List Char) :=
  let s1 := parse_whitespace s
  parse_substr_go terms wb (s1.length + 1) "" s1

/-- The helper `parse_deptype` (case-insensitive; an unknown name is the
`-1` sentinel, modelled by `none`). -/
def parse_deptype (s : String) : Option DepType :=
  if lowerStr s = "depends" then some .depends
  else if lowerStr s = "predepends" then some .predepends
  else if lowerStr s = "recommends" then some .recommends
  else if lowerStr s = "suggests" then some .suggests
  else if lowerStr s = "conflicts" then some .conflicts
  else if lowerStr s = "breaks" then some .dpkgBreaks
  else if lowerStr s = "replaces" then some .replaces
  else none

/-- The helper `parse_priority`; the branches matching the catalog's
localized names short-circuit because the global cache handle is null. -/
def parse_priority (s : String) : Except CompileError VerPriority :=
  if lowerStr s = "important" then .ok .important
  else if lowerStr s = "required" then .ok .required
  else if lowerStr s = "standard" then .ok .standard
  else if lowerStr s = "optional" then .ok .optionalP
  else if lowerStr s = "extra" then .ok .extra
  else .error ⟨"Unknown priority " ++ s⟩

/-- The helper `make_action_matcher` (case-insensitive). -/
def make_action_matcher (s : String) : Except CompileError Matcher :=
  if lowerStr s = "install" then .ok (.action .install false)
  else if lowerStr s = "upgrade" then .ok (.action .upgrade false)
  else if lowerStr s = "downgrade" then .ok (.action .downgrade false)
  else if lowerStr s = "remove" then .ok (.action .remove false)
  else if lowerStr s = "purge" then .ok (.action .remove true)
  else if lowerStr s = "reinstall" then .ok (.action .reinstall false)
  else if lowerStr s = "hold" then .ok (.action .hold false)
  else if lowerStr s = "keep" then .ok .keep
  else .error ⟨"Unknown action type: " ++ s⟩

/-- The helper `make_package_version_matcher` (case-sensitive special
names). -/
def make_package_version_matcher (s : String) : Matcher :=
  if s = "CURRENT" then .currVersion
  else if s = "TARGET" then .instVersion
  else if s = "CANDIDATE" then .candVersion
  else .version s

/-- The helper `parse_string_match_args`. -/
def parse_string_match_args (s : List Char) :
    Except CompileError (String × List Char) :=
  match parse_open_paren s with
  | .error e => .error e
  | .ok s1 =>
    match parse_substr s1 [] false with
    | .error e => .error e
    | .ok (sub, s2) =>
      match parse_close_paren s2 with
      | .error e => .error e
      | .ok s3 => .ok (sub, s3)

/-- The compile-time name environment (`parse_environment`,
`imm::map<std::string, int>`): an association list with insert-or-replace
binding. -/
abbrev ParseEnv := List (String × Nat)

/-- Binding in the name environment (`parse_environment::bind`): replace an
existing entry or add a new one. -/
def envBind (e : ParseEnv) (k : String) (v : Nat) : ParseEnv :=
  if e.any (fun p => p.1 = k) then
    e.map (fun p => if p.1 = k then (k, v) else p)
  else (k, v) :: e

/-- Size of the name environment (`parse_environment::size`). -/
def envSize (e : ParseEnv) : Nat := e.length

/-- Lookup in the name environment (`parse_environment::get`, with the
`-1` absence sentinel modelled by `none`). -/
def envGet (e : ParseEnv) (k : String) : Option Nat :=
  (e.find? (fun p => p.1 = k)).map (fun p => p.2)

/-- The helper `get_variable_index`. -/
def get_variable_index (k : String) (e : ParseEnv) :
    Except CompileError Nat :=
  match envGet e k with
  | none => .error ⟨"Unknown variable " ++ k⟩
  | some i => .ok i

/-- The helper `maybe_bind`: wrap the matcher in a `pkg_bind_matcher` when
a bound-variable name was given. -/
def maybe_bind (bound : String) (m : Matcher) (e : ParseEnv) :
    Except CompileError Matcher :=
  if bound = "" then .ok m
  else
    match get_variable_index bound e with
    | .error err => .error err
    | .ok i => .ok (.bindM m i)

/-- The helper `add_new_terminator`. -/
def add_new_terminator (t : String) (terms : List String) : List String :=
  if terms.any (fun x => x = t) then terms else terms ++ [t]

/-- The variable-name scan of `parse_explicit_matcher` and of the `?=`
branch (no lowercasing happens during the scan). -/
def scanVarName (terms : List String) (acc : String) :
    List Char → String × List Char
  | [] => (acc, [])
  | c :: cs =>
    if c = '(' || c = '!' || c = '|' || c = ')' || c = '?' || c = '~' ||
        c = ':' || cIsSpace c || terminate (c :: cs) terms then (acc, c :: cs)
    else scanVarName terms (acc.push c) cs

/-- The matcher-name scan of `parse_function_style_matcher_tail`,
accumulating the raw name, its lowercased form and an optional
bound-variable name introduced by a colon (a second colon is an error). -/
def scanMatcherName (terms : List String) (raw lower bound : String) :
    List Char → Except CompileError (String × String × String × List Char)
  | [] => .ok (raw, lower, bound, [])
  | c :: cs =>
    if c = '(' || c = '!' || c = '|' || c = ')' || c = '?' || c = '~' ||
        cIsSpace c || terminate (c :: cs) terms then
      .ok (raw, lower, bound, c :: cs)
    else if c = ':' then
      if bound != "" then
        .error ⟨"Unexpected colon following " ++ bound ++ ":" ++ raw⟩
      else scanMatcherName terms "" "" (lowerStr raw) cs
    else scanMatcherName terms (raw.push c) (lower.push c.toLower) bound cs

/-- Length of the alphabetic run scanned ahead by the short-form `D`/`R`
parser when looking for a `type:` marker. -/
def scanAlphaSpan (terms : List String) : List Char → Nat
  | [] => 0
  | c :: cs =>
    if c.isAlpha && !terminate (c :: cs) terms then scanAlphaSpan terms cs + 1
    else 0

/-- The matcher-name table `matcher_types`, searched sequentially. -/
inductive MatcherType where
  | action | allV | andM | anyV | archive | automatic | bindT | broken
  | configFilesT | description | essential | falseT | forT | garbage
  | installed | maintainer | nameT | narrow | newT | notM | obsolete | orM
  | origin | priority | provides | sectionT | sourcePackage | sourceVersion
  | tag | task | trueT | upgradable | userTagT | version | virtualT | widen
deriving DecidableEq, Repr

/-- The name-to-type table `matcher_types`. -/
def matcher_types : List (String × MatcherType) :=
  [("action", .action), ("all-versions", .allV), ("and", .andM),
   ("any-version", .anyV), ("archive", .archive), ("automatic", .automatic),
   ("bind", .bindT), ("broken", .broken), ("config-files", .configFilesT),
   ("description", .description), ("essential", .essential),
   ("false", .falseT), ("for", .forT), ("garbage", .garbage),
   ("installed", .installed), ("maintainer", .maintainer), ("name", .nameT),
   ("narrow", .narrow), ("new", .newT), ("not", .notM),
   ("obsolete", .obsolete), ("or", .orM), ("origin", .origin),
   ("priority", .priority), ("provides", .provides), ("section", .sectionT),
   ("source-package", .sourcePackage), ("source-version", .sourceVersion),
   ("tag", .tag), ("task", .task), ("true", .trueT),
   ("upgradable", .upgradable), ("user-tag", .userTagT),
   ("version", .version), ("virtual", .virtualT), ("widen", .widen)]

/-- The string-argument leaves of the short-form (`~`) switch. -/
def short_form_char_matcher (flag : Char) (sub : String) (s1 : List Char) :
    Except CompileError (Matcher × List Char) :=
  if flag = 'a' then
    match make_action_matcher sub with
    | .error err => .error err
    | .ok m => .ok (m, s1)
  else if flag = 'A' then .ok (.archive sub, s1)
  else if flag = 'B' then
    match parse_deptype sub with
    | some t => .ok (.brokenType t, s1)
    | none => .error ⟨"Unknown dependency type: " ++ sub⟩
  else if flag = 'd' then .ok (.description sub, s1)
  else if flag = 'G' then .ok (.tag sub, s1)
  else if flag = 'F' then .ok (.mfalse, s1)
  else if flag = 'm' then .ok (.maintainer sub, s1)
  else if flag = 'n' then .ok (.name sub, s1)
  else if flag = 'O' then .ok (.origin sub, s1)
  else if flag = 'p' then
    match parse_priority sub with
    | .error err => .error err
    | .ok l => .ok (.priority l, s1)
  else if flag = 's' then .ok (.sect sub, s1)
  else if flag = 't' then .ok (.task sub, s1)
  else if flag = 'T' then .ok (.mtrue, s1)
  else if flag = 'V' then .ok (make_package_version_matcher sub, s1)
  else .error ⟨"Unknown pattern type: " ++ flag.toString⟩

/-- The `[broken-][reverse-]` prefix stripping at the head of
`parse_matcher_args`: (saw broken-, saw reverse-, remaining name). -/
def dep_prefix_split (mname : String) : Bool × Bool × String :=
  if strTake mname 7 = "broken-" then
    if strTake (strDrop mname 7) 8 = "reverse-" then (true, true, strDrop mname 15)
    else (true, false, strDrop mname 7)
  else if strTake mname 8 = "reverse-" then
    if strTake (strDrop mname 8) 7 = "broken-" then (true, true, strDrop mname 15)
    else (false, true, strDrop mname 8)
  else (false, false, mname)

mutual

/-- `parse_condition_list`: an and group, optionally followed by `|` and a
recursive condition list (right-associative `or`). -/
def parse_condition_list (fuel : Nat) (s : List Char) (terms : List String)
    (sd wide : Bool) (e : ParseEnv) :
    Except CompileError (Matcher × List Char) :=
  match fuel with
  | 0 => .error ⟨"Out of parser fuel"⟩
  | fuel + 1 =>
    match parse_and_group fuel s terms sd wide e with
    | .error err => .error err
    | .ok (grp, s1) =>
      let s2 := parse_whitespace s1
      if s2.isEmpty || s2.head? = some ')' || terminate s2 terms then .ok (grp, s2)
      else
        match s2 with
        | '|' :: rest =>
          match parse_condition_list fuel rest terms sd wide e with
          | .error err => .error err
          | .ok (grp2, s3) => .ok (.or grp grp2, s3)
        | _ => .error ⟨"Badly formed expression"⟩

/-- `parse_and_group`: skip whitespace, then fold atoms with implicit
left-associative `and`. -/
def parse_and_group (fuel : Nat) (s : List Char) (terms : List String)
    (sd wide : Bool) (e : ParseEnv) :
    Except CompileError (Matcher × List Char) :=
  match fuel with
  | 0 => .error ⟨"Out of parser fuel"⟩
  | fuel + 1 => parse_and_group_go fuel none (parse_whitespace s) terms sd wide e

/-- Loop body of `parse_and_group`; an empty group is the "Unexpected
empty expression" error. -/
def parse_and_group_go (fuel : Nat) (acc : Option Matcher) (s : List Char)
    (terms : List String) (sd wide : Bool) (e : ParseEnv) :
    Except CompileError (Matcher × List Char) :=
  match fuel with
  | 0 => .error ⟨"Out of parser fuel"⟩
  | fuel + 1 =>
    if s.isEmpty || s.head? = some '|' || s.head? = some ')' || terminate s terms then
      match acc with
      | none => .error ⟨"Unexpected empty expression"⟩
      | some m => .ok (m, s)
    else
      match parse_atom fuel s terms sd wide e with
      | .error err => .error err
      | .ok (atom, s1) =>
        let acc2 := match acc with
          | none => atom
          | some m => Matcher.and m atom
        parse_and_group_go fuel (some acc2) (parse_whitespace s1) terms sd wide e

/-- `parse_atom`: negation, parenthesized list, function-style matcher,
short-form matcher, or bare string (which searches names, and descriptions
too when `search_descriptions` is set). -/
def parse_atom (fuel : Nat) (s : List Char) (terms : List String)
    (sd wide : Bool) (e : ParseEnv) :
    Except CompileError (Matcher × List Char) :=
  match fuel with
  | 0 => .error ⟨"Out of parser fuel"⟩
  | fuel + 1 =>
    let s := parse_whitespace s
    if s.isEmpty || s.head? = some '|' || s.head? = some ')' || terminate s terms then
      .error ⟨"Cannot search for the empty string"⟩
    else
      match s with
      | '!' :: rest =>
        match parse_atom fuel rest terms sd wide e with
        | .error err => .error err
        | .ok (m, s1) => .ok (.not m, s1)
      | '(' :: rest =>
        match parse_condition_list fuel rest [] sd wide e with
        | .error err => .error err
        | .ok (lst, s1) =>
          match s1 with
          | ')' :: rest2 => .ok (lst, rest2)
          | _ => .error ⟨"Unmatched left parenthesis"⟩
      | '?' :: rest => parse_function_style_matcher_tail fuel rest terms sd wide e
      | '~' :: rest => parse_short_form fuel rest terms sd wide e
      | _ =>
        match parse_substr s terms true with
        | .error err => .error err
        | .ok (sub, s1) =>
          if !sd then .ok (.name sub, s1)
          else .ok (.or (.name sub) (.description sub), s1)

/-- The short-form (`~`) branch of `parse_atom`.  A trailing bare `~`
compiles to a name search for `"~"` (with an empty description pattern when
descriptions are searched). -/
def parse_short_form (fuel : Nat) (s : List Char) (terms : List String)
    (sd _wide : Bool) (e : ParseEnv) :
    Except CompileError (Matcher × List Char) :=
  match fuel with
  | 0 => .error ⟨"Out of parser fuel"⟩
  | fuel + 1 =>
    match parse_whitespace s with
    | [] =>
      if !sd then .ok (.name "~", [])
      else .ok (.or (.name "~") (.description ""), [])
    | flag :: rest0 =>
      let rest := parse_whitespace rest0
      if flag = 'v' then .ok (.virtualPkg, rest)
      else if flag = 'b' then .ok (.broken, rest)
      else if flag = 'g' then .ok (.garbage, rest)
      else if flag = 'c' then .ok (.configFiles, rest)
      else if flag = 'i' then .ok (.installed, rest)
      else if flag = 'E' then .ok (.essential, rest)
      else if flag = 'M' then .ok (.auto, rest)
      else if flag = 'N' then .ok (.newPkg, rest)
      else if flag = 'U' then .ok (.upgradable, rest)
      else if flag = 'o' then .ok (.obsolete, rest)
      else if flag = 'P' || flag = 'C' || flag = 'W' then
        match parse_atom fuel rest terms sd (flag = 'W') e with
        | .error err => .error err
        | .ok (m, s1) =>
          if flag = 'C' then .ok (.dep .conflicts false m, s1)
          else if flag = 'P' then .ok (.provides m, s1)
          else .ok (.widen m, s1)
      else if flag = 'S' then
        match parse_atom fuel rest terms sd false e with
        | .error err => .error err
        | .ok (f, s1) =>
          match parse_atom fuel s1 terms sd false e with
          | .error err => .error err
          | .ok (x, s2) => .ok (.select f x, s2)
      else if flag = 'D' || flag = 'R' then
        parse_short_dep fuel flag rest terms sd e
      else
        match parse_substr rest terms true with
        | .error err => .error err
        | .ok (sub, s1) => short_form_char_matcher flag sub s1

/-- The `~D`/`~R` short forms: optional `B` (broken), optional `type:`
marker (with `provides` as pseudo-type), then the target atom, parsed in a
narrow context. -/
def parse_short_dep (fuel : Nat) (flag : Char) (s : List Char)
    (terms : List String) (sd : Bool) (e : ParseEnv) :
    Except CompileError (Matcher × List Char) :=
  match fuel with
  | 0 => .error ⟨"Out of parser fuel"⟩
  | fuel + 1 =>
    match s with
    | 'B' :: rest => parse_short_dep_tail fuel flag true rest terms sd e
    | _ => parse_short_dep_tail fuel flag false s terms sd e

/-- The rest of the `~D`/`~R` parse after the optional `B` flag has been
consumed: optional `type:` marker (with `provides` as pseudo-type), then
the target atom, parsed in a narrow context. -/
def parse_short_dep_tail (fuel : Nat) (flag : Char) (brokenB : Bool)
    (s1 : List Char) (terms : List String) (sd : Bool) (e : ParseEnv) :
    Except CompileError (Matcher × List Char) :=
  match fuel with
  | 0 => .error ⟨"Out of parser fuel"⟩
  | fuel + 1 =>
    let a := scanAlphaSpan terms s1
    match parse_whitespace (s1.drop a) with
    | ':' :: rest2 =>
      let tname := String.mk (s1.take a)
      if lowerStr tname = "provides" then
        parse_short_dep_target fuel flag brokenB true .depends rest2 terms sd e
      else
        match parse_deptype tname with
        | none => .error ⟨"Unknown dependency type: " ++ tname⟩
        | some t =>
          parse_short_dep_target fuel flag brokenB false t rest2 terms sd e
    | _ => parse_short_dep_target fuel flag brokenB false .depends s1 terms sd e

/-- The target-atom parse shared by all `~D`/`~R` variants. -/
def parse_short_dep_target (fuel : Nat) (flag : Char)
    (brokenB doProvides : Bool) (dtype : DepType) (s2 : List Char)
    (terms : List String) (sd : Bool) (e : ParseEnv) :
    Except CompileError (Matcher × List Char) :=
  match fuel with
  | 0 => .error ⟨"Out of parser fuel"⟩
  | fuel + 1 =>
    if doProvides && brokenB then .error ⟨"Provides: cannot be broken"⟩
    else
      match parse_atom fuel s2 terms sd false e with
      | .error err => .error err
      | .ok (m, s3) =>
        if flag = 'D' then
          if doProvides then .ok (.provides m, s3)
          else .ok (.dep dtype brokenB m, s3)
        else
          if doProvides then .ok (.revprv m, s3)
          else .ok (.revdep dtype brokenB m, s3)

/-- `parse_function_style_matcher_tail`: either the `?=variable` equality
form or a named matcher with an optional `variable:` binding that wraps
the result via `maybe_bind`. -/
def parse_function_style_matcher_tail (fuel : Nat) (s : List Char)
    (terms : List String) (sd wide : Bool) (e : ParseEnv) :
    Except CompileError (Matcher × List Char) :=
  match fuel with
  | 0 => .error ⟨"Out of parser fuel"⟩
  | fuel + 1 =>
    match s with
    | '=' :: rest =>
      let p := scanVarName terms "" (parse_whitespace rest)
      if p.1 = "" then
        .error ⟨"Unexpected end of pattern following an equals sign, expected a variable name"⟩
      else
        match get_variable_index p.1 e with
        | .error err => .error err
        | .ok i => .ok (.equal i, p.2)
    | _ =>
      match scanMatcherName terms "" "" "" (parse_whitespace s) with
      | .error err => .error err
      | .ok (_raw, lower, bound, s1) =>
        match parse_matcher_args fuel lower s1 terms sd wide e with
        | .error err => .error err
        | .ok (m, s2) =>
          match maybe_bind bound m e with
          | .error err => .error err
          | .ok m2 => .ok (m2, s2)

/-- The synthesized `[broken-][reverse-]deptype` block at the head of
`parse_matcher_args`; when the name carries no dependency prefix and is not
a dependency type, control falls through to the name table. -/
def parse_matcher_args (fuel : Nat) (mname : String) (s : List Char)
    (terms : List String) (sd wide : Bool) (e : ParseEnv) :
    Except CompileError (Matcher × List Char) :=
  match fuel with
  | 0 => .error ⟨"Out of parser fuel"⟩
  | fuel + 1 =>
    let pre := dep_prefix_split mname
    let brokenB := pre.1
    let reverseB := pre.2.1
    let suffix := pre.2.2
    let s1 := skipBlankTerm terms s
    match parse_deptype suffix with
    | none =>
      if reverseB && suffix = "provides" then
        match parse_pkg_matcher_args fuel s1 terms sd false e with
        | .error err => .error err
        | .ok (m, s2) => .ok (.revprv m, s2)
      else if brokenB || reverseB then
        .error ⟨"Unknown dependency type: " ++ suffix⟩
      else parse_matcher_args_table fuel mname s1 terms sd wide e
    | some t =>
      if reverseB then
        match parse_pkg_matcher_args fuel s1 terms sd false e with
        | .error err => .error err
        | .ok (m, s2) => .ok (.revdep t brokenB m, s2)
      else if brokenB then
        match parse_optional_pkg_matcher_args fuel s1 terms sd false e with
        | .error err => .error err
        | .ok (some m, s2) => .ok (.dep t true m, s2)
        | .ok (none, s2) => .ok (.brokenType t, s2)
      else
        match parse_pkg_matcher_args fuel s1 terms sd false e with
        | .error err => .error err
        | .ok (m, s2) => .ok (.dep t false m, s2)

/-- The name-table switch of `parse_matcher_args`.  `all-versions` and
`any-version` demand a wide context before their argument is even parsed;
`widen` parses its argument in a wide context; `narrow`, `provides` and the
dependency forms parse theirs in a narrow one. -/
def parse_matcher_args_table (fuel : Nat) (mname : String) (s : List Char)
    (terms : List String) (sd wide : Bool) (e : ParseEnv) :
    Except CompileError (Matcher × List Char) :=
  match fuel with
  | 0 => .error ⟨"Out of parser fuel"⟩
  | fuel + 1 =>
    match matcher_types.find? (fun p => p.1 = mname) with
    | none => .error ⟨"Unknown matcher type: " ++ mname⟩
    | some (_, ty) =>
      match ty with
      | .action =>
        match parse_string_match_args s with
        | .error err => .error err
        | .ok (sub, s1) =>
          match make_action_matcher sub with
          | .error err => .error err
          | .ok m => .ok (m, s1)
      | .allV =>
        if !wide then
          .error ⟨"The ?" ++ mname ++ " matcher must be used in a wide context (a top-level context, or a context enclosed by ?widen)."⟩
        else
          match parse_pkg_matcher_args fuel s terms sd false e with
          | .error err => .error err
          | .ok (m, s1) => .ok (.allVersions m, s1)
      | .andM => parse_binary_matcher fuel Matcher.and s terms sd wide e
      | .anyV =>
        if !wide then
          .error ⟨"The ?" ++ mname ++ " matcher must be used in a wide context (a top-level context, or a context enclosed by ?widen)."⟩
        else
          match parse_pkg_matcher_args fuel s terms sd false e with
          | .error err => .error err
          | .ok (m, s1) => .ok (.anyVersion m, s1)
      | .archive =>
        match parse_string_match_args s with
        | .error err => .error err
        | .ok (sub, s1) => .ok (.archive sub, s1)
      | .automatic => .ok (.auto, s)
      | .bindT =>
        match parse_open_paren (parse_whitespace s) with
        | .error err => .error err
        | .ok s1 =>
          match parse_substr s1 [")", ","] true with
          | .error err => .error err
          | .ok (varName, s2) =>
            match get_variable_index varName e with
            | .error err => .error err
            | .ok idx =>
              match parse_comma (parse_whitespace s2) with
              | .error err => .error err
              | .ok s3 =>
                match parse_condition_list fuel (parse_whitespace s3) [")"] sd wide e with
                | .error err => .error err
                | .ok (m, s4) =>
                  match parse_close_paren (parse_whitespace s4) with
                  | .error err => .error err
                  | .ok s5 => .ok (.bindM m idx, s5)
      | .broken => .ok (.broken, s)
      | .configFilesT => .ok (.configFiles, s)
      | .description =>
        match parse_string_match_args s with
        | .error err => .error err
        | .ok (sub, s1) => .ok (.description sub, s1)
      | .essential => .ok (.essential, s)
      | .falseT => .ok (.mfalse, s)
      | .forT => parse_explicit_matcher fuel mname s terms sd wide e
      | .garbage => .ok (.garbage, s)
      | .installed => .ok (.installed, s)
      | .maintainer =>
        match parse_string_match_args s with
        | .error err => .error err
        | .ok (sub, s1) => .ok (.maintainer sub, s1)
      | .nameT =>
        match parse_string_match_args s with
        | .error err => .error err
        | .ok (sub, s1) => .ok (.name sub, s1)
      | .narrow => parse_binary_matcher fuel Matcher.select s terms sd false e
      | .newT => .ok (.newPkg, s)
      | .notM =>
        match parse_pkg_matcher_args fuel s terms sd wide e with
        | .error err => .error err
        | .ok (m, s1) => .ok (.not m, s1)
      | .obsolete => .ok (.obsolete, s)
      | .orM => parse_binary_matcher fuel Matcher.or s terms sd wide e
      | .origin =>
        match parse_string_match_args s with
        | .error err => .error err
        | .ok (sub, s1) => .ok (.origin sub, s1)
      | .priority =>
        match parse_string_match_args s with
        | .error err => .error err
        | .ok (sub, s1) =>
          match parse_priority sub with
          | .error err => .error err
          | .ok l => .ok (.priority l, s1)
      | .provides =>
        match parse_pkg_matcher_args fuel s terms sd false e with
        | .error err => .error err
        | .ok (m, s1) => .ok (.provides m, s1)
      | .sectionT =>
        match parse_string_match_args s with
        | .error err => .error err
        | .ok (sub, s1) => .ok (.sect sub, s1)
      | .sourcePackage =>
        match parse_string_match_args s with
        | .error err => .error err
        | .ok (sub, s1) => .ok (.sourcePackage sub, s1)
      | .sourceVersion =>
        match parse_string_match_args s with
        | .error err => .error err
        | .ok (sub, s1) => .ok (.sourceVersion sub, s1)
      | .tag =>
        match parse_string_match_args s with
        | .error err => .error err
        | .ok (sub, s1) => .ok (.tag sub, s1)
      | .task =>
        match parse_string_match_args s with
        | .error err => .error err
        | .ok (sub, s1) => .ok (.task sub, s1)
      | .trueT => .ok (.mtrue, s)
      | .upgradable => .ok (.upgradable, s)
      | .userTagT =>
        match parse_string_match_args s with
        | .error err => .error err
        | .ok (sub, s1) => .ok (.userTag sub, s1)
      | .version =>
        match parse_string_match_args s with
        | .error err => .error err
        | .ok (sub, s1) => .ok (make_package_version_matcher sub, s1)
      | .widen =>
        match parse_pkg_matcher_args fuel s terms sd true e with
        | .error err => .error err
        | .ok (m, s1) => .ok (.widen m, s1)
      | .virtualT => .ok (.virtualPkg, s)

/-- `parse_binary_matcher`: a comma terminator is added for the first
argument only. -/
def parse_binary_matcher (fuel : Nat) (mk : Matcher → Matcher → Matcher)
    (s : List Char) (terms : List String) (sd wide : Bool) (e : ParseEnv) :
    Except CompileError (Matcher × List Char) :=
  match fuel with
  | 0 => .error ⟨"Out of parser fuel"⟩
  | fuel + 1 =>
    let termsPlus := add_new_terminator "," terms
    match parse_open_paren s with
    | .error err => .error err
    | .ok s1 =>
      match parse_condition_list fuel s1 termsPlus sd wide e with
      | .error err => .error err
      | .ok (a1, s2) =>
        match parse_comma s2 with
        | .error err => .error err
        | .ok s3 =>
          match parse_condition_list fuel s3 terms sd wide e with
          | .error err => .error err
          | .ok (a2, s4) =>
            match parse_close_paren s4 with
            | .error err => .error err
            | .ok s5 => .ok (mk a1 a2, s5)

/-- `parse_explicit_matcher` (the tail of `?for`): scan the variable name,
demand a colon, lower the name, bind it to the next De Bruijn index
(`name_context.size()`), parse the body under the extended environment and
wrap it in a `pkg_explicit_matcher`. -/
def parse_explicit_matcher (fuel : Nat) (mname : String) (s : List Char)
    (terms : List String) (sd wide : Bool) (e : ParseEnv) :
    Except CompileError (Matcher × List Char) :=
  match fuel with
  | 0 => .error ⟨"Out of parser fuel"⟩
  | fuel + 1 =>
    let p := scanVarName terms "" (parse_whitespace s)
    let bound := p.1
    match parse_whitespace p.2 with
    | [] =>
      .error ⟨"Unexpected end of pattern following ?" ++ mname ++ " " ++ bound⟩
    | c :: rest =>
      if c ≠ ':' then
        .error ⟨"Unexpected character following ?" ++ mname ++ " " ++ bound⟩
      else
        let e2 := envBind e (lowerStr bound) (envSize e)
        match parse_condition_list fuel (parse_whitespace rest) terms sd wide e2 with
        | .error err => .error err
        | .ok (m, s1) => .ok (.explicitM m, s1)

/-- `parse_pkg_matcher_args`: a parenthesized condition list. -/
def parse_pkg_matcher_args (fuel : Nat) (s : List Char) (terms : List String)
    (sd wide : Bool) (e : ParseEnv) :
    Except CompileError (Matcher × List Char) :=
  match fuel with
  | 0 => .error ⟨"Out of parser fuel"⟩
  | fuel + 1 =>
    match parse_open_paren s with
    | .error err => .error err
    | .ok s1 =>
      match parse_condition_list fuel s1 terms sd wide e with
      | .error err => .error err
      | .ok (m, s2) =>
        match parse_close_paren s2 with
        | .error err => .error err
        | .ok s3 => .ok (m, s3)

/-- `parse_optional_pkg_matcher_args`: parse a parenthesized argument when
one is present. -/
def parse_optional_pkg_matcher_args (fuel : Nat) (s : List Char)
    (terms : List String) (sd wide : Bool) (e : ParseEnv) :
    Except CompileError (Option Matcher × List Char) :=
  match fuel with
  | 0 => .error ⟨"Out of parser fuel"⟩
  | fuel + 1 =>
    match parse_whitespace s with
    | '(' :: rest =>
      match parse_pkg_matcher_args fuel ('(' :: rest) terms sd wide e with
      | .error err => .error err
      | .ok (m, s1) => .ok (some m, s1)
    | s1 => .ok (none, s1)

end

/-- The facade `parse_pattern`: strip leading blanks (stopping at a
terminator); an empty input yields a null matcher before the error handler
is even installed.  A `CompilationException` from the parse is caught
unconditionally; `flag_errors` only decides whether the message is logged
via `_error` (modelled by the returned message list). -/
def parse_pattern (text : String) (terms : List String)
    (sd flag_errors require_full_parse : Bool) :
    Option Matcher × List String :=
  let start := skipBlankTerm terms text.data
  if start.isEmpty then (none, [])
  else
    match parse_condition_list (10 * text.length + 100) start terms sd true [] with
    | .error err => (none, if flag_errors then [err.msg] else [])
    | .ok (m, s1) =>
      let s2 := parse_whitespace s1
      if require_full_parse && !s2.isEmpty then
        (none, if flag_errors then ["Unexpected trailing text"] else [])
      else (some m, [])

/-- A minimal concrete catalog used as the base for concrete test
instances: no packages have versions, every flag is clear, the regex engine
matches nothing. -/
def trivEnv : Env where
  versions := fun _ => []
  currentVer := fun _ => none
  candVer := fun _ => none
  instVer := fun _ => none
  pkgName := fun _ => ""
  verStr := fun _ => ""
  sectionOf := fun _ => none
  priorityOf := fun _ => .optionalP
  priorityTypeName := fun _ => ""
  longDesc := fun _ => ""
  maintainerOf := fun _ => ""
  files := fun _ => []
  deps := fun _ => []
  revDeps := fun _ => []
  providesOf := fun _ => []
  providersOf := fun _ => []
  tasksOf := fun _ => none
  tagsOf := fun _ => none
  userTagsOf := fun _ => []
  derefUserTag := fun _ => ""
  autoFlag := fun _ => false
  installB := fun _ => false
  nowBroken := fun _ => false
  instBroken := fun _ => false
  keepB := fun _ => false
  purgeFlag := fun _ => false
  holdSel := fun _ => false
  actionState := fun _ => .unchanged
  essentialFlag := fun _ => false
  importantFlag := fun _ => false
  configFilesState := fun _ => false
  newFlag := fun _ => false
  upgradableB := fun _ => false
  obsoleteB := fun _ => false
  garbageFlag := fun _ => false
  checkDep := fun _ _ _ => true
  depRender := fun _ => ""
  regexec := fun _ _ => none

/-- Catalog for the first counterexample: package `0` has versions `1` and
`2`, with version `1` currently installed. -/
def envTwoVers : Env :=
  { trivEnv with
    versions := fun p => if p = 0 then [1, 2] else []
    currentVer := fun p => if p = 0 then some 1 else none }

/-- Catalog for the provides counterexample: package `0` has version `1`
which provides package `2`; package `2` also has a real version `3`, which
is currently installed. -/
def envProvides : Env :=
  { trivEnv with
    versions := fun p => if p = 0 then [1] else if p = 2 then [3] else []
    currentVer := fun p => if p = 2 then some 3 else none
    providesOf := fun v => if v = 1 then [2] else [] }

/-! Claim C5: Narrow versus And on version-mode booleans. -/

/-- C5: for every pair of matchers `f` and `x`, every package, version
(including the no-version sentinel), catalog and stack, the Narrow
combinator `pkg_select_matcher` and the conjunction `pkg_and_matcher`
return the same boolean from the version-mode `matches` operation. -/
theorem narrow_and_agree_on_version_matches (env : Env) (f x : Matcher)
    (pkg : PkgId) (ver : Option VerId) (st : Stack) :
    matches_ver env (.select f x) pkg ver st =
      matches_ver env (.and f x) pkg ver st := rfl

/-! Claim C6: Widen idempotence on booleans. -/

/-- C6: for every matcher `x`, package, optional version, catalog and
stack, `Widen(Widen(x))` and `Widen(x)` return the same boolean from both
the version-mode and the package-mode `matches` operations. -/
theorem widen_idempotent_on_matches (env : Env) (x : Matcher) (pkg : PkgId)
    (ver : Option VerId) (st : Stack) :
    matches_ver env (.widen (.widen x)) pkg ver st =
        matches_ver env (.widen x) pkg ver st ∧
      matches_pkg env (.widen (.widen x)) pkg st =
        matches_pkg env (.widen x) pkg st :=
  ⟨rfl, rfl⟩

/-! Claim C7: the empty regex pattern matches everything. -/

/-- C7: a string-matcher node constructed with an empty pattern compiles
the pattern `".*"` instead, so whenever the regex engine accepts every
string against `".*"` (as POSIX guarantees), the node's string match
succeeds on every input string. -/
theorem empty_pattern_matches_everything (env : Env) (s : String)
    (h : ∀ t, (env.regexec ".*" t).isSome = true) :
    string_matches env "" s = string_matches env ".*" s ∧
      string_matches env "" s = true := by
  refine ⟨rfl, ?_⟩
  simp only [string_matches, compiledPattern]
  exact h s

/-- Witness for C7 at a concrete regex semantics that accepts everything
against `".*"`. -/
theorem empty_pattern_matches_everything_witness :
    let env := { trivEnv with regexec := fun _ t => some [t] }
    string_matches env "" "silly" = string_matches env ".*" "silly" ∧
      string_matches env "" "silly" = true :=
  empty_pattern_matches_everything
    { trivEnv with regexec := fun _ t => some [t] } "silly" (fun _ => rfl)

/-! Claim C10: all-versions on a version-less package. -/

/-- C10: for every sub-matcher `x` and every package with an empty version
list, the package-mode boolean evaluation of `pkg_all_matcher` is
vacuously true, while its package-mode `get_match` on the same package
returns null. -/
theorem all_versions_vacuous_on_versionless (env : Env) (x : Matcher)
    (pkg : PkgId) (h : env.versions pkg = []) :
    apply_matcher_wide env (.allVersions x) pkg = some true ∧
      get_match_wide env (.allVersions x) pkg = some none := by
  constructor
  · simp only [apply_matcher_wide, matches_pkg, evalMatches, h, allTrue]
  · simp only [get_match_wide, get_match_pkg, evalGetMatch, h, allGet]

/-- Witness for C10 on the concrete trivial catalog. -/
theorem all_versions_vacuous_on_versionless_witness :
    apply_matcher_wide trivEnv (.allVersions .mfalse) 0 = some true ∧
      get_match_wide trivEnv (.allVersions .mfalse) 0 = some none :=
  all_versions_vacuous_on_versionless trivEnv .mfalse 0 rfl

/-! Claim C9: SourcePackage/SourceVersion defaulting.

The loops of `pkg_source_package_matcher` and `pkg_source_version_matcher`
carry a `checked_real_package` flag that is never updated; the claim is
that they nevertheless behave as described by the spec: the package name
(resp. version string) serves as the default comparison value once, and
the scan continues through the remaining file records instead of stopping
at the first empty one.  The spec behaviour is defined separately below
and proved equal to the source loops. -/

/-- Spec-described source-field scan: the default value is consulted at
the first empty record only (the flag is updated there), and the scan
continues through the remaining records. -/
def sourceFieldLoopSpec (env : Env) (pat : String) (field : FileRec → String)
    (defaultStr : String) (checked : Bool) : List FileRec → Bool
  | [] => false
  | f :: fs =>
    if field f = "" then
      if !checked then
        if string_matches env pat defaultStr then true
        else sourceFieldLoopSpec env pat field defaultStr true fs
      else sourceFieldLoopSpec env pat field defaultStr checked fs
    else if string_matches env pat (field f) then true
    else sourceFieldLoopSpec env pat field defaultStr checked fs

/-- Spec-described source-field capture scan, with the same
consult-the-default-once discipline. -/
def sourceFieldGetLoopSpec (env : Env) (pat : String) (field : FileRec → String)
    (defaultStr : String) (checked : Bool) : List FileRec → Option MatchResult
  | [] => none
  | f :: fs =>
    if field f = "" then
      if !checked then
        match get_string_match env pat defaultStr with
        | some r => some r
        | none => sourceFieldGetLoopSpec env pat field defaultStr true fs
      else sourceFieldGetLoopSpec env pat field defaultStr checked fs
    else
      match get_string_match env pat (field f) with
      | some r => some r
      | none => sourceFieldGetLoopSpec env pat field defaultStr checked fs

/-- When the default value matches, the source loop and the spec loop
agree at every flag value. -/
theorem sourceFieldLoop_eq_spec_of_default_hit (env : Env) (pat : String)
    (field : FileRec → String) (d : String)
    (h : string_matches env pat d = true) :
    ∀ fs c, sourceFieldLoop env pat field d c fs =
      sourceFieldLoopSpec env pat field d c fs := by
  intro fs
  induction fs with
  | nil => intro c; rfl
  | cons f fs ih =>
    intro c
    simp only [sourceFieldLoop, sourceFieldLoopSpec, h]
    by_cases hf : field f = "" <;> simp [hf, ih]

/-- When the default value does not match, the source loop ignores its
flag and the spec loop's flag update is invisible, so the two agree at all
flag values. -/
theorem sourceFieldLoop_eq_spec_of_default_miss (env : Env) (pat : String)
    (field : FileRec → String) (d : String)
    (h : string_matches env pat d = false) :
    ∀ fs c c', sourceFieldLoop env pat field d c fs =
      sourceFieldLoopSpec env pat field d c' fs := by
  intro fs
  induction fs with
  | nil => intro c c'; rfl
  | cons f fs ih =>
    intro c c'
    simp only [sourceFieldLoop, sourceFieldLoopSpec, h]
    by_cases hf : field f = "" <;>
      by_cases hm : string_matches env pat (field f) <;>
        cases c <;> cases c' <;> simp [hf, hm] <;> exact ih _ _

/-- The source loop equals the spec loop. -/
theorem sourceFieldLoop_eq_spec (env : Env) (pat : String)
    (field : FileRec → String) (d : String) (fs : List FileRec) (c : Bool) :
    sourceFieldLoop env pat field d c fs =
      sourceFieldLoopSpec env pat field d c fs := by
  by_cases h : string_matches env pat d
  · exact sourceFieldLoop_eq_spec_of_default_hit env pat field d h fs c
  · exact sourceFieldLoop_eq_spec_of_default_miss env pat field d
      (Bool.not_eq_true _ ▸ eq_false_of_ne_true h) fs c c

/-- Capture-loop analogue of `sourceFieldLoop_eq_spec_of_default_hit`. -/
theorem sourceFieldGetLoop_eq_spec_of_default_hit (env : Env) (pat : String)
    (field : FileRec → String) (d : String) (r : MatchResult)
    (h : get_string_match env pat d = some r) :
    ∀ fs c, sourceFieldGetLoop env pat field d c fs =
      sourceFieldGetLoopSpec env pat field d c fs := by
  intro fs
  induction fs with
  | nil => intro c; rfl
  | cons f fs ih =>
    intro c
    simp only [sourceFieldGetLoop, sourceFieldGetLoopSpec, h]
    by_cases hf : field f = "" <;> simp [hf, ih]

/-- Capture-loop analogue of `sourceFieldLoop_eq_spec_of_default_miss`. -/
theorem sourceFieldGetLoop_eq_spec_of_default_miss (env : Env) (pat : String)
    (field : FileRec → String) (d : String)
    (h : get_string_match env pat d = none) :
    ∀ fs c c', sourceFieldGetLoop env pat field d c fs =
      sourceFieldGetLoopSpec env pat field d c' fs := by
  intro fs
  induction fs with
  | nil => intro c c'; rfl
  | cons f fs ih =>
    intro c c'
    simp only [sourceFieldGetLoop, sourceFieldGetLoopSpec, h]
    by_cases hf : field f = "" <;> cases c <;> cases c' <;>
      simp [hf] <;> first
      | exact ih _ _
      | (cases hm : get_string_match env pat (field f) <;> simp [hm] <;> exact ih _ _)

/-- Capture-loop analogue of `sourceFieldLoop_eq_spec`. -/
theorem sourceFieldGetLoop_eq_spec (env : Env) (pat : String)
    (field : FileRec → String) (d : String) (fs : List FileRec) (c : Bool) :
    sourceFieldGetLoop env pat field d c fs =
      sourceFieldGetLoopSpec env pat field d c fs := by
  cases h : get_string_match env pat d with
  | none => exact sourceFieldGetLoop_eq_spec_of_default_miss env pat field d h fs c c
  | some r => exact sourceFieldGetLoop_eq_spec_of_default_hit env pat field d r h fs c

/-- C9: on every catalog, package and version, the SourcePackage and
SourceVersion matchers (both `matches` and `get_match`) behave exactly as
the consult-the-default-once, keep-scanning description: the package name
(resp. version string) stands in for an empty source field once, and the
scan continues through the remaining file records rather than stopping at
the first empty one. -/
theorem source_matchers_default_once (env : Env) (pat : String) (pkg : PkgId)
    (v : VerId) (st : Stack) :
    matches_ver env (.sourcePackage pat) pkg (some v) st =
        some (if (env.files v).isEmpty then false
          else sourceFieldLoopSpec env pat (fun f => f.sourcePkg)
            (env.pkgName pkg) false (env.files v)) ∧
      get_match_ver env (.sourcePackage pat) pkg (some v) st =
        some (if (env.files v).isEmpty then none
          else sourceFieldGetLoopSpec env pat (fun f => f.sourcePkg)
            (env.pkgName pkg) false (env.files v)) ∧
      matches_ver env (.sourceVersion pat) pkg (some v) st =
        some (if (env.files v).isEmpty then false
          else sourceFieldLoopSpec env pat (fun f => f.sourceVer)
            (env.verStr v) false (env.files v)) ∧
      get_match_ver env (.sourceVersion pat) pkg (some v) st =
        some (if (env.files v).isEmpty then none
          else sourceFieldGetLoopSpec env pat (fun f => f.sourceVer)
            (env.verStr v) false (env.files v)) := by
  refine ⟨?_, ?_, ?_, ?_⟩ <;>
    simp only [matches_ver, get_match_ver, evalMatches, evalGetMatch,
      mkMatchPair, mkGetPair, sourceFieldLoop_eq_spec, sourceFieldGetLoop_eq_spec]

/-! Claim C1: agreement of `get_match` and `matches`.

The claim fails on the source: three node classes evaluate their children
in different modes in `matches` and in `get_match`
(`pkg_explicit_matcher`, whose version-mode `get_match` runs the body in
package mode; `pkg_all_matcher`, whose package-mode `get_match` is null on
an empty version list while `matches` is vacuously true; and
`pkg_provides_matcher`, whose `matches` runs the sub-pattern in package
mode but whose `get_match` runs it on the end version).  For every matcher
avoiding those three constructors the agreement holds, in both modes, and
`pkg_not_matcher` is not an exception to the equivalence: its `get_match`
is non-null (an empty result) exactly when its `matches` is true. -/

/-- Matchers containing none of the three mode-mixing constructors
(`pkg_explicit_matcher`, `pkg_all_matcher`, `pkg_provides_matcher`). -/
def agreeable : Matcher → Bool
  | .allVersions _ => false
  | .explicitM _ => false
  | .provides _ => false
  | .and l r => agreeable l && agreeable r
  | .or l r => agreeable l && agreeable r
  | .not c => agreeable c
  | .dep _ _ p => agreeable p
  | .revdep _ _ p => agreeable p
  | .revprv p => agreeable p
  | .widen p => agreeable p
  | .select f x => agreeable f && agreeable x
  | .anyVersion s => agreeable s
  | .bindM s _ => agreeable s
  | _ => true

/-- Booleanized if-then-else over options. -/
theorem isSome_bif (c : Bool) (x : α) :
    (if c then some x else none).isSome = c := by
  cases c <;> rfl

/-- The first-hit boolean loop agrees with the first-result loop when the
element evaluations agree. -/
theorem firstTrue_agree (f : α → Option Bool)
    (g : α → Option (Option MatchResult)) (l : List α)
    (h : ∀ a ∈ l, f a = (g a).map (fun r => r.isSome)) :
    firstTrue f l = (firstSome g l).map (fun r => r.isSome) := by
  induction l with
  | nil => rfl
  | cons x xs ih =>
    have hx := h x (List.mem_cons_self x xs)
    have ih2 := ih (fun a ha => h a (List.mem_cons_of_mem x ha))
    simp only [firstTrue, firstSome, hx]
    cases g x with
    | none => rfl
    | some r => cases r <;> simp [ih2]

/-- `firstStringMatch` finds a result exactly when some string matches. -/
theorem firstStringMatch_agree (env : Env) (pat : String) (l : List String) :
    (firstStringMatch env pat l).isSome = l.any (fun s => string_matches env pat s) := by
  induction l with
  | nil => rfl
  | cons s ss ih =>
    simp only [firstStringMatch, List.any_cons]
    cases hm : get_string_match env pat s with
    | none =>
      have : string_matches env pat s = false := by
        simp only [string_matches]
        simpa [get_string_match] using congrArg Option.isSome hm
      simp [this, ih]
    | some r =>
      have : string_matches env pat s = true := by
        simp only [string_matches]
        simpa [get_string_match] using congrArg Option.isSome hm
      simp [this]

/-- The archive/origin capture loop finds a result exactly when the
boolean loop succeeds. -/
theorem fileFieldGetLoop_agree (env : Env) (pat : String)
    (field : FileRec → Option String) (fs : List FileRec) :
    (fileFieldGetLoop env pat field fs).isSome = fileFieldAny env pat field fs := by
  induction fs with
  | nil => rfl
  | cons f fs ih =>
    simp only [fileFieldGetLoop, fileFieldAny, List.any_cons]
    cases hf : field f with
    | none =>
      simp only [Bool.false_or]
      exact ih
    | some s =>
      cases hm : get_string_match env pat s with
      | none =>
        have hs : string_matches env pat s = false := by
          simp only [string_matches]
          simpa [get_string_match] using congrArg Option.isSome hm
        simp only [hm, hs, Bool.false_or]
        exact ih
      | some r =>
        have hs : string_matches env pat s = true := by
          simp only [string_matches]
          simpa [get_string_match] using congrArg Option.isSome hm
        simp [hm, hs]

/-- The source-field capture loop finds a result exactly when the
source-field boolean loop succeeds. -/
theorem sourceFieldGetLoop_agree (env : Env) (pat : String)
    (field : FileRec → String) (d : String) (c : Bool) (fs : List FileRec) :
    (sourceFieldGetLoop env pat field d c fs).isSome =
      sourceFieldLoop env pat field d c fs := by
  induction fs generalizing c with
  | nil => rfl
  | cons f fs ih =>
    simp only [sourceFieldGetLoop, sourceFieldLoop]
    have hmain : ∀ s : String,
        (get_string_match env pat s).isSome = string_matches env pat s := by
      intro s; simp [get_string_match, string_matches]
    by_cases hf : field f = ""
    · simp only [hf, if_pos rfl]
      cases c with
      | false =>
        simp only [Bool.not_false, if_true]
        cases hm : get_string_match env pat d with
        | none =>
          have hd := hmain d
          rw [hm] at hd
          simp only [hm, ← hd, Option.isSome_none, Bool.false_eq_true, if_false]
          exact ih _
        | some r =>
          have hd := hmain d
          rw [hm] at hd
          simp [hm, ← hd]
      | true =>
        simp only [Bool.not_true, if_false, Bool.false_eq_true]
        exact ih _
    · simp only [if_neg hf]
      cases hm : get_string_match env pat (field f) with
      | none =>
        have hd := hmain (field f)
        rw [hm] at hd
        simp only [hm, ← hd, Option.isSome_none, Bool.false_eq_true, if_false]
        exact ih _
      | some r =>
        have hd := hmain (field f)
        rw [hm] at hd
        simp [hm, ← hd]

/-- The inherited package-mode operations agree whenever the version-mode
operations agree pointwise. -/
theorem defaultPkg_agree (env : Env) (vf : MVerFn) (gf : GVerFn)
    (h : ∀ pkg ver st, vf pkg ver st = (gf pkg ver st).map (fun r => r.isSome))
    (pkg : PkgId) (st : Stack) :
    defaultPkgMatches env vf pkg st =
      (defaultPkgGet env gf pkg st).map (fun r => r.isSome) := by
  simp only [defaultPkgMatches, defaultPkgGet]
  by_cases hv : (env.versions pkg).isEmpty
  · simp [hv, h]
  · simp only [hv, if_neg]
    exact firstTrue_agree _ _ _ (fun a _ => h pkg (some a) st)

/-- The dependency-target version loops agree. -/
theorem depVerLoop_agree (env : Env) (d : DepRec)
    (vf : PkgId → Option VerId → Option Bool)
    (gf : PkgId → Option VerId → Option (Option MatchResult))
    (h : ∀ p w, vf p w = (gf p w).map (fun r => r.isSome)) (l : List VerId) :
    depVerLoop env d vf l = (depVerGetLoop env d gf l).map (fun r => r.isSome) := by
  induction l with
  | nil => rfl
  | cons v vs ih =>
    simp only [depVerLoop, depVerGetLoop]
    by_cases hc : env.checkDep (env.verStr v) d.compareOp d.targetVer
    · simp only [hc, if_true]
      rw [h d.targetPkg (some v)]
      cases gf d.targetPkg (some v) with
      | none => rfl
      | some r => cases r <;> simp [ih]
    · simp [hc, ih]

/-- The dependency loops of `pkg_dep_matcher` agree. -/
theorem depLoop_agree (env : Env) (t : DepType) (b : Bool)
    (vf : PkgId → Option VerId → Option Bool)
    (gf : PkgId → Option VerId → Option (Option MatchResult))
    (h : ∀ p w, vf p w = (gf p w).map (fun r => r.isSome)) (l : List DepRec) :
    depLoop env t b vf l = (depGetLoop env t b gf l).map (fun r => r.isSome) := by
  induction l with
  | nil => rfl
  | cons d ds ih =>
    simp only [depLoop, depGetLoop]
    by_cases ht : depTypeHit t d.dtype
    · simp only [ht, if_true]
      by_cases hb : b && orGroupGInstall d ds
      · simp [hb, ih]
      · simp only [hb, if_false, Bool.false_eq_true]
        by_cases he : (env.versions d.targetPkg).isEmpty
        · simp only [he, if_true]
          rw [h d.targetPkg none]
          cases gf d.targetPkg none with
          | none => rfl
          | some r =>
            cases r with
            | none =>
              simp only [Option.map_some]
              rw [depVerLoop_agree env d vf gf h]
              cases depVerGetLoop env d gf (env.versions d.targetPkg) with
              | none => rfl
              | some r2 => cases r2 <;> simp [ih]
            | some r1 => rfl
        · simp only [he, if_false, Bool.false_eq_true]
          rw [depVerLoop_agree env d vf gf h]
          cases depVerGetLoop env d gf (env.versions d.targetPkg) with
          | none => rfl
          | some r2 => cases r2 <;> simp [ih]
    · simp [ht, ih]

/-- The direct reverse-dependency loops agree. -/
theorem revdepLoop_agree (env : Env) (t : DepType) (b : Bool) (ver : Option VerId)
    (vf : PkgId → Option VerId → Option Bool)
    (gf : PkgId → Option VerId → Option (Option MatchResult))
    (h : ∀ p w, vf p w = (gf p w).map (fun r => r.isSome)) (l : List DepRec) :
    revdepLoop env t b ver vf l =
      (revdepGetLoop env t b ver gf l).map (fun r => r.isSome) := by
  induction l with
  | nil => rfl
  | cons d ds ih =>
    simp only [revdepLoop, revdepGetLoop]
    by_cases hb : b && orGroupGInstall d ds
    · simp [hb, ih]
    · simp only [hb, if_false, Bool.false_eq_true]
      by_cases ht : depTypeHit t d.dtype && revdepVerHit env d ver
      · simp only [ht, if_true]
        rw [h d.parentPkg (some d.parentVer)]
        cases gf d.parentPkg (some d.parentVer) with
        | none => rfl
        | some r => cases r <;> simp [ih]
      · simp [ht, ih]

/-- The provides-mediated reverse-dependency loops agree; the two sides
test the broken filter and the type in different orders, with the same
outcome. -/
theorem revdepPrvLoop_agree (env : Env) (t : DepType) (b : Bool)
    (vf : PkgId → Option VerId → Option Bool)
    (gf : PkgId → Option VerId → Option (Option MatchResult))
    (h : ∀ p w, vf p w = (gf p w).map (fun r => r.isSome)) (l : List DepRec) :
    revdepPrvLoop env t b vf l =
      (revdepPrvGetLoop env t b gf l).map (fun r => r.isSome) := by
  induction l with
  | nil => rfl
  | cons d ds ih =>
    simp only [revdepPrvLoop, revdepPrvGetLoop]
    by_cases ht : d.dtype == t && d.targetVer == none
    · simp only [ht, if_true]
      by_cases hb : b && orGroupGInstall d ds
      · simp [hb, ih]
      · simp only [hb, if_false, Bool.false_eq_true]
        rw [h d.parentPkg (some d.parentVer)]
        cases gf d.parentPkg (some d.parentVer) with
        | none => rfl
        | some r => cases r <;> simp [ih]
    · by_cases hb : b && orGroupGInstall d ds <;> simp [ht, hb, ih]

/-- The outer provides loops of `pkg_revdep_matcher` agree. -/
theorem revdepPrvOuter_agree (env : Env) (t : DepType) (b : Bool)
    (vf : PkgId → Option VerId → Option Bool)
    (gf : PkgId → Option VerId → Option (Option MatchResult))
    (h : ∀ p w, vf p w = (gf p w).map (fun r => r.isSome)) (l : List PkgId) :
    revdepPrvOuter env t b vf l =
      (revdepPrvGetOuter env t b gf l).map (fun r => r.isSome) := by
  induction l with
  | nil => rfl
  | cons p ps ih =>
    simp only [revdepPrvOuter, revdepPrvGetOuter]
    rw [revdepPrvLoop_agree env t b vf gf h]
    cases revdepPrvGetLoop env t b gf (env.revDeps p) with
    | none => rfl
    | some r => cases r <;> simp [ih]

/-- The reverse-provides loops agree. -/
theorem revprvGetLoop_agree
    (vf : PkgId → VerId → Option Bool)
    (gf : PkgId → VerId → Option (Option MatchResult))
    (h : ∀ p w, vf p w = (gf p w).map (fun r => r.isSome))
    (l : List (PkgId × VerId)) :
    firstTrue (fun pr => vf pr.1 pr.2) l =
      (revprvGetLoop gf l).map (fun r => r.isSome) := by
  induction l with
  | nil => rfl
  | cons p ps ih =>
    simp only [firstTrue, revprvGetLoop]
    rw [h p.1 p.2]
    cases gf p.1 p.2 with
    | none => rfl
    | some r => cases r <;> simp [ih]

/-! One-step unfolding lemmas for the evaluator projections, all
definitional. -/

/-- Version-mode `matches` of `pkg_and_matcher`, in projection form. -/
theorem matches_ver_and (env : Env) (l r : Matcher) (pkg : PkgId)
    (ver : Option VerId) (st : Stack) :
    matches_ver env (.and l r) pkg ver st =
      match matches_ver env l pkg ver st with
      | none => none
      | some false => some false
      | some true => matches_ver env r pkg ver st := rfl

/-- Package-mode `matches` of `pkg_and_matcher`, in projection form. -/
theorem matches_pkg_and (env : Env) (l r : Matcher) (pkg : PkgId) (st : Stack) :
    matches_pkg env (.and l r) pkg st =
      match matches_pkg env l pkg st with
      | none => none
      | some false => some false
      | some true => matches_pkg env r pkg st := rfl

/-- Version-mode `get_match` of `pkg_and_matcher`, in projection form. -/
theorem get_match_ver_and (env : Env) (l r : Matcher) (pkg : PkgId)
    (ver : Option VerId) (st : Stack) :
    get_match_ver env (.and l r) pkg ver st =
      match get_match_ver env l pkg ver st with
      | none => none
      | some none => some none
      | some (some r1) =>
        match get_match_ver env r pkg ver st with
        | none => none
        | some none => some none
        | some (some r2) => some (some (.pair r1 r2)) := rfl

/-- Package-mode `get_match` of `pkg_and_matcher`, in projection form. -/
theorem get_match_pkg_and (env : Env) (l r : Matcher) (pkg : PkgId) (st : Stack) :
    get_match_pkg env (.and l r) pkg st =
      match get_match_pkg env l pkg st with
      | none => none
      | some none => some none
      | some (some r1) =>
        match get_match_pkg env r pkg st with
        | none => none
        | some none => some none
        | some (some r2) => some (some (.pair r1 r2)) := rfl

/-- Version-mode `matches` of `pkg_or_matcher`, in projection form. -/
theorem matches_ver_or (env : Env) (l r : Matcher) (pkg : PkgId)
    (ver : Option VerId) (st : Stack) :
    matches_ver env (.or l r) pkg ver st =
      match matches_ver env l pkg ver st with
      | none => none
      | some true => some true
      | some false => matches_ver env r pkg ver st := rfl

/-- Package-mode `matches` of `pkg_or_matcher`, in projection form. -/
theorem matches_pkg_or (env : Env) (l r : Matcher) (pkg : PkgId) (st : Stack) :
    matches_pkg env (.or l r) pkg st =
      match matches_pkg env l pkg st with
      | none => none
      | some true => some true
      | some false => matches_pkg env r pkg st := rfl

/-- Version-mode `get_match` of `pkg_or_matcher`, in projection form. -/
theorem get_match_ver_or (env : Env) (l r : Matcher) (pkg : PkgId)
    (ver : Option VerId) (st : Stack) :
    get_match_ver env (.or l r) pkg ver st =
      match get_match_ver env l pkg ver st with
      | none => none
      | some (some r1) => some (some r1)
      | some none => get_match_ver env r pkg ver st := rfl

/-- Package-mode `get_match` of `pkg_or_matcher`, in projection form. -/
theorem get_match_pkg_or (env : Env) (l r : Matcher) (pkg : PkgId) (st : Stack) :
    get_match_pkg env (.or l r) pkg st =
      match get_match_pkg env l pkg st with
      | none => none
      | some (some r1) => some (some r1)
      | some none => get_match_pkg env r pkg st := rfl

/-- Version-mode `matches` of `pkg_not_matcher`, in projection form. -/
theorem matches_ver_not (env : Env) (c : Matcher) (pkg : PkgId)
    (ver : Option VerId) (st : Stack) :
    matches_ver env (.not c) pkg ver st =
      (matches_ver env c pkg ver st).map (fun b => !b) := rfl

/-- Package-mode `matches` of `pkg_not_matcher`, in projection form. -/
theorem matches_pkg_not (env : Env) (c : Matcher) (pkg : PkgId) (st : Stack) :
    matches_pkg env (.not c) pkg st =
      (matches_pkg env c pkg st).map (fun b => !b) := rfl

/-- Version-mode `get_match` of `pkg_not_matcher`, in projection form. -/
theorem get_match_ver_not (env : Env) (c : Matcher) (pkg : PkgId)
    (ver : Option VerId) (st : Stack) :
    get_match_ver env (.not c) pkg ver st =
      match get_match_ver env c pkg ver st with
      | none => none
      | some none => some (some .empty)
      | some (some _) => some none := rfl

/-- Package-mode `get_match` of `pkg_not_matcher`, in projection form. -/
theorem get_match_pkg_not (env : Env) (c : Matcher) (pkg : PkgId) (st : Stack) :
    get_match_pkg env (.not c) pkg st =
      match get_match_pkg env c pkg st with
      | none => none
      | some none => some (some .empty)
      | some (some _) => some none := rfl

/-- Version-mode `matches` of `pkg_dep_matcher`, in projection form. -/
theorem matches_ver_dep (env : Env) (t : DepType) (b : Bool) (p : Matcher)
    (pkg : PkgId) (ver : Option VerId) (st : Stack) :
    matches_ver env (.dep t b p) pkg ver st =
      match ver with
      | none => some false
      | some v =>
        depLoop env t b (fun q w => matches_ver env p q w st) (env.deps v) := rfl

/-- Version-mode `get_match` of `pkg_dep_matcher`, in projection form. -/
theorem get_match_ver_dep (env : Env) (t : DepType) (b : Bool) (p : Matcher)
    (pkg : PkgId) (ver : Option VerId) (st : Stack) :
    get_match_ver env (.dep t b p) pkg ver st =
      match ver with
      | none => some none
      | some v =>
        depGetLoop env t b (fun q w => get_match_ver env p q w st) (env.deps v) := rfl

/-- Version-mode `matches` of `pkg_revdep_matcher`, in projection form. -/
theorem matches_ver_revdep (env : Env) (t : DepType) (b : Bool) (p : Matcher)
    (pkg : PkgId) (ver : Option VerId) (st : Stack) :
    matches_ver env (.revdep t b p) pkg ver st =
      match revdepLoop env t b ver (fun q w => matches_ver env p q w st)
          (env.revDeps pkg) with
      | none => none
      | some true => some true
      | some false =>
        match ver with
        | none => some false
        | some v =>
          revdepPrvOuter env t b (fun q w => matches_ver env p q w st)
            (env.providesOf v) := rfl

/-- Version-mode `get_match` of `pkg_revdep_matcher`, in projection form. -/
theorem get_match_ver_revdep (env : Env) (t : DepType) (b : Bool) (p : Matcher)
    (pkg : PkgId) (ver : Option VerId) (st : Stack) :
    get_match_ver env (.revdep t b p) pkg ver st =
      match revdepGetLoop env t b ver (fun q w => get_match_ver env p q w st)
          (env.revDeps pkg) with
      | none => none
      | some (some r) => some (some r)
      | some none =>
        match ver with
        | none => some none
        | some v =>
          revdepPrvGetOuter env t b (fun q w => get_match_ver env p q w st)
            (env.providesOf v) := rfl

/-- Version-mode `matches` of `pkg_revprv_matcher`, in projection form. -/
theorem matches_ver_revprv (env : Env) (p : Matcher) (pkg : PkgId)
    (ver : Option VerId) (st : Stack) :
    matches_ver env (.revprv p) pkg ver st =
      firstTrue (fun pr => matches_ver env p pr.1 (some pr.2) st)
        (env.providersOf pkg) := rfl

/-- Version-mode `get_match` of `pkg_revprv_matcher`, in projection form. -/
theorem get_match_ver_revprv (env : Env) (p : Matcher) (pkg : PkgId)
    (ver : Option VerId) (st : Stack) :
    get_match_ver env (.revprv p) pkg ver st =
      revprvGetLoop (fun q w => get_match_ver env p q (some w) st)
        (env.providersOf pkg) := rfl

/-- Version-mode `matches` of `pkg_select_matcher`, in projection form. -/
theorem matches_ver_select (env : Env) (f x : Matcher) (pkg : PkgId)
    (ver : Option VerId) (st : Stack) :
    matches_ver env (.select f x) pkg ver st =
      match matches_ver env f pkg ver st with
      | none => none
      | some false => some false
      | some true => matches_ver env x pkg ver st := rfl

/-- Version-mode `get_match` of `pkg_select_matcher`, in projection form. -/
theorem get_match_ver_select (env : Env) (f x : Matcher) (pkg : PkgId)
    (ver : Option VerId) (st : Stack) :
    get_match_ver env (.select f x) pkg ver st =
      match matches_ver env f pkg ver st with
      | none => none
      | some false => some none
      | some true => get_match_ver env x pkg ver st := rfl

/-- `matches` of `pkg_bind_matcher` (both modes share the body), in
projection form. -/
theorem matches_ver_bind (env : Env) (s : Matcher) (idx : Nat) (pkg : PkgId)
    (ver : Option VerId) (st : Stack) :
    matches_ver env (.bindM s idx) pkg ver st =
      match st.get? idx with
      | none => none
      | some (.package p) => matches_pkg env s p st
      | some (.version p w) => matches_ver env s p w st := rfl

/-- `get_match` of `pkg_bind_matcher`, in projection form. -/
theorem get_match_ver_bind (env : Env) (s : Matcher) (idx : Nat) (pkg : PkgId)
    (ver : Option VerId) (st : Stack) :
    get_match_ver env (.bindM s idx) pkg ver st =
      match st.get? idx with
      | none => none
      | some (.package p) => get_match_pkg env s p st
      | some (.version p w) => get_match_ver env s p w st := rfl

/-- Constructors that inherit the package-mode operations from
`pkg_matcher_real` (everything except the boolean combinators, the
widening and quantifier forms and the lambda binders). -/
def isDefaultPkg : Matcher → Bool
  | .and _ _ => false
  | .or _ _ => false
  | .not _ => false
  | .widen _ => false
  | .allVersions _ => false
  | .anyVersion _ => false
  | .explicitM _ => false
  | .bindM _ _ => false
  | _ => true

/-- For a default-mode constructor, package-mode `matches` is the
inherited loop over the version-mode operation. -/
theorem matches_pkg_default (env : Env) (m : Matcher)
    (hd : isDefaultPkg m = true) (pkg : PkgId) (st : Stack) :
    matches_pkg env m pkg st =
      defaultPkgMatches env (fun q w s2 => matches_ver env m q w s2) pkg st := by
  cases m <;> first
    | rfl
    | simp [isDefaultPkg] at hd

/-- For a default-mode constructor, package-mode `get_match` is the
inherited loop over the version-mode operation. -/
theorem get_match_pkg_default (env : Env) (m : Matcher)
    (hd : isDefaultPkg m = true) (pkg : PkgId) (st : Stack) :
    get_match_pkg env m pkg st =
      defaultPkgGet env (fun q w s2 => get_match_ver env m q w s2) pkg st := by
  cases m <;> first
    | rfl
    | simp [isDefaultPkg] at hd

/-- Both-mode agreement follows from version-mode agreement for
default-mode constructors. -/
theorem agree_of_ver_default (env : Env) (m : Matcher)
    (hd : isDefaultPkg m = true)
    (hv : ∀ pkg ver st, matches_ver env m pkg ver st =
      (get_match_ver env m pkg ver st).map (fun r => r.isSome)) :
    (∀ pkg ver st, matches_ver env m pkg ver st =
        (get_match_ver env m pkg ver st).map (fun r => r.isSome)) ∧
      (∀ pkg st, matches_pkg env m pkg st =
        (get_match_pkg env m pkg st).map (fun r => r.isSome)) := by
  refine ⟨hv, fun pkg st => ?_⟩
  rw [matches_pkg_default env m hd, get_match_pkg_default env m hd]
  exact defaultPkg_agree env _ _ hv pkg st

/-- `List.any` over a mapped list, specialised to avoid higher-order
unification. -/
theorem any_map_comp (f : Nat → String) (p : String → Bool) (l : List Nat) :
    (List.map f l).any p = l.any (fun x => p (f x)) := by
  induction l with
  | nil => rfl
  | cons x xs ih => simp [List.any_cons, ih]

/-- Main agreement induction: for every matcher avoiding the three
mode-mixing constructors, in both evaluation modes, `matches` is the
`isSome` image of `get_match`. -/
theorem evalAgree (env : Env) : ∀ m : Matcher, agreeable m = true →
    (∀ pkg ver st, matches_ver env m pkg ver st =
        (get_match_ver env m pkg ver st).map (fun r => r.isSome)) ∧
      (∀ pkg st, matches_pkg env m pkg st =
        (get_match_pkg env m pkg st).map (fun r => r.isSome)) := by
  intro m
  induction m with
  | name pat =>
    intro _
    refine agree_of_ver_default env _ rfl (fun pkg ver st => ?_)
    simp [matches_ver, get_match_ver, evalMatches, evalGetMatch, mkMatchPair,
      mkGetPair, string_matches, get_string_match]
  | description pat =>
    intro _
    refine agree_of_ver_default env _ rfl (fun pkg ver st => ?_)
    cases ver <;>
      simp [matches_ver, get_match_ver, evalMatches, evalGetMatch, mkMatchPair,
        mkGetPair, string_matches, get_string_match]
  | maintainer pat =>
    intro _
    refine agree_of_ver_default env _ rfl (fun pkg ver st => ?_)
    cases ver <;>
      simp [matches_ver, get_match_ver, evalMatches, evalGetMatch, mkMatchPair,
        mkGetPair, string_matches, get_string_match]
  | sect pat =>
    intro _
    refine agree_of_ver_default env _ rfl (fun pkg ver st => ?_)
    cases ver with
    | none =>
      simp [matches_ver, get_match_ver, evalMatches, evalGetMatch, mkMatchPair,
        mkGetPair]
    | some v =>
      cases hs : env.sectionOf v <;>
        simp [matches_ver, get_match_ver, evalMatches, evalGetMatch, mkMatchPair,
          mkGetPair, hs, string_matches, get_string_match]
  | version pat =>
    intro _
    refine agree_of_ver_default env _ rfl (fun pkg ver st => ?_)
    cases ver <;>
      simp [matches_ver, get_match_ver, evalMatches, evalGetMatch, mkMatchPair,
        mkGetPair, string_matches, get_string_match]
  | currVersion =>
    intro _
    refine agree_of_ver_default env _ rfl (fun pkg ver st => ?_)
    cases ver <;>
      simp [matches_ver, get_match_ver, evalMatches, evalGetMatch, mkMatchPair,
        mkGetPair, isSome_bif]
    try (split <;> simp_all) <;> try (split <;> simp_all)
  | candVersion =>
    intro _
    refine agree_of_ver_default env _ rfl (fun pkg ver st => ?_)
    cases ver <;>
      simp [matches_ver, get_match_ver, evalMatches, evalGetMatch, mkMatchPair,
        mkGetPair, isSome_bif]
    try (split <;> simp_all) <;> try (split <;> simp_all)
  | instVersion =>
    intro _
    refine agree_of_ver_default env _ rfl (fun pkg ver st => ?_)
    cases ver <;>
      simp [matches_ver, get_match_ver, evalMatches, evalGetMatch, mkMatchPair,
        mkGetPair, isSome_bif]
    try (split <;> simp_all) <;> try (split <;> simp_all)
  | archive pat =>
    intro _
    refine agree_of_ver_default env _ rfl (fun pkg ver st => ?_)
    cases ver <;>
      simp [matches_ver, get_match_ver, evalMatches, evalGetMatch, mkMatchPair,
        mkGetPair, fileFieldGetLoop_agree, apply_ite (f := Option.isSome)]
  | origin pat =>
    intro _
    refine agree_of_ver_default env _ rfl (fun pkg ver st => ?_)
    cases ver <;>
      simp [matches_ver, get_match_ver, evalMatches, evalGetMatch, mkMatchPair,
        mkGetPair, fileFieldGetLoop_agree]
  | sourcePackage pat =>
    intro _
    refine agree_of_ver_default env _ rfl (fun pkg ver st => ?_)
    cases ver <;>
      simp [matches_ver, get_match_ver, evalMatches, evalGetMatch, mkMatchPair,
        mkGetPair, sourceFieldGetLoop_agree, apply_ite (f := Option.isSome)]
  | sourceVersion pat =>
    intro _
    refine agree_of_ver_default env _ rfl (fun pkg ver st => ?_)
    cases ver <;>
      simp [matches_ver, get_match_ver, evalMatches, evalGetMatch, mkMatchPair,
        mkGetPair, sourceFieldGetLoop_agree, apply_ite (f := Option.isSome)]
  | task pat =>
    intro _
    refine agree_of_ver_default env _ rfl (fun pkg ver st => ?_)
    cases ht : env.tasksOf pkg <;>
      simp [matches_ver, get_match_ver, evalMatches, evalGetMatch, mkMatchPair,
        mkGetPair, ht, firstStringMatch_agree]
  | tag pat =>
    intro _
    refine agree_of_ver_default env _ rfl (fun pkg ver st => ?_)
    cases ht : env.tagsOf pkg <;>
      simp [matches_ver, get_match_ver, evalMatches, evalGetMatch, mkMatchPair,
        mkGetPair, ht, firstStringMatch_agree]
  | userTag pat =>
    intro _
    refine agree_of_ver_default env _ rfl (fun pkg ver st => ?_)
    show some ((env.userTagsOf pkg).any fun tg =>
        string_matches env pat (env.derefUserTag tg)) =
      some ((firstStringMatch env pat
        (List.map env.derefUserTag (env.userTagsOf pkg))).isSome)
    rw [firstStringMatch_agree, any_map_comp]
  | priority level =>
    intro _
    refine agree_of_ver_default env _ rfl (fun pkg ver st => ?_)
    cases ver <;>
      simp [matches_ver, get_match_ver, evalMatches, evalGetMatch, mkMatchPair,
        mkGetPair, isSome_bif]
    try (split <;> simp_all) <;> try (split <;> simp_all)
  | auto =>
    intro _
    refine agree_of_ver_default env _ rfl (fun pkg ver st => ?_)
    simp [matches_ver, get_match_ver, evalMatches, evalGetMatch, mkMatchPair,
      mkGetPair, isSome_bif]
    try (split <;> simp_all)
  | broken =>
    intro _
    refine agree_of_ver_default env _ rfl (fun pkg ver st => ?_)
    cases ver <;>
      simp [matches_ver, get_match_ver, evalMatches, evalGetMatch, mkMatchPair,
        mkGetPair, isSome_bif]
    try (split <;> simp_all) <;> try (split <;> simp_all)
  | brokenType t =>
    intro _
    refine agree_of_ver_default env _ rfl (fun pkg ver st => ?_)
    cases ver with
    | none =>
      simp [matches_ver, get_match_ver, evalMatches, evalGetMatch, mkMatchPair,
        mkGetPair]
    | some v =>
      cases hb : brokenTypeLoop t (env.deps v) <;>
        simp [matches_ver, get_match_ver, evalMatches, evalGetMatch, mkMatchPair,
          mkGetPair, hb]
  | action st0 requirePurge =>
    intro _
    refine agree_of_ver_default env _ rfl (fun pkg ver st => ?_)
    simp [matches_ver, get_match_ver, evalMatches, evalGetMatch, mkMatchPair,
      mkGetPair, isSome_bif]
    try (split <;> simp_all)
  | keep =>
    intro _
    refine agree_of_ver_default env _ rfl (fun pkg ver st => ?_)
    simp [matches_ver, get_match_ver, evalMatches, evalGetMatch, mkMatchPair,
      mkGetPair, isSome_bif]
    try (split <;> simp_all)
  | installed =>
    intro _
    refine agree_of_ver_default env _ rfl (fun pkg ver st => ?_)
    simp [matches_ver, get_match_ver, evalMatches, evalGetMatch, mkMatchPair,
      mkGetPair, isSome_bif]
    try (split <;> simp_all)
  | virtualPkg =>
    intro _
    refine agree_of_ver_default env _ rfl (fun pkg ver st => ?_)
    cases ver <;>
      simp [matches_ver, get_match_ver, evalMatches, evalGetMatch, mkMatchPair,
        mkGetPair, isSome_bif]
  | essential =>
    intro _
    refine agree_of_ver_default env _ rfl (fun pkg ver st => ?_)
    simp [matches_ver, get_match_ver, evalMatches, evalGetMatch, mkMatchPair,
      mkGetPair, isSome_bif]
    try (split <;> simp_all)
  | configFiles =>
    intro _
    refine agree_of_ver_default env _ rfl (fun pkg ver st => ?_)
    simp [matches_ver, get_match_ver, evalMatches, evalGetMatch, mkMatchPair,
      mkGetPair, isSome_bif]
    try (split <;> simp_all)
  | newPkg =>
    intro _
    refine agree_of_ver_default env _ rfl (fun pkg ver st => ?_)
    simp [matches_ver, get_match_ver, evalMatches, evalGetMatch, mkMatchPair,
      mkGetPair, isSome_bif]
    try (split <;> simp_all)
  | upgradable =>
    intro _
    refine agree_of_ver_default env _ rfl (fun pkg ver st => ?_)
    simp [matches_ver, get_match_ver, evalMatches, evalGetMatch, mkMatchPair,
      mkGetPair, isSome_bif]
    try (split <;> simp_all)
  | obsolete =>
    intro _
    refine agree_of_ver_default env _ rfl (fun pkg ver st => ?_)
    simp [matches_ver, get_match_ver, evalMatches, evalGetMatch, mkMatchPair,
      mkGetPair, isSome_bif]
    try (split <;> simp_all)
  | garbage =>
    intro _
    refine agree_of_ver_default env _ rfl (fun pkg ver st => ?_)
    cases ver <;>
      simp [matches_ver, get_match_ver, evalMatches, evalGetMatch, mkMatchPair,
        mkGetPair, isSome_bif]
    try (split <;> simp_all) <;> try (split <;> simp_all)
  | mtrue =>
    intro _
    refine agree_of_ver_default env _ rfl (fun pkg ver st => ?_)
    simp [matches_ver, get_match_ver, evalMatches, evalGetMatch, mkMatchPair,
      mkGetPair]
  | mfalse =>
    intro _
    refine agree_of_ver_default env _ rfl (fun pkg ver st => ?_)
    simp [matches_ver, get_match_ver, evalMatches, evalGetMatch, mkMatchPair,
      mkGetPair]
  | equal idx =>
    intro _
    refine agree_of_ver_default env _ rfl (fun pkg ver st => ?_)
    rw [show matches_ver env (.equal idx) pkg ver st =
      (match st.get? idx with
       | none => none
       | some v => some (v.is_match_for (.version pkg ver))) from rfl]
    rw [show get_match_ver env (.equal idx) pkg ver st =
      (match st.get? idx with
       | none => none
       | some v =>
         some (if v.is_match_for (.version pkg ver) then some .empty
           else none)) from rfl]
    cases st.get? idx <;> simp [isSome_bif] <;> try (split <;> simp_all)
  | and l r ihl ihr =>
    intro hag
    rw [agreeable, Bool.and_eq_true] at hag
    have hl := ihl hag.1
    have hr := ihr hag.2
    constructor
    · intro pkg ver st
      rw [matches_ver_and, get_match_ver_and, hl.1 pkg ver st]
      cases get_match_ver env l pkg ver st with
      | none => rfl
      | some r0 =>
        cases r0 with
        | none => rfl
        | some r1 =>
          rw [show (some (some r1)).map (fun r => r.isSome) = some true from rfl,
            hr.1 pkg ver st]
          cases get_match_ver env r pkg ver st with
          | none => rfl
          | some r2 => cases r2 <;> rfl
    · intro pkg st
      rw [matches_pkg_and, get_match_pkg_and, hl.2 pkg st]
      cases get_match_pkg env l pkg st with
      | none => rfl
      | some r0 =>
        cases r0 with
        | none => rfl
        | some r1 =>
          rw [show (some (some r1)).map (fun r => r.isSome) = some true from rfl,
            hr.2 pkg st]
          cases get_match_pkg env r pkg st with
          | none => rfl
          | some r2 => cases r2 <;> rfl
  | or l r ihl ihr =>
    intro hag
    rw [agreeable, Bool.and_eq_true] at hag
    have hl := ihl hag.1
    have hr := ihr hag.2
    constructor
    · intro pkg ver st
      rw [matches_ver_or, get_match_ver_or, hl.1 pkg ver st]
      cases get_match_ver env l pkg ver st with
      | none => rfl
      | some r0 =>
        cases r0 with
        | none => exact hr.1 pkg ver st
        | some r1 => rfl
    · intro pkg st
      rw [matches_pkg_or, get_match_pkg_or, hl.2 pkg st]
      cases get_match_pkg env l pkg st with
      | none => rfl
      | some r0 =>
        cases r0 with
        | none => exact hr.2 pkg st
        | some r1 => rfl
  | not c ih =>
    intro hag
    rw [agreeable] at hag
    have hc := ih hag
    constructor
    · intro pkg ver st
      rw [matches_ver_not, get_match_ver_not, hc.1 pkg ver st]
      cases get_match_ver env c pkg ver st with
      | none => rfl
      | some r0 => cases r0 <;> rfl
    · intro pkg st
      rw [matches_pkg_not, get_match_pkg_not, hc.2 pkg st]
      cases get_match_pkg env c pkg st with
      | none => rfl
      | some r0 => cases r0 <;> rfl
  | dep t b p ih =>
    intro hag
    rw [agreeable] at hag
    have hp := ih hag
    refine agree_of_ver_default env _ rfl (fun pkg ver st => ?_)
    rw [matches_ver_dep, get_match_ver_dep]
    cases ver with
    | none => rfl
    | some v => exact depLoop_agree env t b _ _ (fun q w => hp.1 q w st) (env.deps v)
  | revdep t b p ih =>
    intro hag
    rw [agreeable] at hag
    have hp := ih hag
    refine agree_of_ver_default env _ rfl (fun pkg ver st => ?_)
    rw [matches_ver_revdep, get_match_ver_revdep,
      revdepLoop_agree env t b ver _ _ (fun q w => hp.1 q w st) (env.revDeps pkg)]
    cases revdepGetLoop env t b ver (fun q w => get_match_ver env p q w st)
        (env.revDeps pkg) with
    | none => rfl
    | some r0 =>
      cases r0 with
      | some r1 => rfl
      | none =>
        cases ver with
        | none => rfl
        | some v =>
          exact revdepPrvOuter_agree env t b _ _ (fun q w => hp.1 q w st)
            (env.providesOf v)
  | provides p ih =>
    intro hag
    rw [agreeable] at hag
    exact absurd hag (by simp)
  | revprv p ih =>
    intro hag
    rw [agreeable] at hag
    have hp := ih hag
    refine agree_of_ver_default env _ rfl (fun pkg ver st => ?_)
    rw [matches_ver_revprv, get_match_ver_revprv]
    exact revprvGetLoop_agree _ _ (fun q w => hp.1 q (some w) st)
      (env.providersOf pkg)
  | widen p ih =>
    intro hag
    rw [agreeable] at hag
    have hp := ih hag
    exact ⟨fun pkg ver st => hp.2 pkg st, fun pkg st => hp.2 pkg st⟩
  | select f x ihf ihx =>
    intro hag
    rw [agreeable, Bool.and_eq_true] at hag
    have hx := ihx hag.2
    refine agree_of_ver_default env _ rfl (fun pkg ver st => ?_)
    rw [matches_ver_select, get_match_ver_select]
    cases matches_ver env f pkg ver st with
    | none => rfl
    | some b0 =>
      cases b0 with
      | false => rfl
      | true => exact hx.1 pkg ver st
  | allVersions s ih =>
    intro hag
    rw [agreeable] at hag
    exact absurd hag (by simp)
  | anyVersion s ih =>
    intro hag
    rw [agreeable] at hag
    have hs := ih hag
    refine ⟨fun pkg ver st => hs.1 pkg ver st, fun pkg st => ?_⟩
    exact firstTrue_agree _ _ _ (fun a _ => hs.1 pkg (some a) st)
  | explicitM s ih =>
    intro hag
    rw [agreeable] at hag
    exact absurd hag (by simp)
  | bindM s idx ih =>
    intro hag
    rw [agreeable] at hag
    have hs := ih hag
    constructor
    · intro pkg ver st
      rw [matches_ver_bind, get_match_ver_bind]
      cases st.get? idx with
      | none => rfl
      | some v =>
        cases v with
        | package p => exact hs.2 p st
        | version p w => exact hs.1 p w st
    · intro pkg st
      rw [show matches_pkg env (.bindM s idx) pkg st =
        (match st.get? idx with
         | none => none
         | some (.package p) => matches_pkg env s p st
         | some (.version p w) => matches_ver env s p w st) from rfl]
      rw [show get_match_pkg env (.bindM s idx) pkg st =
        (match st.get? idx with
         | none => none
         | some (.package p) => get_match_pkg env s p st
         | some (.version p w) => get_match_ver env s p w st) from rfl]
      cases st.get? idx with
      | none => rfl
      | some v =>
        cases v with
        | package p => exact hs.2 p st
        | version p w => exact hs.1 p w st

/-- C1 counterexample: three matchers produced by `parse_pattern` on which
`get_match` and `apply_matcher` disagree although none of them is headed by
`Not`.  `?for x: ?installed` (whose `pkg_explicit_matcher::get_match`
evaluates the body in package mode) matches false on the non-current
version yet yields a result; `?widen(?all-versions(?true))` on a
version-less package matches true yet yields null; `?provides(?installed)`
matches true (the provided package's versions are scanned in package mode)
yet yields null (the sub-pattern is re-run on the end version). -/
theorem get_match_matches_agreement_counterexample :
    (parse_pattern "?for x: ?installed" [] false false true).1 =
        some (.explicitM .installed) ∧
      apply_matcher envTwoVers (.explicitM .installed) 0 (some 2) = some false ∧
      get_match envTwoVers (.explicitM .installed) 0 (some 2) =
        some (some (.unitary "Installed")) ∧
      (parse_pattern "?widen(?all-versions(?true))" [] false false true).1 =
        some (.widen (.allVersions .mtrue)) ∧
      apply_matcher trivEnv (.widen (.allVersions .mtrue)) 5 none = some true ∧
      get_match trivEnv (.widen (.allVersions .mtrue)) 5 none = some none ∧
      (parse_pattern "?provides(?installed)" [] false false true).1 =
        some (.provides .installed) ∧
      apply_matcher envProvides (.provides .installed) 0 (some 1) = some true ∧
      get_match envProvides (.provides .installed) 0 (some 1) = some none :=
  ⟨by rfl, by rfl, by rfl, by rfl, by rfl, by rfl, by rfl, by rfl, by rfl⟩

/-- C1 amended: for every matcher containing no Explicit (`?for`), no All
(`?all-versions`) and no Provides node, and every catalog, package,
version and fresh stack, `get_match` returns a non-null result exactly
when `apply_matcher` returns true, in version mode and in package mode
alike; `Not` requires no exception, since its empty result appears exactly
on the versions where its boolean is true. -/
theorem get_match_matches_agreement (env : Env) (m : Matcher)
    (hag : agreeable m = true) (pkg : PkgId) (ver : Option VerId) :
    apply_matcher env m pkg ver =
        (get_match env m pkg ver).map (fun r => r.isSome) ∧
      apply_matcher_wide env m pkg =
        (get_match_wide env m pkg).map (fun r => r.isSome) :=
  ⟨(evalAgree env m hag).1 pkg ver [], (evalAgree env m hag).2 pkg []⟩

/-- Witness for the amended C1 on a concrete matcher and catalog. -/
theorem get_match_matches_agreement_witness :
    agreeable (.not (.and .installed (.sect "admin"))) = true ∧
      apply_matcher envTwoVers (.not (.and .installed (.sect "admin"))) 0 (some 1) =
        (get_match envTwoVers (.not (.and .installed (.sect "admin"))) 0
            (some 1)).map (fun r => r.isSome) :=
  ⟨by rfl,
   (get_match_matches_agreement envTwoVers
     (.not (.and .installed (.sect "admin"))) (by rfl) 0 (some 1)).1⟩

/-! Claim C2: error handling of `parse_pattern`.

The source catches `CompilationException` unconditionally and returns the
null matcher; `flag_errors` only decides whether the message is logged
through `_error`.  With `flag_errors` false the error is silently dropped,
never propagated to the caller. -/

/-- C2 counterexample: on the input `"("` the inner parse raises the
"Unexpected empty expression" compile error, yet `parse_pattern` with
`flag_errors = false` returns the null matcher with no logged (let alone
propagated) error; with `flag_errors = true` the same error is merely
logged. -/
theorem parse_pattern_swallows_error_counterexample :
    parse_condition_list 110 ("(").data [] false true [] =
        .error ⟨"Unexpected empty expression"⟩ ∧
      parse_pattern "(" [] false false true = (none, []) ∧
      parse_pattern "(" [] false true true =
        (none, ["Unexpected empty expression"]) :=
  ⟨by rfl, by rfl, by rfl⟩

/-- C2 amended: whenever the inner parse fails with a compile error,
`parse_pattern` returns the null matcher for every value of `flag_errors`;
the error is never thrown to the caller, and `flag_errors` only controls
whether its message is logged. -/
theorem parse_pattern_catches_all_errors (text : String) (terms : List String)
    (sd rfp : Bool) (err : CompileError)
    (hne : (skipBlankTerm terms text.data).isEmpty = false)
    (h : parse_condition_list (10 * text.length + 100)
      (skipBlankTerm terms text.data) terms sd true [] = .error err) :
    parse_pattern text terms sd false rfp = (none, []) ∧
      parse_pattern text terms sd true rfp = (none, [err.msg]) := by
  unfold parse_pattern
  simp [hne, h]

/-- Witness for the amended C2 at the concrete failing input `"("`. -/
theorem parse_pattern_catches_all_errors_witness :
    parse_pattern "(" [] false false true = (none, []) ∧
      parse_pattern "(" [] false true true =
        (none, ["Unexpected empty expression"]) :=
  parse_pattern_catches_all_errors "(" [] false true
    ⟨"Unexpected empty expression"⟩ (by rfl) (by rfl)

/-! Claim C8: empty input handling. -/

/-- C8 counterexample: an input consisting only of whitespace up to a
caller-supplied terminator does return the null matcher, but an
"Unexpected empty expression" error is raised (and logged when
`flag_errors` is set), contradicting the claim that no error is raised. -/
theorem empty_input_terminator_raises_error :
    parse_pattern "  ," [","] false true true =
      (none, ["Unexpected empty expression"]) := by rfl

/-- Blank input with no terminators is skipped entirely. -/
theorem skipBlankTerm_all_space (l : List Char) (h : l.all cIsSpace = true) :
    skipBlankTerm [] l = [] := by
  induction l with
  | nil => rfl
  | cons c cs ih =>
    simp only [List.all_cons, Bool.and_eq_true] at h
    simp [skipBlankTerm, h.1, terminate, ih h.2]

/-- The remainder `skipBlankTerm` leaves of an all-whitespace input is
still all whitespace. -/
theorem skipBlankTerm_keeps_space (terms : List String) :
    ∀ l : List Char, l.all cIsSpace = true →
      (skipBlankTerm terms l).all cIsSpace = true := by
  intro l
  induction l with
  | nil => intro _; rfl
  | cons c cs ih =>
    intro h
    simp only [List.all_cons, Bool.and_eq_true] at h
    unfold skipBlankTerm
    split
    · exact ih h.2
    · simp [List.all_cons, h.1, h.2]

/-- `parse_whitespace` consumes an all-whitespace input entirely. -/
theorem parse_whitespace_all_space :
    ∀ l : List Char, l.all cIsSpace = true → parse_whitespace l = [] := by
  intro l
  induction l with
  | nil => intro _; rfl
  | cons c cs ih =>
    intro h
    simp only [List.all_cons, Bool.and_eq_true] at h
    simp [parse_whitespace, h.1, ih h.2]

/-- The and-group loop raises "Unexpected empty expression" when it starts
at the end of the input with nothing accumulated. -/
theorem parse_and_group_go_nil (f : Nat) (terms : List String)
    (sd wide : Bool) (e : ParseEnv) :
    parse_and_group_go (f + 1) none [] terms sd wide e =
      .error ⟨"Unexpected empty expression"⟩ := rfl

/-- `parse_and_group` on an input that is pure whitespace raises
"Unexpected empty expression". -/
theorem parse_and_group_all_space (f : Nat) (r : List Char)
    (terms : List String) (sd wide : Bool) (e : ParseEnv)
    (h : parse_whitespace r = []) :
    parse_and_group (f + 2) r terms sd wide e =
      .error ⟨"Unexpected empty expression"⟩ := by
  have h1 : parse_and_group (f + 2) r terms sd wide e =
      parse_and_group_go (f + 1) none (parse_whitespace r) terms sd wide e :=
    rfl
  rw [h1, h]
  exact parse_and_group_go_nil f terms sd wide e

/-- `parse_condition_list` on an input that is all whitespace raises
"Unexpected empty expression". -/
theorem parse_condition_list_all_space (f : Nat) (r : List Char)
    (terms : List String) (sd wide : Bool) (e : ParseEnv)
    (h : r.all cIsSpace = true) :
    parse_condition_list (f + 3) r terms sd wide e =
      .error ⟨"Unexpected empty expression"⟩ := by
  have h0 : parse_condition_list (f + 3) r terms sd wide e =
      parse_condition_list ((f + 2) + 1) r terms sd wide e := rfl
  rw [h0]
  unfold parse_condition_list
  rw [parse_and_group_all_space f r terms sd wide e
    (parse_whitespace_all_space r h)]

/-- C8 amended: for every caller-supplied terminator list and every flag
combination, an input that is empty or consists only of whitespace
characters yields the null matcher; it raises no error when no terminator
cuts the whitespace scan short, and raises the "Unexpected empty
expression" compile error (logged exactly when `flag_errors` is set) when
a terminator does cut the scan short. -/
theorem empty_input_yields_null_matcher (s : String) (terms : List String)
    (sd fe rfp : Bool) (h : s.data.all cIsSpace = true) :
    (skipBlankTerm terms s.data = [] →
        parse_pattern s terms sd fe rfp = (none, [])) ∧
      (skipBlankTerm terms s.data ≠ [] →
        parse_pattern s terms sd fe rfp =
          (none, if fe then ["Unexpected empty expression"] else [])) := by
  constructor
  · intro h0
    unfold parse_pattern
    rw [h0]
    rfl
  · intro h0
    have hne : (skipBlankTerm terms s.data).isEmpty = false := by
      cases hsb : skipBlankTerm terms s.data with
      | nil => exact absurd hsb h0
      | cons a l => rfl
    have hfuel : 10 * s.length + 100 = (10 * s.length + 97) + 3 := by omega
    have herr : parse_condition_list (10 * s.length + 100)
        (skipBlankTerm terms s.data) terms sd true [] =
        .error ⟨"Unexpected empty expression"⟩ := by
      rw [hfuel]
      exact parse_condition_list_all_space _ _ _ _ _ _
        (skipBlankTerm_keeps_space terms s.data h)
    unfold parse_pattern
    simp [hne, herr]

/-- Witness for the amended C8: the two-space input parses silently to the
null matcher with no terminators, and the one-space input is cut short at
once by the terminator `" "` and raises the empty-expression error. -/
theorem empty_input_yields_null_matcher_witness :
    parse_pattern "  " [] true true true = (none, []) ∧
      parse_pattern " " [" "] false true true =
        (none, ["Unexpected empty expression"]) := by
  constructor
  · exact (empty_input_yields_null_matcher "  " [] true true true
      (by decide)).1 (by decide)
  · have h := (empty_input_yields_null_matcher " " [" "] false true true
      (by decide)).2 (by decide)
    simpa using h

/-! Claim C3: `?all-versions` and `?any-version` demand a wide context. -/

/-- C3: for every input text, name environment and terminator list,
parsing `?all-versions` or `?any-version` in a non-wide context raises the
wide-context compile error before even parsing the argument; the
dependency, narrow and provides argument contexts are narrow, so the same
error surfaces from `?depends(?all-versions(...))`,
`?narrow(?true, ?all-versions(?true))` and `?provides(?any-version(?true))`,
while at top level and directly under `?widen` the same matchers parse
successfully. -/
theorem all_versions_requires_wide_context (fuel : Nat) (mname : String)
    (hname : mname = "all-versions" ∨ mname = "any-version")
    (s : List Char) (terms : List String) (sd : Bool) (e : ParseEnv) :
    parse_matcher_args (fuel + 2) mname s terms sd false e =
        .error ⟨"The ?" ++ mname ++
          " matcher must be used in a wide context (a top-level context, or a context enclosed by ?widen)."⟩ ∧
      (parse_pattern "?all-versions(?installed)" [] false false true).1 =
        some (.allVersions .installed) ∧
      (parse_pattern "?widen(?any-version(?installed))" [] false false true).1 =
        some (.widen (.anyVersion .installed)) ∧
      parse_pattern "?depends(?all-versions(?installed))" [] false true true =
        (none, ["The ?all-versions matcher must be used in a wide context (a top-level context, or a context enclosed by ?widen)."]) ∧
      parse_pattern "?narrow(?true, ?all-versions(?true))" [] false true true =
        (none, ["The ?all-versions matcher must be used in a wide context (a top-level context, or a context enclosed by ?widen)."]) ∧
      parse_pattern "?provides(?any-version(?true))" [] false true true =
        (none, ["The ?any-version matcher must be used in a wide context (a top-level context, or a context enclosed by ?widen)."]) := by
  refine ⟨?_, by rfl, by rfl, by rfl, by rfl, by rfl⟩
  rcases hname with rfl | rfl <;> rfl

/-- Witness for C3 with the name instantiated to `all-versions`. -/
theorem all_versions_requires_wide_context_witness :
    parse_matcher_args 2 "all-versions" [] [] false false [] =
      .error ⟨"The ?all-versions matcher must be used in a wide context (a top-level context, or a context enclosed by ?widen)."⟩ :=
  (all_versions_requires_wide_context 0 "all-versions" (Or.inl rfl) [] [] false []).1

/-! Claim C4: the De Bruijn indices of every matcher produced by
`parse_pattern` stay below the stack depth at evaluation time, so the
`eassert` bound checks of `pkg_bind_matcher` and `pkg_equal_matcher`
(modelled as the `none` aborts of the evaluators) never fire.

The proof has two halves: the parser only builds matchers bounded by the
size of its compile-time name environment (whose size never exceeds the
binder depth), and evaluating a bounded matcher from a correspondingly
deep stack never aborts. -/

/-- De Bruijn boundedness of a matcher at binder depth `n`: every
`pkg_equal_matcher`/`pkg_bind_matcher` index is `< n` counting the
enclosing `pkg_explicit_matcher` binders; all other combinators are
stack-transparent. -/
def boundedM (n : Nat) : Matcher → Bool
  | .equal i => decide (i < n)
  | .bindM s i => decide (i < n) && boundedM n s
  | .explicitM s => boundedM (n + 1) s
  | .and l r => boundedM n l && boundedM n r
  | .or l r => boundedM n l && boundedM n r
  | .not c => boundedM n c
  | .dep _ _ p => boundedM n p
  | .revdep _ _ p => boundedM n p
  | .provides p => boundedM n p
  | .revprv p => boundedM n p
  | .widen p => boundedM n p
  | .select f x => boundedM n f && boundedM n x
  | .allVersions s => boundedM n s
  | .anyVersion s => boundedM n s
  | _ => true

/-- `firstTrue` never aborts when no element evaluation aborts. -/
theorem firstTrue_isSome (f : α → Option Bool) (l : List α)
    (h : ∀ a ∈ l, (f a).isSome = true) : (firstTrue f l).isSome = true := by
  induction l with
  | nil => rfl
  | cons x xs ih =>
    have hx := h x (List.mem_cons_self x xs)
    simp only [firstTrue]
    cases hfx : f x with
    | none => rw [hfx] at hx; cases hx
    | some b => cases b <;> simp [ih (fun a ha => h a (List.mem_cons_of_mem x ha))]

/-- `allTrue` never aborts when no element evaluation aborts. -/
theorem allTrue_isSome (f : α → Option Bool) (l : List α)
    (h : ∀ a ∈ l, (f a).isSome = true) : (allTrue f l).isSome = true := by
  induction l with
  | nil => rfl
  | cons x xs ih =>
    have hx := h x (List.mem_cons_self x xs)
    simp only [allTrue]
    cases hfx : f x with
    | none => rw [hfx] at hx; cases hx
    | some b => cases b <;> simp [ih (fun a ha => h a (List.mem_cons_of_mem x ha))]

/-- `firstSome` never aborts when no element evaluation aborts. -/
theorem firstSome_isSome (f : α → Option (Option MatchResult)) (l : List α)
    (h : ∀ a ∈ l, (f a).isSome = true) : (firstSome f l).isSome = true := by
  induction l with
  | nil => rfl
  | cons x xs ih =>
    have hx := h x (List.mem_cons_self x xs)
    simp only [firstSome]
    cases hfx : f x with
    | none => rw [hfx] at hx; cases hx
    | some b => cases b <;> simp [ih (fun a ha => h a (List.mem_cons_of_mem x ha))]

/-- `allGet` never aborts when no element evaluation aborts. -/
theorem allGet_isSome (f : α → Option (Option MatchResult)) (l : List α)
    (h : ∀ a ∈ l, (f a).isSome = true) : (allGet f l).isSome = true := by
  induction l with
  | nil => rfl
  | cons x xs ih =>
    have hx := h x (List.mem_cons_self x xs)
    simp only [allGet]
    cases hfx : f x with
    | none => rw [hfx] at hx; cases hx
    | some b =>
      cases b with
      | none => rfl
      | some r =>
        cases xs with
        | nil => rfl
        | cons y ys =>
          exact ih (fun a ha => h a (List.mem_cons_of_mem x ha))

/-- The dependency version loop never aborts when the sub-matcher never
aborts. -/
theorem depVerLoop_isSome (env : Env) (d : DepRec)
    (vf : PkgId → Option VerId → Option Bool)
    (h : ∀ p w, (vf p w).isSome = true) (l : List VerId) :
    (depVerLoop env d vf l).isSome = true := by
  induction l with
  | nil => rfl
  | cons v vs ih =>
    simp only [depVerLoop]
    by_cases hc : env.checkDep (env.verStr v) d.compareOp d.targetVer
    · simp only [hc, if_true]
      have hx := h d.targetPkg (some v)
      cases hfx : vf d.targetPkg (some v) with
      | none => rw [hfx] at hx; cases hx
      | some b => cases b <;> simp [ih]
    · simp [hc, ih]

/-- The dependency loop never aborts when the sub-matcher never aborts. -/
theorem depLoop_isSome (env : Env) (t : DepType) (b : Bool)
    (vf : PkgId → Option VerId → Option Bool)
    (h : ∀ p w, (vf p w).isSome = true) (l : List DepRec) :
    (depLoop env t b vf l).isSome = true := by
  induction l with
  | nil => rfl
  | cons d ds ih =>
    simp only [depLoop]
    by_cases ht : depTypeHit t d.dtype
    · simp only [ht, if_true]
      by_cases hb : b && orGroupGInstall d ds
      · simp [hb, ih]
      · simp only [hb, if_false, Bool.false_eq_true]
        have h1 : (if (env.versions d.targetPkg).isEmpty then vf d.targetPkg none
            else some false).isSome = true := by
          split
          · exact h d.targetPkg none
          · rfl
        cases hx : (if (env.versions d.targetPkg).isEmpty then vf d.targetPkg none
            else some false) with
        | none => rw [hx] at h1; cases h1
        | some b1 =>
          cases b1 with
          | true => rfl
          | false =>
            have h2 := depVerLoop_isSome env d vf h (env.versions d.targetPkg)
            cases hy : depVerLoop env d vf (env.versions d.targetPkg) with
            | none => rw [hy] at h2; cases h2
            | some b2 => cases b2 <;> simp [ih]
    · simp [ht, ih]

/-- The `get_match` dependency version loop never aborts. -/
theorem depVerGetLoop_isSome (env : Env) (d : DepRec)
    (gf : PkgId → Option VerId → Option (Option MatchResult))
    (h : ∀ p w, (gf p w).isSome = true) (l : List VerId) :
    (depVerGetLoop env d gf l).isSome = true := by
  induction l with
  | nil => rfl
  | cons v vs ih =>
    simp only [depVerGetLoop]
    by_cases hc : env.checkDep (env.verStr v) d.compareOp d.targetVer
    · simp only [hc, if_true]
      have hx := h d.targetPkg (some v)
      cases hfx : gf d.targetPkg (some v) with
      | none => rw [hfx] at hx; cases hx
      | some b => cases b <;> simp [ih]
    · simp [hc, ih]

/-- The `get_match` dependency loop never aborts. -/
theorem depGetLoop_isSome (env : Env) (t : DepType) (b : Bool)
    (gf : PkgId → Option VerId → Option (Option MatchResult))
    (h : ∀ p w, (gf p w).isSome = true) (l : List DepRec) :
    (depGetLoop env t b gf l).isSome = true := by
  induction l with
  | nil => rfl
  | cons d ds ih =>
    simp only [depGetLoop]
    by_cases ht : depTypeHit t d.dtype
    · simp only [ht, if_true]
      by_cases hb : b && orGroupGInstall d ds
      · simp [hb, ih]
      · simp only [hb, if_false, Bool.false_eq_true]
        have h1 : (if (env.versions d.targetPkg).isEmpty then gf d.targetPkg none
            else some none).isSome = true := by
          split
          · exact h d.targetPkg none
          · rfl
        cases hx : (if (env.versions d.targetPkg).isEmpty then gf d.targetPkg none
            else some none) with
        | none => rw [hx] at h1; cases h1
        | some b1 =>
          cases b1 with
          | some r1 => rfl
          | none =>
            have h2 := depVerGetLoop_isSome env d gf h (env.versions d.targetPkg)
            cases hy : depVerGetLoop env d gf (env.versions d.targetPkg) with
            | none => rw [hy] at h2; cases h2
            | some b2 => cases b2 <;> simp [ih]
    · simp [ht, ih]

/-- The direct reverse-dependency loop never aborts. -/
theorem revdepLoop_isSome (env : Env) (t : DepType) (b : Bool)
    (ver : Option VerId) (vf : PkgId → Option VerId → Option Bool)
    (h : ∀ p w, (vf p w).isSome = true) (l : List DepRec) :
    (revdepLoop env t b ver vf l).isSome = true := by
  induction l with
  | nil => rfl
  | cons d ds ih =>
    simp only [revdepLoop]
    by_cases hb : b && orGroupGInstall d ds
    · simp [hb, ih]
    · simp only [hb, if_false, Bool.false_eq_true]
      by_cases ht : depTypeHit t d.dtype && revdepVerHit env d ver
      · simp only [ht, if_true]
        have hx := h d.parentPkg (some d.parentVer)
        cases hfx : vf d.parentPkg (some d.parentVer) with
        | none => rw [hfx] at hx; cases hx
        | some b1 => cases b1 <;> simp [ih]
      · simp [ht, ih]

/-- The `get_match` direct reverse-dependency loop never aborts. -/
theorem revdepGetLoop_isSome (env : Env) (t : DepType) (b : Bool)
    (ver : Option VerId)
    (gf : PkgId → Option VerId → Option (Option MatchResult))
    (h : ∀ p w, (gf p w).isSome = true) (l : List DepRec) :
    (revdepGetLoop env t b ver gf l).isSome = true := by
  induction l with
  | nil => rfl
  | cons d ds ih =>
    simp only [revdepGetLoop]
    by_cases hb : b && orGroupGInstall d ds
    · simp [hb, ih]
    · simp only [hb, if_false, Bool.false_eq_true]
      by_cases ht : depTypeHit t d.dtype && revdepVerHit env d ver
      · simp only [ht, if_true]
        have hx := h d.parentPkg (some d.parentVer)
        cases hfx : gf d.parentPkg (some d.parentVer) with
        | none => rw [hfx] at hx; cases hx
        | some b1 => cases b1 <;> simp [ih]
      · simp [ht, ih]

/-- The provides-mediated reverse-dependency loop never aborts. -/
theorem revdepPrvLoop_isSome (env : Env) (t : DepType) (b : Bool)
    (vf : PkgId → Option VerId → Option Bool)
    (h : ∀ p w, (vf p w).isSome = true) (l : List DepRec) :
    (revdepPrvLoop env t b vf l).isSome = true := by
  induction l with
  | nil => rfl
  | cons d ds ih =>
    simp only [revdepPrvLoop]
    by_cases hb : b && orGroupGInstall d ds
    · simp [hb, ih]
    · simp only [hb, if_false, Bool.false_eq_true]
      by_cases ht : d.dtype == t && d.targetVer == none
      · simp only [ht, if_true]
        have hx := h d.parentPkg (some d.parentVer)
        cases hfx : vf d.parentPkg (some d.parentVer) with
        | none => rw [hfx] at hx; cases hx
        | some b1 => cases b1 <;> simp [ih]
      · simp [ht, ih]

/-- The `get_match` provides-mediated reverse-dependency loop never
aborts. -/
theorem revdepPrvGetLoop_isSome (env : Env) (t : DepType) (b : Bool)
    (gf : PkgId → Option VerId → Option (Option MatchResult))
    (h : ∀ p w, (gf p w).isSome = true) (l : List DepRec) :
    (revdepPrvGetLoop env t b gf l).isSome = true := by
  induction l with
  | nil => rfl
  | cons d ds ih =>
    simp only [revdepPrvGetLoop]
    by_cases ht : d.dtype == t && d.targetVer == none
    · simp only [ht, if_true]
      by_cases hb : b && orGroupGInstall d ds
      · simp [hb, ih]
      · simp only [hb, if_false, Bool.false_eq_true]
        have hx := h d.parentPkg (some d.parentVer)
        cases hfx : gf d.parentPkg (some d.parentVer) with
        | none => rw [hfx] at hx; cases hx
        | some b1 => cases b1 <;> simp [ih]
    · simp [ht, ih]

/-- The outer provides loop of `pkg_revdep_matcher::matches` never
aborts. -/
theorem revdepPrvOuter_isSome (env : Env) (t : DepType) (b : Bool)
    (vf : PkgId → Option VerId → Option Bool)
    (h : ∀ p w, (vf p w).isSome = true) (l : List PkgId) :
    (revdepPrvOuter env t b vf l).isSome = true := by
  induction l with
  | nil => rfl
  | cons p ps ih =>
    simp only [revdepPrvOuter]
    have h1 := revdepPrvLoop_isSome env t b vf h (env.revDeps p)
    cases hx : revdepPrvLoop env t b vf (env.revDeps p) with
    | none => rw [hx] at h1; cases h1
    | some b1 => cases b1 <;> simp [ih]

/-- The outer provides loop of `pkg_revdep_matcher::get_match` never
aborts. -/
theorem revdepPrvGetOuter_isSome (env : Env) (t : DepType) (b : Bool)
    (gf : PkgId → Option VerId → Option (Option MatchResult))
    (h : ∀ p w, (gf p w).isSome = true) (l : List PkgId) :
    (revdepPrvGetOuter env t b gf l).isSome = true := by
  induction l with
  | nil => rfl
  | cons p ps ih =>
    simp only [revdepPrvGetOuter]
    have h1 := revdepPrvGetLoop_isSome env t b gf h (env.revDeps p)
    cases hx : revdepPrvGetLoop env t b gf (env.revDeps p) with
    | none => rw [hx] at h1; cases h1
    | some b1 => cases b1 <;> simp [ih]

/-- The provides `get_match` loop never aborts. -/
theorem providesGetLoop_isSome (gf : PkgId → Option (Option MatchResult))
    (h : ∀ p, (gf p).isSome = true) (l : List PkgId) :
    (providesGetLoop gf l).isSome = true := by
  induction l with
  | nil => rfl
  | cons p ps ih =>
    simp only [providesGetLoop]
    have h1 := h p
    cases hx : gf p with
    | none => rw [hx] at h1; cases h1
    | some b1 => cases b1 <;> simp [ih]

/-- The reverse-provides `get_match` loop never aborts. -/
theorem revprvGetLoop_isSome (gf : PkgId → VerId → Option (Option MatchResult))
    (h : ∀ p w, (gf p w).isSome = true) (l : List (PkgId × VerId)) :
    (revprvGetLoop gf l).isSome = true := by
  induction l with
  | nil => rfl
  | cons p ps ih =>
    simp only [revprvGetLoop]
    have h1 := h p.1 p.2
    cases hx : gf p.1 p.2 with
    | none => rw [hx] at h1; cases h1
    | some b1 => cases b1 <;> simp [ih]

/-- The inherited package-mode `matches` never aborts when the
version-mode operation never aborts. -/
theorem defaultPkgMatches_isSome (env : Env) (vf : MVerFn) (pkg : PkgId)
    (st : Stack) (h : ∀ q w, (vf q w st).isSome = true) :
    (defaultPkgMatches env vf pkg st).isSome = true := by
  simp only [defaultPkgMatches]
  split
  · exact h pkg none
  · exact firstTrue_isSome _ _ (fun a _ => h pkg (some a))

/-- The inherited package-mode `get_match` never aborts when the
version-mode operation never aborts. -/
theorem defaultPkgGet_isSome (env : Env) (gf : GVerFn) (pkg : PkgId)
    (st : Stack) (h : ∀ q w, (gf q w st).isSome = true) :
    (defaultPkgGet env gf pkg st).isSome = true := by
  simp only [defaultPkgGet]
  split
  · exact h pkg none
  · exact firstSome_isSome _ _ (fun a _ => h pkg (some a))

/-- Package-mode `matches` of `pkg_bind_matcher`, in projection form. -/
theorem matches_pkg_bind (env : Env) (s : Matcher) (idx : Nat) (pkg : PkgId)
    (st : Stack) :
    matches_pkg env (.bindM s idx) pkg st =
      match st.get? idx with
      | none => none
      | some (.package p) => matches_pkg env s p st
      | some (.version p w) => matches_ver env s p w st := rfl

/-- Package-mode `get_match` of `pkg_bind_matcher`, in projection form. -/
theorem get_match_pkg_bind (env : Env) (s : Matcher) (idx : Nat) (pkg : PkgId)
    (st : Stack) :
    get_match_pkg env (.bindM s idx) pkg st =
      match st.get? idx with
      | none => none
      | some (.package p) => get_match_pkg env s p st
      | some (.version p w) => get_match_ver env s p w st := rfl

/-- Both-mode non-abort follows from version-mode non-abort for
default-mode constructors. -/
theorem no_abort_default (env : Env) (m : Matcher)
    (hd : isDefaultPkg m = true) (st : Stack)
    (hv : ∀ pkg ver, (matches_ver env m pkg ver st).isSome = true)
    (hg : ∀ pkg ver, (get_match_ver env m pkg ver st).isSome = true) :
    (∀ pkg ver, (matches_ver env m pkg ver st).isSome = true) ∧
      (∀ pkg, (matches_pkg env m pkg st).isSome = true) ∧
      (∀ pkg ver, (get_match_ver env m pkg ver st).isSome = true) ∧
      (∀ pkg, (get_match_pkg env m pkg st).isSome = true) := by
  refine ⟨hv, fun pkg => ?_, hg, fun pkg => ?_⟩
  · rw [matches_pkg_default env m hd]
    exact defaultPkgMatches_isSome env _ pkg st (fun q w => hv q w)
  · rw [get_match_pkg_default env m hd]
    exact defaultPkgGet_isSome env _ pkg st (fun q w => hg q w)

/-- Evaluating a matcher whose De Bruijn indices are bounded by the stack
depth never fires the `eassert` bound checks, in any of the four
operations. -/
theorem eval_no_abort (env : Env) : ∀ m : Matcher, ∀ st : Stack,
    boundedM st.length m = true →
    (∀ pkg ver, (matches_ver env m pkg ver st).isSome = true) ∧
      (∀ pkg, (matches_pkg env m pkg st).isSome = true) ∧
      (∀ pkg ver, (get_match_ver env m pkg ver st).isSome = true) ∧
      (∀ pkg, (get_match_pkg env m pkg st).isSome = true) := by
  intro m
  induction m with
  | name pat =>
    intro st _
    refine no_abort_default env _ (by rfl) st (fun _ _ => ?_) (fun _ _ => ?_) <;> rfl
  | description pat =>
    intro st _
    refine no_abort_default env _ (by rfl) st (fun _ _ => ?_) (fun _ _ => ?_) <;> rfl
  | maintainer pat =>
    intro st _
    refine no_abort_default env _ (by rfl) st (fun _ _ => ?_) (fun _ _ => ?_) <;> rfl
  | sect pat =>
    intro st _
    refine no_abort_default env _ (by rfl) st (fun _ _ => ?_) (fun _ _ => ?_) <;> rfl
  | version pat =>
    intro st _
    refine no_abort_default env _ (by rfl) st (fun _ _ => ?_) (fun _ _ => ?_) <;> rfl
  | currVersion =>
    intro st _
    refine no_abort_default env _ (by rfl) st (fun _ _ => ?_) (fun _ _ => ?_) <;> rfl
  | candVersion =>
    intro st _
    refine no_abort_default env _ (by rfl) st (fun _ _ => ?_) (fun _ _ => ?_) <;> rfl
  | instVersion =>
    intro st _
    refine no_abort_default env _ (by rfl) st (fun _ _ => ?_) (fun _ _ => ?_) <;> rfl
  | archive pat =>
    intro st _
    refine no_abort_default env _ (by rfl) st (fun _ _ => ?_) (fun _ _ => ?_) <;> rfl
  | origin pat =>
    intro st _
    refine no_abort_default env _ (by rfl) st (fun _ _ => ?_) (fun _ _ => ?_) <;> rfl
  | sourcePackage pat =>
    intro st _
    refine no_abort_default env _ (by rfl) st (fun _ _ => ?_) (fun _ _ => ?_) <;> rfl
  | sourceVersion pat =>
    intro st _
    refine no_abort_default env _ (by rfl) st (fun _ _ => ?_) (fun _ _ => ?_) <;> rfl
  | task pat =>
    intro st _
    refine no_abort_default env _ (by rfl) st (fun _ _ => ?_) (fun _ _ => ?_) <;> rfl
  | tag pat =>
    intro st _
    refine no_abort_default env _ (by rfl) st (fun _ _ => ?_) (fun _ _ => ?_) <;> rfl
  | userTag pat =>
    intro st _
    refine no_abort_default env _ (by rfl) st (fun _ _ => ?_) (fun _ _ => ?_) <;> rfl
  | priority level =>
    intro st _
    refine no_abort_default env _ (by rfl) st (fun _ _ => ?_) (fun _ _ => ?_) <;> rfl
  | auto =>
    intro st _
    refine no_abort_default env _ (by rfl) st (fun _ _ => ?_) (fun _ _ => ?_) <;> rfl
  | broken =>
    intro st _
    refine no_abort_default env _ (by rfl) st (fun _ _ => ?_) (fun _ _ => ?_) <;> rfl
  | brokenType t =>
    intro st _
    refine no_abort_default env _ (by rfl) st (fun _ _ => ?_) (fun _ _ => ?_) <;> rfl
  | action st0 requirePurge =>
    intro st _
    refine no_abort_default env _ (by rfl) st (fun _ _ => ?_) (fun _ _ => ?_) <;> rfl
  | keep =>
    intro st _
    refine no_abort_default env _ (by rfl) st (fun _ _ => ?_) (fun _ _ => ?_) <;> rfl
  | installed =>
    intro st _
    refine no_abort_default env _ (by rfl) st (fun _ _ => ?_) (fun _ _ => ?_) <;> rfl
  | virtualPkg =>
    intro st _
    refine no_abort_default env _ (by rfl) st (fun _ _ => ?_) (fun _ _ => ?_) <;> rfl
  | essential =>
    intro st _
    refine no_abort_default env _ (by rfl) st (fun _ _ => ?_) (fun _ _ => ?_) <;> rfl
  | configFiles =>
    intro st _
    refine no_abort_default env _ (by rfl) st (fun _ _ => ?_) (fun _ _ => ?_) <;> rfl
  | newPkg =>
    intro st _
    refine no_abort_default env _ (by rfl) st (fun _ _ => ?_) (fun _ _ => ?_) <;> rfl
  | upgradable =>
    intro st _
    refine no_abort_default env _ (by rfl) st (fun _ _ => ?_) (fun _ _ => ?_) <;> rfl
  | obsolete =>
    intro st _
    refine no_abort_default env _ (by rfl) st (fun _ _ => ?_) (fun _ _ => ?_) <;> rfl
  | garbage =>
    intro st _
    refine no_abort_default env _ (by rfl) st (fun _ _ => ?_) (fun _ _ => ?_) <;> rfl
  | mtrue =>
    intro st _
    refine no_abort_default env _ (by rfl) st (fun _ _ => ?_) (fun _ _ => ?_) <;> rfl
  | mfalse =>
    intro st _
    refine no_abort_default env _ (by rfl) st (fun _ _ => ?_) (fun _ _ => ?_) <;> rfl
  | equal idx =>
    intro st hb
    rw [boundedM, decide_eq_true_eq] at hb
    have hsome : ∃ v, st.get? idx = some v := by
      cases hx : st.get? idx with
      | none => exact absurd (List.get?_eq_none.mp hx) (by omega)
      | some v => exact ⟨v, rfl⟩
    obtain ⟨v, hv⟩ := hsome
    refine no_abort_default env _ (by rfl) st (fun pkg ver => ?_) (fun pkg ver => ?_)
    · rw [show matches_ver env (.equal idx) pkg ver st =
        (match st.get? idx with
         | none => none
         | some v => some (v.is_match_for (.version pkg ver))) from rfl, hv]
      rfl
    · rw [show get_match_ver env (.equal idx) pkg ver st =
        (match st.get? idx with
         | none => none
         | some v =>
           some (if v.is_match_for (.version pkg ver) then some .empty
             else none)) from rfl, hv]
      rfl
  | and l r ihl ihr =>
    intro st hb
    rw [boundedM, Bool.and_eq_true] at hb
    have hl := ihl st hb.1
    have hr := ihr st hb.2
    refine ⟨fun pkg ver => ?_, fun pkg => ?_, fun pkg ver => ?_, fun pkg => ?_⟩
    · rw [matches_ver_and]
      have h1 := hl.1 pkg ver
      cases hm : matches_ver env l pkg ver st with
      | none => rw [hm] at h1; cases h1
      | some b =>
        cases b with
        | false => rfl
        | true => exact hr.1 pkg ver
    · rw [matches_pkg_and]
      have h1 := hl.2.1 pkg
      cases hm : matches_pkg env l pkg st with
      | none => rw [hm] at h1; cases h1
      | some b =>
        cases b with
        | false => rfl
        | true => exact hr.2.1 pkg
    · rw [get_match_ver_and]
      have h1 := hl.2.2.1 pkg ver
      cases hm : get_match_ver env l pkg ver st with
      | none => rw [hm] at h1; cases h1
      | some b =>
        cases b with
        | none => rfl
        | some r1 =>
          have h2 := hr.2.2.1 pkg ver
          cases hn : get_match_ver env r pkg ver st with
          | none => rw [hn] at h2; cases h2
          | some b2 => cases b2 <;> rfl
    · rw [get_match_pkg_and]
      have h1 := hl.2.2.2 pkg
      cases hm : get_match_pkg env l pkg st with
      | none => rw [hm] at h1; cases h1
      | some b =>
        cases b with
        | none => rfl
        | some r1 =>
          have h2 := hr.2.2.2 pkg
          cases hn : get_match_pkg env r pkg st with
          | none => rw [hn] at h2; cases h2
          | some b2 => cases b2 <;> rfl
  | or l r ihl ihr =>
    intro st hb
    rw [boundedM, Bool.and_eq_true] at hb
    have hl := ihl st hb.1
    have hr := ihr st hb.2
    refine ⟨fun pkg ver => ?_, fun pkg => ?_, fun pkg ver => ?_, fun pkg => ?_⟩
    · rw [matches_ver_or]
      have h1 := hl.1 pkg ver
      cases hm : matches_ver env l pkg ver st with
      | none => rw [hm] at h1; cases h1
      | some b =>
        cases b with
        | true => rfl
        | false => exact hr.1 pkg ver
    · rw [matches_pkg_or]
      have h1 := hl.2.1 pkg
      cases hm : matches_pkg env l pkg st with
      | none => rw [hm] at h1; cases h1
      | some b =>
        cases b with
        | true => rfl
        | false => exact hr.2.1 pkg
    · rw [get_match_ver_or]
      have h1 := hl.2.2.1 pkg ver
      cases hm : get_match_ver env l pkg ver st with
      | none => rw [hm] at h1; cases h1
      | some b =>
        cases b with
        | some r1 => rfl
        | none => exact hr.2.2.1 pkg ver
    · rw [get_match_pkg_or]
      have h1 := hl.2.2.2 pkg
      cases hm : get_match_pkg env l pkg st with
      | none => rw [hm] at h1; cases h1
      | some b =>
        cases b with
        | some r1 => rfl
        | none => exact hr.2.2.2 pkg
  | not c ih =>
    intro st hb
    rw [boundedM] at hb
    have hc := ih st hb
    refine ⟨fun pkg ver => ?_, fun pkg => ?_, fun pkg ver => ?_, fun pkg => ?_⟩
    · rw [matches_ver_not]
      have h1 := hc.1 pkg ver
      cases hm : matches_ver env c pkg ver st with
      | none => rw [hm] at h1; cases h1
      | some b => rfl
    · rw [matches_pkg_not]
      have h1 := hc.2.1 pkg
      cases hm : matches_pkg env c pkg st with
      | none => rw [hm] at h1; cases h1
      | some b => rfl
    · rw [get_match_ver_not]
      have h1 := hc.2.2.1 pkg ver
      cases hm : get_match_ver env c pkg ver st with
      | none => rw [hm] at h1; cases h1
      | some b => cases b <;> rfl
    · rw [get_match_pkg_not]
      have h1 := hc.2.2.2 pkg
      cases hm : get_match_pkg env c pkg st with
      | none => rw [hm] at h1; cases h1
      | some b => cases b <;> rfl
  | dep t b p ih =>
    intro st hb
    rw [boundedM] at hb
    have hp := ih st hb
    refine no_abort_default env _ (by rfl) st (fun pkg ver => ?_) (fun pkg ver => ?_)
    · rw [matches_ver_dep]
      cases ver with
      | none => rfl
      | some v => exact depLoop_isSome env t b _ (fun q w => hp.1 q w) (env.deps v)
    · rw [get_match_ver_dep]
      cases ver with
      | none => rfl
      | some v =>
        exact depGetLoop_isSome env t b _ (fun q w => hp.2.2.1 q w) (env.deps v)
  | revdep t b p ih =>
    intro st hb
    rw [boundedM] at hb
    have hp := ih st hb
    refine no_abort_default env _ (by rfl) st (fun pkg ver => ?_) (fun pkg ver => ?_)
    · rw [matches_ver_revdep]
      have h1 := revdepLoop_isSome env t b ver _ (fun q w => hp.1 q w)
        (env.revDeps pkg)
      cases hx : revdepLoop env t b ver (fun q w => matches_ver env p q w st)
          (env.revDeps pkg) with
      | none => rw [hx] at h1; cases h1
      | some b1 =>
        cases b1 with
        | true => rfl
        | false =>
          cases ver with
          | none => rfl
          | some v =>
            exact revdepPrvOuter_isSome env t b _ (fun q w => hp.1 q w)
              (env.providesOf v)
    · rw [get_match_ver_revdep]
      have h1 := revdepGetLoop_isSome env t b ver _ (fun q w => hp.2.2.1 q w)
        (env.revDeps pkg)
      cases hx : revdepGetLoop env t b ver (fun q w => get_match_ver env p q w st)
          (env.revDeps pkg) with
      | none => rw [hx] at h1; cases h1
      | some b1 =>
        cases b1 with
        | some r1 => rfl
        | none =>
          cases ver with
          | none => rfl
          | some v =>
            exact revdepPrvGetOuter_isSome env t b _ (fun q w => hp.2.2.1 q w)
              (env.providesOf v)
  | provides p ih =>
    intro st hb
    rw [boundedM] at hb
    have hp := ih st hb
    refine no_abort_default env _ (by rfl) st (fun pkg ver => ?_) (fun pkg ver => ?_)
    · rw [show matches_ver env (.provides p) pkg ver st =
        (match ver with
         | none => some false
         | some v =>
           firstTrue (fun q => matches_pkg env p q st) (env.providesOf v)) from rfl]
      cases ver with
      | none => rfl
      | some v => exact firstTrue_isSome _ _ (fun a _ => hp.2.1 a)
    · rw [show get_match_ver env (.provides p) pkg ver st =
        (match ver with
         | none => some none
         | some v =>
           providesGetLoop (fun q => get_match_ver env p q none st)
             (env.providesOf v)) from rfl]
      cases ver with
      | none => rfl
      | some v => exact providesGetLoop_isSome _ (fun q => hp.2.2.1 q none) _
  | revprv p ih =>
    intro st hb
    rw [boundedM] at hb
    have hp := ih st hb
    refine no_abort_default env _ (by rfl) st (fun pkg ver => ?_) (fun pkg ver => ?_)
    · rw [matches_ver_revprv]
      exact firstTrue_isSome _ _ (fun a _ => hp.1 a.1 (some a.2))
    · rw [get_match_ver_revprv]
      exact revprvGetLoop_isSome _ (fun q w => hp.2.2.1 q (some w)) _
  | widen p ih =>
    intro st hb
    rw [boundedM] at hb
    have hp := ih st hb
    exact ⟨fun pkg ver => hp.2.1 pkg, fun pkg => hp.2.1 pkg,
      fun pkg ver => hp.2.2.2 pkg, fun pkg => hp.2.2.2 pkg⟩
  | select f x ihf ihx =>
    intro st hb
    rw [boundedM, Bool.and_eq_true] at hb
    have hf := ihf st hb.1
    have hx := ihx st hb.2
    refine no_abort_default env _ (by rfl) st (fun pkg ver => ?_) (fun pkg ver => ?_)
    · rw [matches_ver_select]
      have h1 := hf.1 pkg ver
      cases hm : matches_ver env f pkg ver st with
      | none => rw [hm] at h1; cases h1
      | some b =>
        cases b with
        | false => rfl
        | true => exact hx.1 pkg ver
    · rw [get_match_ver_select]
      have h1 := hf.1 pkg ver
      cases hm : matches_ver env f pkg ver st with
      | none => rw [hm] at h1; cases h1
      | some b =>
        cases b with
        | false => rfl
        | true => exact hx.2.2.1 pkg ver
  | allVersions s ih =>
    intro st hb
    rw [boundedM] at hb
    have hs := ih st hb
    refine ⟨fun pkg ver => hs.1 pkg ver, fun pkg => ?_,
      fun pkg ver => hs.2.2.1 pkg ver, fun pkg => ?_⟩
    · exact allTrue_isSome _ _ (fun a _ => hs.1 pkg (some a))
    · exact allGet_isSome _ _ (fun a _ => hs.2.2.1 pkg (some a))
  | anyVersion s ih =>
    intro st hb
    rw [boundedM] at hb
    have hs := ih st hb
    refine ⟨fun pkg ver => hs.1 pkg ver, fun pkg => ?_,
      fun pkg ver => hs.2.2.1 pkg ver, fun pkg => ?_⟩
    · exact firstTrue_isSome _ _ (fun a _ => hs.1 pkg (some a))
    · exact firstSome_isSome _ _ (fun a _ => hs.2.2.1 pkg (some a))
  | explicitM s ih =>
    intro st hb
    rw [boundedM] at hb
    refine ⟨fun pkg ver => ?_, fun pkg => ?_, fun pkg ver => ?_, fun pkg => ?_⟩
    · exact (ih (st ++ [.version pkg ver]) (by simpa using hb)).1 pkg ver
    · exact (ih (st ++ [.package pkg]) (by simpa using hb)).2.1 pkg
    · exact (ih (st ++ [.version pkg ver]) (by simpa using hb)).2.2.2 pkg
    · exact (ih (st ++ [.package pkg]) (by simpa using hb)).2.2.2 pkg
  | bindM s idx ih =>
    intro st hb
    rw [boundedM, Bool.and_eq_true, decide_eq_true_eq] at hb
    have hs := ih st hb.2
    have hsome : ∃ v, st.get? idx = some v := by
      cases hx : st.get? idx with
      | none =>
        have := List.get?_eq_none.mp hx
        omega
      | some v => exact ⟨v, rfl⟩
    obtain ⟨v, hv⟩ := hsome
    refine ⟨fun pkg ver => ?_, fun pkg => ?_, fun pkg ver => ?_, fun pkg => ?_⟩
    · rw [matches_ver_bind, hv]
      cases v with
      | package p => exact hs.2.1 p
      | version p w => exact hs.1 p w
    · rw [matches_pkg_bind, hv]
      cases v with
      | package p => exact hs.2.1 p
      | version p w => exact hs.1 p w
    · rw [get_match_ver_bind, hv]
      cases v with
      | package p => exact hs.2.2.2 p
      | version p w => exact hs.2.2.1 p w
    · rw [get_match_pkg_bind, hv]
      cases v with
      | package p => exact hs.2.2.2 p
      | version p w => exact hs.2.2.1 p w

/-- Validity of the compile-time name environment at binder depth `d`: its
size never exceeds the depth and every recorded index is below the
depth. -/
def envOk (e : ParseEnv) (d : Nat) : Prop :=
  envSize e ≤ d ∧ ∀ p ∈ e, p.2 < d

/-- The empty environment is valid at any depth. -/
theorem envOk_nil (d : Nat) : envOk [] d :=
  ⟨Nat.zero_le d, fun p hp => absurd hp (List.not_mem_nil p)⟩

/-- A successful environment lookup yields an index below the depth. -/
theorem envGet_lt {e : ParseEnv} {d : Nat} {k : String} {i : Nat}
    (he : envOk e d) (h : envGet e k = some i) : i < d := by
  simp only [envGet, Option.map_eq_some'] at h
  obtain ⟨p, hp, hpi⟩ := h
  have := he.2 p (List.mem_of_find?_eq_some hp)
  omega

/-- Binding the next De Bruijn index (the environment's size) preserves
validity at the next depth, whether the name is fresh or rebound. -/
theorem envOk_bind {e : ParseEnv} {d : Nat} (he : envOk e d) (k : String) :
    envOk (envBind e k (envSize e)) (d + 1) := by
  constructor
  · simp only [envBind]
    split
    · simpa [envSize] using Nat.le_trans he.1 (Nat.le_succ d)
    · simpa [envSize] using Nat.succ_le_succ he.1
  · intro p hp
    simp only [envBind] at hp
    split at hp
    · obtain ⟨q, hq, heq⟩ := List.mem_map.mp hp
      by_cases hk : q.1 = k
      · rw [if_pos hk] at heq
        rw [← heq]
        have := he.1
        simp only [envSize] at this ⊢
        omega
      · rw [if_neg hk] at heq
        rw [← heq]
        exact Nat.lt_trans (he.2 q hq) (Nat.lt_succ_self d)
    · rcases List.mem_cons.mp hp with hp | hp
      · rw [hp]
        have := he.1
        simp only [envSize] at this ⊢
        omega
      · exact Nat.lt_trans (he.2 p hp) (Nat.lt_succ_self d)

/-- A successful `get_variable_index` yields an index below the depth. -/
theorem get_variable_index_lt {k : String} {e : ParseEnv} {d i : Nat}
    (he : envOk e d) (h : get_variable_index k e = .ok i) : i < d := by
  unfold get_variable_index at h
  cases hg : envGet e k with
  | none => rw [hg] at h; cases h
  | some j =>
    rw [hg] at h
    cases h
    exact envGet_lt he hg

/-- Everything `make_action_matcher` builds is variable-free. -/
theorem make_action_matcher_bounded {s : String} {m : Matcher} (d : Nat)
    (h : make_action_matcher s = .ok m) : boundedM d m = true := by
  unfold make_action_matcher at h
  repeat' split at h
  all_goals first
    | (cases h; rfl)
    | exact Except.noConfusion h

/-- Everything `make_package_version_matcher` builds is variable-free. -/
theorem make_package_version_matcher_bounded (s : String) (d : Nat) :
    boundedM d (make_package_version_matcher s) = true := by
  unfold make_package_version_matcher
  repeat' split
  all_goals rfl

/-- `maybe_bind` preserves boundedness: either the matcher passes through
or it is wrapped with an index found in the (valid) environment. -/
theorem maybe_bind_bounded {bound : String} {m : Matcher} {e : ParseEnv}
    {d : Nat} {m2 : Matcher} (he : envOk e d) (hm : boundedM d m = true)
    (h : maybe_bind bound m e = .ok m2) : boundedM d m2 = true := by
  unfold maybe_bind at h
  split at h
  · cases h; exact hm
  · cases hg : get_variable_index bound e with
    | error err => rw [hg] at h; cases h
    | ok i =>
      rw [hg] at h
      cases h
      have := get_variable_index_lt he hg
      simp [boundedM, hm, this]

/-- Every matcher built by a short-form string-argument leaf is
variable-free. -/
theorem short_form_char_matcher_bounded {flag : Char} {sub : String}
    {s1 : List Char} {m : Matcher} {rest : List Char} (d : Nat)
    (h : short_form_char_matcher flag sub s1 = .ok (m, rest)) :
    boundedM d m = true := by
  unfold short_form_char_matcher at h
  by_cases h1 : flag = 'a'
  · rw [if_pos h1] at h
    cases heqa : make_action_matcher sub with
    | error err => rw [heqa] at h; exact Except.noConfusion h
    | ok m1 =>
      rw [heqa] at h; cases h
      exact make_action_matcher_bounded d heqa
  rw [if_neg h1] at h
  by_cases h2 : flag = 'A'
  · rw [if_pos h2] at h; cases h; rfl
  rw [if_neg h2] at h
  by_cases h3 : flag = 'B'
  · rw [if_pos h3] at h
    cases hdt : parse_deptype sub with
    | none => rw [hdt] at h; exact Except.noConfusion h
    | some t => rw [hdt] at h; cases h; rfl
  rw [if_neg h3] at h
  by_cases h4 : flag = 'd'
  · rw [if_pos h4] at h; cases h; rfl
  rw [if_neg h4] at h
  by_cases h5 : flag = 'G'
  · rw [if_pos h5] at h; cases h; rfl
  rw [if_neg h5] at h
  by_cases h6 : flag = 'F'
  · rw [if_pos h6] at h; cases h; rfl
  rw [if_neg h6] at h
  by_cases h7 : flag = 'm'
  · rw [if_pos h7] at h; cases h; rfl
  rw [if_neg h7] at h
  by_cases h8 : flag = 'n'
  · rw [if_pos h8] at h; cases h; rfl
  rw [if_neg h8] at h
  by_cases h9 : flag = 'O'
  · rw [if_pos h9] at h; cases h; rfl
  rw [if_neg h9] at h
  by_cases h10 : flag = 'p'
  · rw [if_pos h10] at h
    cases hl : parse_priority sub with
    | error err => rw [hl] at h; exact Except.noConfusion h
    | ok l => rw [hl] at h; cases h; rfl
  rw [if_neg h10] at h
  by_cases h11 : flag = 's'
  · rw [if_pos h11] at h; cases h; rfl
  rw [if_neg h11] at h
  by_cases h12 : flag = 't'
  · rw [if_pos h12] at h; cases h; rfl
  rw [if_neg h12] at h
  by_cases h13 : flag = 'T'
  · rw [if_pos h13] at h; cases h; rfl
  rw [if_neg h13] at h
  by_cases h14 : flag = 'V'
  · rw [if_pos h14] at h; cases h
    exact make_package_version_matcher_bounded sub d
  rw [if_neg h14] at h
  exact Except.noConfusion h

/-! Boundedness statements for each parse function at one fuel value; the
fuel induction below proves them all simultaneously. -/

/-- Boundedness of `parse_condition_list` results. -/
def PBcond (fuel : Nat) : Prop :=
  ∀ s terms sd wide e d m rest, envOk e d →
    parse_condition_list fuel s terms sd wide e = .ok (m, rest) →
    boundedM d m = true

/-- Boundedness of `parse_and_group` results. -/
def PBand (fuel : Nat) : Prop :=
  ∀ s terms sd wide e d m rest, envOk e d →
    parse_and_group fuel s terms sd wide e = .ok (m, rest) →
    boundedM d m = true

/-- Boundedness of `parse_and_group_go` results given a bounded
accumulator. -/
def PBgo (fuel : Nat) : Prop :=
  ∀ acc s terms sd wide e d m rest, envOk e d →
    (∀ m0, acc = some m0 → boundedM d m0 = true) →
    parse_and_group_go fuel acc s terms sd wide e = .ok (m, rest) →
    boundedM d m = true

/-- Boundedness of `parse_atom` results. -/
def PBatom (fuel : Nat) : Prop :=
  ∀ s terms sd wide e d m rest, envOk e d →
    parse_atom fuel s terms sd wide e = .ok (m, rest) →
    boundedM d m = true

/-- Boundedness of `parse_short_form` results. -/
def PBshort (fuel : Nat) : Prop :=
  ∀ s terms sd wide e d m rest, envOk e d →
    parse_short_form fuel s terms sd wide e = .ok (m, rest) →
    boundedM d m = true

/-- Boundedness of `parse_short_dep` results. -/
def PBsdep (fuel : Nat) : Prop :=
  ∀ flag s terms sd e d m rest, envOk e d →
    parse_short_dep fuel flag s terms sd e = .ok (m, rest) →
    boundedM d m = true

/-- Boundedness of `parse_short_dep_tail` results. -/
def PBsdtail (fuel : Nat) : Prop :=
  ∀ flag brokenB s terms sd e d m rest, envOk e d →
    parse_short_dep_tail fuel flag brokenB s terms sd e = .ok (m, rest) →
    boundedM d m = true

/-- Boundedness of `parse_short_dep_target` results. -/
def PBsdtarget (fuel : Nat) : Prop :=
  ∀ flag brokenB doProvides dtype s terms sd e d m rest, envOk e d →
    parse_short_dep_target fuel flag brokenB doProvides dtype s terms sd e =
      .ok (m, rest) →
    boundedM d m = true

/-- Boundedness of `parse_function_style_matcher_tail` results. -/
def PBtail (fuel : Nat) : Prop :=
  ∀ s terms sd wide e d m rest, envOk e d →
    parse_function_style_matcher_tail fuel s terms sd wide e = .ok (m, rest) →
    boundedM d m = true

/-- Boundedness of `parse_matcher_args` results. -/
def PBargs (fuel : Nat) : Prop :=
  ∀ mname s terms sd wide e d m rest, envOk e d →
    parse_matcher_args fuel mname s terms sd wide e = .ok (m, rest) →
    boundedM d m = true

/-- Boundedness of `parse_matcher_args_table` results. -/
def PBtable (fuel : Nat) : Prop :=
  ∀ mname s terms sd wide e d m rest, envOk e d →
    parse_matcher_args_table fuel mname s terms sd wide e = .ok (m, rest) →
    boundedM d m = true

/-- Boundedness of `parse_binary_matcher` results for a boundedness
preserving combinator. -/
def PBbinary (fuel : Nat) : Prop :=
  ∀ (mk : Matcher → Matcher → Matcher) s terms sd wide e d m rest, envOk e d →
    (∀ a b, boundedM d a = true → boundedM d b = true →
      boundedM d (mk a b) = true) →
    parse_binary_matcher fuel mk s terms sd wide e = .ok (m, rest) →
    boundedM d m = true

/-- Boundedness of `parse_explicit_matcher` results. -/
def PBexplicit (fuel : Nat) : Prop :=
  ∀ mname s terms sd wide e d m rest, envOk e d →
    parse_explicit_matcher fuel mname s terms sd wide e = .ok (m, rest) →
    boundedM d m = true

/-- Boundedness of `parse_pkg_matcher_args` results. -/
def PBpkgargs (fuel : Nat) : Prop :=
  ∀ s terms sd wide e d m rest, envOk e d →
    parse_pkg_matcher_args fuel s terms sd wide e = .ok (m, rest) →
    boundedM d m = true

/-- Boundedness of `parse_optional_pkg_matcher_args` results. -/
def PBopt (fuel : Nat) : Prop :=
  ∀ s terms sd wide e d om rest, envOk e d →
    parse_optional_pkg_matcher_args fuel s terms sd wide e = .ok (om, rest) →
    ∀ m0, om = some m0 → boundedM d m0 = true

set_option maxHeartbeats 8000000 in
/-- Simultaneous fuel induction: every parse function only builds matchers
whose De Bruijn indices are bounded by the depth of any valid name
environment. -/
theorem parse_bounded : ∀ fuel : Nat,
    PBcond fuel ∧ PBand fuel ∧ PBgo fuel ∧ PBatom fuel ∧ PBshort fuel ∧
      PBsdep fuel ∧ PBsdtail fuel ∧ PBsdtarget fuel ∧ PBtail fuel ∧
      PBargs fuel ∧ PBtable fuel ∧ PBbinary fuel ∧ PBexplicit fuel ∧
      PBpkgargs fuel ∧ PBopt fuel := by
  intro fuel
  induction fuel with
  | zero =>
    refine ⟨?_, ?_, ?_, ?_, ?_, ?_, ?_, ?_, ?_, ?_, ?_, ?_, ?_, ?_, ?_⟩
    · intro s terms sd wide e d m rest henv hp
      simp [parse_condition_list] at hp
    · intro s terms sd wide e d m rest henv hp
      simp [parse_and_group] at hp
    · intro acc s terms sd wide e d m rest henv hacc hp
      simp [parse_and_group_go] at hp
    · intro s terms sd wide e d m rest henv hp
      simp [parse_atom] at hp
    · intro s terms sd wide e d m rest henv hp
      simp [parse_short_form] at hp
    · intro flag s terms sd e d m rest henv hp
      simp [parse_short_dep] at hp
    · intro flag brokenB s terms sd e d m rest henv hp
      simp [parse_short_dep_tail] at hp
    · intro flag brokenB doProvides dtype s terms sd e d m rest henv hp
      simp [parse_short_dep_target] at hp
    · intro s terms sd wide e d m rest henv hp
      simp [parse_function_style_matcher_tail] at hp
    · intro mname s terms sd wide e d m rest henv hp
      simp [parse_matcher_args] at hp
    · intro mname s terms sd wide e d m rest henv hp
      simp [parse_matcher_args_table] at hp
    · intro mk s terms sd wide e d m rest henv hmk hp
      simp [parse_binary_matcher] at hp
    · intro mname s terms sd wide e d m rest henv hp
      simp [parse_explicit_matcher] at hp
    · intro s terms sd wide e d m rest henv hp
      simp [parse_pkg_matcher_args] at hp
    · intro s terms sd wide e d om rest henv hp m0 hm0
      simp [parse_optional_pkg_matcher_args] at hp
  | succ n ih =>
    obtain ⟨ihc, iha, ihg, ihat, ihsh, ihsd, ihsdt, ihsdg, ihft, ihar, ihtb,
      ihbin, ihex, ihpk, iho⟩ := ih
    refine ⟨?_, ?_, ?_, ?_, ?_, ?_, ?_, ?_, ?_, ?_, ?_, ?_, ?_, ?_, ?_⟩
    · -- parse_condition_list
      intro s terms sd wide e d m rest henv hp
      simp only [parse_condition_list] at hp
      split at hp
      · exact Except.noConfusion hp
      · rename_i grp s1 heq
        split at hp
        · cases hp
          exact iha _ _ _ _ _ _ _ _ henv heq
        · split at hp
          · rename_i rest2 heqw
            split at hp
            · exact Except.noConfusion hp
            · rename_i grp2 s3 heq2
              cases hp
              simp only [boundedM, Bool.and_eq_true]
              exact ⟨iha _ _ _ _ _ _ _ _ henv heq,
                ihc _ _ _ _ _ _ _ _ henv heq2⟩
          · exact Except.noConfusion hp
    · -- parse_and_group
      intro s terms sd wide e d m rest henv hp
      simp only [parse_and_group] at hp
      exact ihg none _ _ _ _ _ _ _ _ henv (fun m0 h0 => nomatch h0) hp
    · -- parse_and_group_go
      intro acc s terms sd wide e d m rest henv hacc hp
      simp only [parse_and_group_go] at hp
      split at hp
      · split at hp
        · exact Except.noConfusion hp
        · cases hp
          exact hacc _ rfl
      · split at hp
        · exact Except.noConfusion hp
        · rename_i atom s1 heq
          cases acc with
          | none =>
            exact ihg _ _ _ _ _ _ _ _ _ henv
              (fun m0 h0 => by
                cases h0
                exact ihat _ _ _ _ _ _ _ _ henv heq) hp
          | some mm =>
            exact ihg _ _ _ _ _ _ _ _ _ henv
              (fun m0 h0 => by
                cases h0
                simp only [boundedM, Bool.and_eq_true]
                exact ⟨hacc mm rfl, ihat _ _ _ _ _ _ _ _ henv heq⟩) hp
    · -- parse_atom
      intro s terms sd wide e d m rest henv hp
      simp only [parse_atom] at hp
      split at hp
      · exact Except.noConfusion hp
      · split at hp
        · -- negation
          split at hp
          · exact Except.noConfusion hp
          · rename_i m1 s1 heq
            cases hp
            simpa only [boundedM] using ihat _ _ _ _ _ _ _ _ henv heq
        · -- parenthesized group
          split at hp
          · exact Except.noConfusion hp
          · rename_i lst s1 heq
            split at hp
            · cases hp
              exact ihc _ _ _ _ _ _ _ _ henv heq
            · exact Except.noConfusion hp
        · -- function style
          exact ihft _ _ _ _ _ _ _ _ henv hp
        · -- short form
          exact ihsh _ _ _ _ _ _ _ _ henv hp
        · -- bare string
          split at hp
          · exact Except.noConfusion hp
          · rename_i sub s1 heq
            split at hp
            · cases hp; rfl
            · cases hp; rfl
    · -- parse_short_form
      intro s terms sd wide e d m rest henv hp
      unfold parse_short_form at hp
      dsimp only at hp
      split at hp
      · split at hp
        · cases hp; rfl
        · cases hp; rfl
      · rename_i flag rest0 heq0
        by_cases h1 : flag = 'v'
        · rw [if_pos h1] at hp; cases hp; rfl
        rw [if_neg h1] at hp
        by_cases h2 : flag = 'b'
        · rw [if_pos h2] at hp; cases hp; rfl
        rw [if_neg h2] at hp
        by_cases h3 : flag = 'g'
        · rw [if_pos h3] at hp; cases hp; rfl
        rw [if_neg h3] at hp
        by_cases h4 : flag = 'c'
        · rw [if_pos h4] at hp; cases hp; rfl
        rw [if_neg h4] at hp
        by_cases h5 : flag = 'i'
        · rw [if_pos h5] at hp; cases hp; rfl
        rw [if_neg h5] at hp
        by_cases h6 : flag = 'E'
        · rw [if_pos h6] at hp; cases hp; rfl
        rw [if_neg h6] at hp
        by_cases h7 : flag = 'M'
        · rw [if_pos h7] at hp; cases hp; rfl
        rw [if_neg h7] at hp
        by_cases h8 : flag = 'N'
        · rw [if_pos h8] at hp; cases hp; rfl
        rw [if_neg h8] at hp
        by_cases h9 : flag = 'U'
        · rw [if_pos h9] at hp; cases hp; rfl
        rw [if_neg h9] at hp
        by_cases h10 : flag = 'o'
        · rw [if_pos h10] at hp; cases hp; rfl
        rw [if_neg h10] at hp
        by_cases hPCW : (flag = 'P' || flag = 'C' || flag = 'W' : Bool) = true
        · -- provides / conflicts / widen wrappers
          rw [if_pos hPCW] at hp
          split at hp
          · exact Except.noConfusion hp
          · rename_i m1 s1 heq
            split at hp
            · cases hp
              simpa only [boundedM] using ihat _ _ _ _ _ _ _ _ henv heq
            · split at hp
              · cases hp
                simpa only [boundedM] using ihat _ _ _ _ _ _ _ _ henv heq
              · cases hp
                simpa only [boundedM] using ihat _ _ _ _ _ _ _ _ henv heq
        rw [if_neg hPCW] at hp
        by_cases hS : flag = 'S'
        · -- narrow short form
          rw [if_pos hS] at hp
          split at hp
          · exact Except.noConfusion hp
          · rename_i f1 s1 heq1
            split at hp
            · exact Except.noConfusion hp
            · rename_i x1 s2 heq2
              cases hp
              simp only [boundedM, Bool.and_eq_true]
              exact ⟨ihat _ _ _ _ _ _ _ _ henv heq1,
                ihat _ _ _ _ _ _ _ _ henv heq2⟩
        rw [if_neg hS] at hp
        by_cases hDR : (flag = 'D' || flag = 'R' : Bool) = true
        · -- dependency short forms
          rw [if_pos hDR] at hp
          exact ihsd _ _ _ _ _ _ _ _ henv hp
        rw [if_neg hDR] at hp
        -- string-argument group
        split at hp
        · exact Except.noConfusion hp
        · exact short_form_char_matcher_bounded d hp
    · -- parse_short_dep
      intro flag s terms sd e d m rest henv hp
      simp only [parse_short_dep] at hp
      split at hp
      · exact ihsdt _ _ _ _ _ _ _ _ _ henv hp
      · exact ihsdt _ _ _ _ _ _ _ _ _ henv hp
    · -- parse_short_dep_tail
      intro flag brokenB s terms sd e d m rest henv hp
      simp only [parse_short_dep_tail] at hp
      split at hp
      · split at hp
        · exact ihsdg _ _ _ _ _ _ _ _ _ _ _ henv hp
        · split at hp
          · exact Except.noConfusion hp
          · exact ihsdg _ _ _ _ _ _ _ _ _ _ _ henv hp
      · exact ihsdg _ _ _ _ _ _ _ _ _ _ _ henv hp
    · -- parse_short_dep_target
      intro flag brokenB doProvides dtype s terms sd e d m rest henv hp
      simp only [parse_short_dep_target] at hp
      split at hp
      · exact Except.noConfusion hp
      · split at hp
        · exact Except.noConfusion hp
        · rename_i m1 s1 heq
          split at hp
          · split at hp
            · cases hp
              simpa only [boundedM] using ihat _ _ _ _ _ _ _ _ henv heq
            · cases hp
              simpa only [boundedM] using ihat _ _ _ _ _ _ _ _ henv heq
          · split at hp
            · cases hp
              simpa only [boundedM] using ihat _ _ _ _ _ _ _ _ henv heq
            · cases hp
              simpa only [boundedM] using ihat _ _ _ _ _ _ _ _ henv heq
    · -- parse_function_style_matcher_tail
      intro s terms sd wide e d m rest henv hp
      simp only [parse_function_style_matcher_tail] at hp
      split at hp
      · -- equality form
        split at hp
        · exact Except.noConfusion hp
        · split at hp
          · exact Except.noConfusion hp
          · rename_i i heq
            cases hp
            simp only [boundedM, decide_eq_true_eq]
            exact get_variable_index_lt henv heq
      · -- named matcher
        split at hp
        · exact Except.noConfusion hp
        · rename_i raw lower bound s1 heq
          split at hp
          · exact Except.noConfusion hp
          · rename_i m1 s2 heqm
            split at hp
            · exact Except.noConfusion hp
            · rename_i m2 heqb
              cases hp
              exact maybe_bind_bounded henv
                (ihar _ _ _ _ _ _ _ _ _ henv heqm) heqb
    · -- parse_matcher_args
      intro mname s terms sd wide e d m rest henv hp
      simp only [parse_matcher_args] at hp
      split at hp
      · -- not a dependency type
        split at hp
        · -- reverse-provides
          split at hp
          · exact Except.noConfusion hp
          · rename_i m1 s2 heq
            cases hp
            simpa only [boundedM] using ihpk _ _ _ _ _ _ _ _ henv heq
        · split at hp
          · exact Except.noConfusion hp
          · exact ihtb _ _ _ _ _ _ _ _ _ henv hp
      · -- a dependency type
        rename_i t heqdt
        split at hp
        · split at hp
          · exact Except.noConfusion hp
          · rename_i m1 s2 heq
            cases hp
            simpa only [boundedM] using ihpk _ _ _ _ _ _ _ _ henv heq
        · split at hp
          · split at hp
            · exact Except.noConfusion hp
            · rename_i m1 s2 heq
              cases hp
              simpa only [boundedM] using iho _ _ _ _ _ _ _ _ henv heq m1 rfl
            · cases hp; rfl
          · split at hp
            · exact Except.noConfusion hp
            · rename_i m1 s2 heq
              cases hp
              simpa only [boundedM] using ihpk _ _ _ _ _ _ _ _ henv heq
    · -- parse_matcher_args_table
      intro mname s terms sd wide e d m rest henv hp
      simp only [parse_matcher_args_table] at hp
      split at hp
      · exact Except.noConfusion hp
      · rename_i nm ty heqf
        split at hp
        · -- action
          split at hp
          · exact Except.noConfusion hp
          · rename_i sub s1 heqs
            split at hp
            · exact Except.noConfusion hp
            · rename_i m1 heqa
              cases hp
              exact make_action_matcher_bounded d heqa
        · -- all-versions
          split at hp
          · exact Except.noConfusion hp
          · split at hp
            · exact Except.noConfusion hp
            · rename_i m1 s1 heq
              cases hp
              simpa only [boundedM] using ihpk _ _ _ _ _ _ _ _ henv heq
        · -- and
          exact ihbin _ _ _ _ _ _ _ _ _ henv
            (fun a b ha hb => by simp [boundedM, ha, hb]) hp
        · -- any-version
          split at hp
          · exact Except.noConfusion hp
          · split at hp
            · exact Except.noConfusion hp
            · rename_i m1 s1 heq
              cases hp
              simpa only [boundedM] using ihpk _ _ _ _ _ _ _ _ henv heq
        · -- archive
          split at hp
          · exact Except.noConfusion hp
          · rename_i sub s1 heqs
            cases hp; rfl
        · -- automatic
          cases hp; rfl
        · -- bind
          split at hp
          · exact Except.noConfusion hp
          · rename_i s1 heq1
            split at hp
            · exact Except.noConfusion hp
            · rename_i varName s2 heq2
              split at hp
              · exact Except.noConfusion hp
              · rename_i idx heqi
                split at hp
                · exact Except.noConfusion hp
                · rename_i s3 heq3
                  split at hp
                  · exact Except.noConfusion hp
                  · rename_i m1 s4 heqm
                    split at hp
                    · exact Except.noConfusion hp
                    · rename_i s5 heq5
                      cases hp
                      simp only [boundedM, Bool.and_eq_true,
                        decide_eq_true_eq]
                      exact ⟨get_variable_index_lt henv heqi,
                        ihc _ _ _ _ _ _ _ _ henv heqm⟩
        · -- broken
          cases hp; rfl
        · -- config-files
          cases hp; rfl
        · -- description
          split at hp
          · exact Except.noConfusion hp
          · rename_i sub s1 heqs
            cases hp; rfl
        · -- essential
          cases hp; rfl
        · -- false
          cases hp; rfl
        · -- for
          exact ihex _ _ _ _ _ _ _ _ _ henv hp
        · -- garbage
          cases hp; rfl
        · -- installed
          cases hp; rfl
        · -- maintainer
          split at hp
          · exact Except.noConfusion hp
          · rename_i sub s1 heqs
            cases hp; rfl
        · -- name
          split at hp
          · exact Except.noConfusion hp
          · rename_i sub s1 heqs
            cases hp; rfl
        · -- narrow
          exact ihbin _ _ _ _ _ _ _ _ _ henv
            (fun a b ha hb => by simp [boundedM, ha, hb]) hp
        · -- new
          cases hp; rfl
        · -- not
          split at hp
          · exact Except.noConfusion hp
          · rename_i m1 s1 heq
            cases hp
            simpa only [boundedM] using ihpk _ _ _ _ _ _ _ _ henv heq
        · -- obsolete
          cases hp; rfl
        · -- or
          exact ihbin _ _ _ _ _ _ _ _ _ henv
            (fun a b ha hb => by simp [boundedM, ha, hb]) hp
        · -- origin
          split at hp
          · exact Except.noConfusion hp
          · rename_i sub s1 heqs
            cases hp; rfl
        · -- priority
          split at hp
          · exact Except.noConfusion hp
          · rename_i sub s1 heqs
            split at hp
            · exact Except.noConfusion hp
            · cases hp; rfl
        · -- provides
          split at hp
          · exact Except.noConfusion hp
          · rename_i m1 s1 heq
            cases hp
            simpa only [boundedM] using ihpk _ _ _ _ _ _ _ _ henv heq
        · -- section
          split at hp
          · exact Except.noConfusion hp
          · rename_i sub s1 heqs
            cases hp; rfl
        · -- source-package
          split at hp
          · exact Except.noConfusion hp
          · rename_i sub s1 heqs
            cases hp; rfl
        · -- source-version
          split at hp
          · exact Except.noConfusion hp
          · rename_i sub s1 heqs
            cases hp; rfl
        · -- tag
          split at hp
          · exact Except.noConfusion hp
          · rename_i sub s1 heqs
            cases hp; rfl
        · -- task
          split at hp
          · exact Except.noConfusion hp
          · rename_i sub s1 heqs
            cases hp; rfl
        · -- true
          cases hp; rfl
        · -- upgradable
          cases hp; rfl
        · -- user-tag
          split at hp
          · exact Except.noConfusion hp
          · rename_i sub s1 heqs
            cases hp; rfl
        · -- version
          split at hp
          · exact Except.noConfusion hp
          · rename_i sub s1 heqs
            cases hp
            exact make_package_version_matcher_bounded sub d
        · -- widen
          split at hp
          · exact Except.noConfusion hp
          · rename_i m1 s1 heq
            cases hp
            simpa only [boundedM] using ihpk _ _ _ _ _ _ _ _ henv heq
        · -- virtual
          cases hp; rfl
    · -- parse_binary_matcher
      intro mk s terms sd wide e d m rest henv hmk hp
      simp only [parse_binary_matcher] at hp
      split at hp
      · exact Except.noConfusion hp
      · rename_i s1 heq1
        split at hp
        · exact Except.noConfusion hp
        · rename_i a1 s2 heq2
          split at hp
          · exact Except.noConfusion hp
          · rename_i s3 heq3
            split at hp
            · exact Except.noConfusion hp
            · rename_i a2 s4 heq4
              split at hp
              · exact Except.noConfusion hp
              · rename_i s5 heq5
                cases hp
                exact hmk a1 a2 (ihc _ _ _ _ _ _ _ _ henv heq2)
                  (ihc _ _ _ _ _ _ _ _ henv heq4)
    · -- parse_explicit_matcher
      intro mname s terms sd wide e d m rest henv hp
      simp only [parse_explicit_matcher] at hp
      split at hp
      · exact Except.noConfusion hp
      · rename_i c rest2 heqw
        split at hp
        · exact Except.noConfusion hp
        · split at hp
          · exact Except.noConfusion hp
          · rename_i m1 s1 heqc
            cases hp
            simpa only [boundedM] using
              ihc _ _ _ _ _ _ _ _ (envOk_bind henv _) heqc
    · -- parse_pkg_matcher_args
      intro s terms sd wide e d m rest henv hp
      simp only [parse_pkg_matcher_args] at hp
      split at hp
      · exact Except.noConfusion hp
      · rename_i s1 heq1
        split at hp
        · exact Except.noConfusion hp
        · rename_i m1 s2 heq2
          split at hp
          · exact Except.noConfusion hp
          · rename_i s3 heq3
            cases hp
            exact ihc _ _ _ _ _ _ _ _ henv heq2
    · -- parse_optional_pkg_matcher_args
      intro s terms sd wide e d om rest henv hp m0 hm0
      simp only [parse_optional_pkg_matcher_args] at hp
      split at hp
      · split at hp
        · exact Except.noConfusion hp
        · rename_i m1 s1 heq
          cases hp
          cases hm0
          exact ihpk _ _ _ _ _ _ _ _ henv heq
      · cases hp
        exact Option.noConfusion hm0

/-- C4: every matcher produced by a successful `parse_pattern` has all its
`Equal`/`Bind` De Bruijn indices strictly below the depth of the variable
stack at the point where the node is evaluated (`boundedM 0` for the fresh
empty stack of the facades), and consequently evaluation started by
`apply_matcher` or `get_match` — in version mode or package mode — never
fires the index assertion: it always returns a defined result instead of
the abort modelled by `none`. -/
theorem parsed_matchers_never_abort (env : Env)
    (text : String) (terms : List String) (sd flag_errors rfp : Bool)
    (m : Matcher) (w : List String)
    (hp : parse_pattern text terms sd flag_errors rfp = (some m, w)) :
    boundedM 0 m = true ∧
    ∀ pkg ver,
      (apply_matcher env m pkg ver).isSome = true ∧
      (get_match env m pkg ver).isSome = true ∧
      (apply_matcher_wide env m pkg).isSome = true ∧
      (get_match_wide env m pkg).isSome = true := by
  have hb : boundedM 0 m = true := by
    simp only [parse_pattern] at hp
    split at hp
    · simp at hp
    · split at hp
      · simp at hp
      · rename_i mm s1 heq
        split at hp
        · simp at hp
        · simp only [Prod.mk.injEq, Option.some.injEq] at hp
          obtain ⟨hm, -⟩ := hp
          subst hm
          exact (parse_bounded _).1 _ _ _ _ _ _ _ _ (envOk_nil 0) heq
  refine ⟨hb, fun pkg ver => ?_⟩
  obtain ⟨h1, h2, h3, h4⟩ := eval_no_abort env m [] hb
  exact ⟨h1 pkg ver, h3 pkg ver, h2 pkg, h4 pkg⟩

/-- Witness: the concrete pattern `?for x: ?=x` parses to a matcher with an
`Equal` node of index 0, and all four evaluations on the trivial catalog
are defined for every package and version. -/
theorem parsed_matchers_never_abort_witness :
    boundedM 0 (Matcher.explicitM (.equal 0)) = true ∧
    ∀ pkg ver,
      (apply_matcher trivEnv (Matcher.explicitM (.equal 0)) pkg ver).isSome = true ∧
      (get_match trivEnv (Matcher.explicitM (.equal 0)) pkg ver).isSome = true ∧
      (apply_matcher_wide trivEnv (Matcher.explicitM (.equal 0)) pkg).isSome = true ∧
      (get_match_wide trivEnv (Matcher.explicitM (.equal 0)) pkg).isSome = true :=
  parsed_matchers_never_abort trivEnv "?for x: ?=x" [] false false false
    (Matcher.explicitM (.equal 0)) [] (by rfl)

end Aptitude
